import Mathlib

/-!
Verification of `map_object` (libexec/rtld-elf/map_object.c).

A shallow embedding of the object-mapping stage of the run-time linker.
System calls are modelled by an explicit environment that fixes the result of
every call the function can issue, and by a trace of the calls issued.
Machine words are natural numbers reduced modulo `2 ^ 64` wherever the C code
computes in `Elf_Addr`, `Elf_Off`, `size_t` or pointer arithmetic.
-/

namespace MapObject

/-! ## Machine arithmetic -/

/-- Number of values of a 64-bit machine word (`Elf_Addr`, `Elf_Off`, `size_t`, `vaddr_t`). -/
def W64 : Nat := 18446744073709551616

/-- Unsigned 64-bit addition, as C computes `a + b` on `Elf_Addr`, `size_t` and `char *`. -/
def add64 (a b : Nat) : Nat := (a + b) % W64

/-- Unsigned 64-bit subtraction, as C computes `a - b` on `Elf_Addr`, `size_t` and `char *`. -/
def sub64 (a b : Nat) : Nat := (a % W64 + W64 - b % W64) % W64

/-- Modelled from the spec: the page size of the target (`PAGE_SIZE` of machine/param.h, which is
not among the sources); 4096 bytes, as in the spec's scenarios. -/
def PAGE_SIZE : Nat := 4096

/-- Modelled from the spec: page-floor, the macro `trunc_page` of machine/param.h
(`(unsigned long)(x) & ~PAGE_MASK`). -/
def trunc_page (x : Nat) : Nat := x % W64 - (x % W64) % PAGE_SIZE

/-- Modelled from the spec: page-ceiling, the macro `round_page` of machine/param.h
(`((unsigned long)(x) + PAGE_MASK) & ~PAGE_MASK`); the addition wraps at 64 bits. -/
def round_page (x : Nat) : Nat := trunc_page (add64 x (PAGE_SIZE - 1))

/-- Modelled from the spec: the constant `MAP_FAILED` of sys/mman.h, which is not among the
sources: the value `(void *)-1` that `mmap` returns on failure. -/
def MAP_FAILED : Nat := W64 - 1

/-! ## Constants of the ELF and mmap interfaces (sys/elf_common.h, sys/mman.h) -/

/-- Modelled from the spec: the constant `EI_MAG0` of sys/elf_common.h, which is not among the sources. -/
def EI_MAG0 : Nat := 0
/-- Modelled from the spec: the constant `EI_MAG1` of sys/elf_common.h, which is not among the sources. -/
def EI_MAG1 : Nat := 1
/-- Modelled from the spec: the constant `EI_MAG2` of sys/elf_common.h, which is not among the sources. -/
def EI_MAG2 : Nat := 2
/-- Modelled from the spec: the constant `EI_MAG3` of sys/elf_common.h, which is not among the sources. -/
def EI_MAG3 : Nat := 3
/-- Modelled from the spec: the constant `EI_CLASS` of sys/elf_common.h, which is not among the sources. -/
def EI_CLASS : Nat := 4
/-- Modelled from the spec: the constant `EI_DATA` of sys/elf_common.h, which is not among the sources. -/
def EI_DATA : Nat := 5
/-- Modelled from the spec: the constant `EI_VERSION` of sys/elf_common.h, which is not among the sources. -/
def EI_VERSION : Nat := 6
/-- Modelled from the spec: the constant `ELFMAG0` of sys/elf_common.h, which is not among the sources. -/
def ELFMAG0 : Nat := 0x7f
/-- Modelled from the spec: the constant `ELFMAG1` of sys/elf_common.h, which is not among the sources. -/
def ELFMAG1 : Nat := 0x45
/-- Modelled from the spec: the constant `ELFMAG2` of sys/elf_common.h, which is not among the sources. -/
def ELFMAG2 : Nat := 0x4c
/-- Modelled from the spec: the constant `ELFMAG3` of sys/elf_common.h, which is not among the sources. -/
def ELFMAG3 : Nat := 0x46
/-- Modelled from the spec: the constant `EV_CURRENT` of sys/elf_common.h, which is not among the sources. -/
def EV_CURRENT : Nat := 1
/-- Modelled from the spec: the constant `ET_EXEC` of sys/elf_common.h, which is not among the sources. -/
def ET_EXEC : Nat := 2
/-- Modelled from the spec: the constant `ET_DYN` of sys/elf_common.h, which is not among the sources. -/
def ET_DYN : Nat := 3

/-- Modelled from the spec: the constant `PT_LOAD` of sys/elf_common.h, which is not among the sources. -/
def PT_LOAD : Nat := 1
/-- Modelled from the spec: the constant `PT_DYNAMIC` of sys/elf_common.h, which is not among the sources. -/
def PT_DYNAMIC : Nat := 2
/-- Modelled from the spec: the constant `PT_INTERP` of sys/elf_common.h, which is not among the sources. -/
def PT_INTERP : Nat := 3
/-- Modelled from the spec: the constant `PT_NOTE` of sys/elf_common.h, which is not among the sources. -/
def PT_NOTE : Nat := 4
/-- Modelled from the spec: the constant `PT_PHDR` of sys/elf_common.h, which is not among the sources. -/
def PT_PHDR : Nat := 6
/-- Modelled from the spec: the constant `PT_TLS` of sys/elf_common.h, which is not among the sources. -/
def PT_TLS : Nat := 7
/-- Modelled from the spec: the constant `PT_GNU_STACK` of sys/elf_common.h, which is not among the sources. -/
def PT_GNU_STACK : Nat := 0x6474e551
/-- Modelled from the spec: the constant `PT_GNU_RELRO` of sys/elf_common.h, which is not among the sources. -/
def PT_GNU_RELRO : Nat := 0x6474e552

/-- Modelled from the spec: the constant `PF_X` of sys/elf_common.h, which is not among the sources. -/
def PF_X : Nat := 1
/-- Modelled from the spec: the constant `PF_W` of sys/elf_common.h, which is not among the sources. -/
def PF_W : Nat := 2
/-- Modelled from the spec: the constant `PF_R` of sys/elf_common.h, which is not among the sources. -/
def PF_R : Nat := 4

/-- Modelled from the spec: the constant `PROT_NONE` of sys/mman.h, which is not among the sources. -/
def PROT_NONE : Nat := 0
/-- Modelled from the spec: the constant `PROT_READ` of sys/mman.h, which is not among the sources. -/
def PROT_READ : Nat := 1
/-- Modelled from the spec: the constant `PROT_WRITE` of sys/mman.h, which is not among the sources. -/
def PROT_WRITE : Nat := 2
/-- Modelled from the spec: the constant `PROT_EXEC` of sys/mman.h, which is not among the sources. -/
def PROT_EXEC : Nat := 4
/-- Modelled from the spec: the constant `PROT_ALL` of sys/mman.h, which is not among the sources. -/
def PROT_ALL : Nat := PROT_READ ||| PROT_WRITE ||| PROT_EXEC
/-- Modelled from the spec: the macro `PROT_MAX(prot)` of sys/mman.h, which is not among the
sources: the maximum protection, kept above the protection bits. -/
def PROT_MAX (prot : Nat) : Nat := prot <<< 16

/-- Modelled from the spec: the constant `MAP_PRIVATE` of sys/mman.h, which is not among the sources. -/
def MAP_PRIVATE : Nat := 0x0002
/-- Modelled from the spec: the constant `MAP_FIXED` of sys/mman.h, which is not among the sources. -/
def MAP_FIXED : Nat := 0x0010
/-- Modelled from the spec: the constant `MAP_ANON` of sys/mman.h, which is not among the sources. -/
def MAP_ANON : Nat := 0x1000
/-- Modelled from the spec: the constant `MAP_GUARD` of sys/mman.h, which is not among the sources. -/
def MAP_GUARD : Nat := 0x2000
/-- Modelled from the spec: the constant `MAP_EXCL` of sys/mman.h, which is not among the sources. -/
def MAP_EXCL : Nat := 0x4000
/-- Modelled from the spec: the constant `MAP_NOCORE` of sys/mman.h, which is not among the sources. -/
def MAP_NOCORE : Nat := 0x20000
/-- Modelled from the spec: the constant `MAP_PREFAULT_READ` of sys/mman.h, which is not among the sources. -/
def MAP_PREFAULT_READ : Nat := 0x40000
/-- Modelled from the spec: the constant `MAP_ALIGNED_SUPER` of sys/mman.h, which is not among the sources. -/
def MAP_ALIGNED_SUPER : Nat := 0x1000000

/-- Modelled from the spec: the constant `P_OSREL_MAP_GUARD` of sys/param.h, which is not among
the sources: the first `__FreeBSD_version` whose kernel offers `MAP_GUARD`. -/
def P_OSREL_MAP_GUARD : Int := 1200035

/-- Modelled from the spec: the value of `sizeof(Elf_Ehdr)` for the 64-bit ELF class (the type is
declared in sys/elf64.h, which is not among the sources). -/
def sizeof_Elf_Ehdr : Nat := 64
/-- Modelled from the spec: the value of `sizeof(Elf_Phdr)` for the 64-bit ELF class (the type is
declared in sys/elf64.h, which is not among the sources). -/
def sizeof_Elf_Phdr : Nat := 56

/-! ## Data model -/

/-- Modelled from the spec: the type `Elf_Ehdr` of sys/elf64.h, which is not among the sources,
with the fields that `map_object` reads. -/
structure Elf_Ehdr where
  e_ident : List Nat
  e_type : Nat
  e_machine : Nat
  e_version : Nat
  e_entry : Nat
  e_phoff : Nat
  e_flags : Nat
  e_phentsize : Nat
  e_phnum : Nat
deriving DecidableEq

/-- Modelled from the spec: the type `Elf_Phdr` of sys/elf64.h, which is not among the sources:
one program-header entry (segment record), with the fields that `map_object` reads. -/
structure Elf_Phdr where
  p_type : Nat
  p_flags : Nat
  p_offset : Nat
  p_vaddr : Nat
  p_filesz : Nat
  p_memsz : Nat
  p_align : Nat
deriving DecidableEq

/-- Modelled from the spec: the type `struct stat` of sys/stat.h, which is not among the sources,
with the fields that `map_object` reads; `st_size` is a signed `off_t`. -/
structure Stat where
  st_size : Int
  st_dev : Nat
  st_ino : Nat
deriving DecidableEq

/-- Modelled from the spec: the descriptor type `Obj_Entry` of rtld.h, which is not among the
sources, with the fields that `map_object` writes. `obj_new` returns the record zeroed; pointers
are addresses and `NULL` is `0`. -/
structure Obj_Entry where
  mapbase : Nat := 0
  mapsize : Nat := 0
  textsize : Nat := 0
  vaddrbase : Nat := 0
  relocbase : Nat := 0
  dynamic : Nat := 0
  entry : Nat := 0
  phdr : Nat := 0
  phdr_alloc : Bool := false
  phsize : Nat := 0
  interp : Nat := 0
  tlsindex : Nat := 0
  tlssize : Nat := 0
  tlsalign : Nat := 0
  tlsinitsize : Nat := 0
  tlsinit : Nat := 0
  stack_flags : Nat := 0
  relro_page : Nat := 0
  relro_size : Nat := 0
  dev : Nat := 0
  ino : Nat := 0
  text_rodata_start : Nat := 0
  text_rodata_end : Nat := 0
  text_rodata_cap : Nat := 0
deriving DecidableEq

/-- The compile-time target: the `ELF_TARG_*` constants, the e_flags hook
`rtld_validate_target_eflags`, whether `__CHERI_PURE_CAPABILITY__` is defined, and
`RTLD_DEFAULT_STACK_PF_EXEC`. -/
structure Target where
  ELF_TARG_CLASS : Nat
  ELF_TARG_DATA : Nat
  ELF_TARG_MACH : Nat
  rtld_validate_target_eflags : Elf_Ehdr → Bool
  CHERI_PURE_CAPABILITY : Bool
  RTLD_DEFAULT_STACK_PF_EXEC : Nat

/-- The run-time environment of one call: the kernel release and page sizes, the two TLS
counters, and the result of every system or allocator call that `map_object` can issue.
An `mmap` without `MAP_FIXED` answers with an address or `MAP_FAILED`; the fixed overlays and
`mprotect` answer success or failure, per loadable segment. -/
structure Sys where
  osreldate : Int
  npagesizes : Nat
  pagesizes1 : Nat
  tls_dtv_generation : Nat
  tls_max_index : Nat
  mmap_hdr : Nat
  mmap_note : Nat → Nat
  mmap_reserve : Nat
  mmap_data : Nat → Bool
  mprotect_grant : Nat → Bool
  mprotect_restore : Nat → Bool
  mmap_bss : Nat → Bool
  malloc_phdr : Nat

/-- The call site of a mapping operation. -/
inductive Site where
  | hdr
  | note
  | reserve
  | data
  | bss
deriving DecidableEq

/-- A call issued by `map_object`, with its arguments and (where the code looks at it) its result.
`mprotect` carries whether it is the restoring call after the zeroing. -/
inductive Event where
  | mmap (site : Site) (addr len prot flags : Nat) (fd : Int) (off : Nat) (res : Nat)
  | mprotect (restore : Bool) (addr len prot : Nat) (ok : Bool)
  | munmap (site : Site) (addr len : Nat)
  | memset (addr c len : Nat)
  | malloc (size : Nat) (res : Nat)
  | memcpy (dst src len : Nat)
  | obj_new
  | obj_free
  | digest_notes (note_start note_end : Nat)
deriving DecidableEq

/-! ## get_elf_header -/

/-- Modelled from the spec: the macro `IS_ELF` of sys/elf_common.h, which is not among the
sources: the test of the four magic bytes. -/
def IS_ELF (hdr : Elf_Ehdr) : Bool :=
  hdr.e_ident.getD EI_MAG0 0 == ELFMAG0 && hdr.e_ident.getD EI_MAG1 0 == ELFMAG1 &&
  hdr.e_ident.getD EI_MAG2 0 == ELFMAG2 && hdr.e_ident.getD EI_MAG3 0 == ELFMAG3

/-- The comparison `sbp->st_size < sizeof(Elf_Ehdr)`: the signed `off_t` is converted to the
unsigned type of `sizeof` before comparing. -/
def st_size_too_small (st_size : Int) : Bool :=
  decide ((st_size % (W64 : Int)).toNat < sizeof_Elf_Ehdr)

/-- The test `sbp != NULL && sbp->st_size < sizeof(Elf_Ehdr)`. -/
def file_too_small (sbp : Option Stat) : Bool :=
  match sbp with
  | some sb => st_size_too_small sb.st_size
  | none => false

/-- The function `get_elf_header`: `hdr` is the content of the first page of the file, read through
the mapping when it is established. Returns the address of the mapped header page (`none` for
`NULL`) and the calls issued. -/
def get_elf_header (T : Target) (S : Sys) (fd : Int) (sbp : Option Stat) (hdr : Elf_Ehdr) :
    Option Nat × List Event :=
  if file_too_small sbp then (none, [])
  else
    let tr := [Event.mmap Site.hdr 0 PAGE_SIZE PROT_READ (MAP_PRIVATE ||| MAP_PREFAULT_READ) fd 0
      S.mmap_hdr]
    if S.mmap_hdr = MAP_FAILED then (none, tr)
    else
      let error : Option Nat × List Event := (none, tr ++ [Event.munmap Site.hdr S.mmap_hdr PAGE_SIZE])
      if !IS_ELF hdr then error
      else if hdr.e_ident.getD EI_CLASS 0 ≠ T.ELF_TARG_CLASS ∨
          hdr.e_ident.getD EI_DATA 0 ≠ T.ELF_TARG_DATA then error
      else if hdr.e_ident.getD EI_VERSION 0 ≠ EV_CURRENT ∨ hdr.e_version ≠ EV_CURRENT then error
      else if hdr.e_type ≠ ET_EXEC ∧ hdr.e_type ≠ ET_DYN then error
      else if hdr.e_machine ≠ T.ELF_TARG_MACH then error
      else if !T.rtld_validate_target_eflags hdr then error
      else if hdr.e_phentsize ≠ sizeof_Elf_Phdr then error
      else if add64 hdr.e_phoff (hdr.e_phnum * sizeof_Elf_Phdr) > PAGE_SIZE then error
      else (some S.mmap_hdr, tr)

/-! ## Protection and flag conversion -/

/-- The function `convert_prot`: ELF segment flags to `mmap` protection. -/
def convert_prot (elfflags : Nat) : Nat :=
  let prot := 0
  let prot := if elfflags &&& PF_R ≠ 0 then prot ||| PROT_READ else prot
  let prot := if elfflags &&& PF_W ≠ 0 then prot ||| PROT_WRITE else prot
  let prot := if elfflags &&& PF_X ≠ 0 then prot ||| PROT_EXEC else prot
  prot

/-- The function `convert_flags`: ELF segment flags to `mmap` flags. -/
def convert_flags (elfflags : Nat) : Nat :=
  let flags := MAP_PRIVATE
  let flags := if elfflags &&& PF_W = 0 then flags ||| MAP_NOCORE else flags
  flags

/-! ## The scan of the program-header table -/

/-- The local variables of `map_object` that the scan loop writes, with the calls issued so far.
The array `segs` with its last index `nsegs` is the list `segs`; `nsegs < 0` is `segs = []`. -/
structure ScanState where
  segs : List Elf_Phdr := []
  phdyn : Option Elf_Phdr := none
  phinterp : Option Elf_Phdr := none
  phtls : Option Elf_Phdr := none
  phdr_vaddr : Nat := 0
  phsize : Nat
  stack_flags : Nat
  relro_page : Nat := 0
  relro_size : Nat := 0
  note_start : Nat := 0
  note_end : Nat := 0
  note_map : Nat := 0
  note_map_len : Nat := 0
  text_rodata_start : Nat := 0
  text_rodata_end : Nat := 0
  trace : List Event
deriving DecidableEq

/-- One iteration of the scan loop (the `switch` on `p_type`) for the entry `ph` at index `k`;
`false` is `goto error`. -/
def scan_phdr (T : Target) (S : Sys) (fd : Int) (hdr_addr : Nat) (k : Nat) (ph : Elf_Phdr)
    (st : ScanState) : Bool × ScanState :=
  if ph.p_type = PT_INTERP then (true, { st with phinterp := some ph })
  else if ph.p_type = PT_LOAD then
    let st1 := { st with segs := st.segs ++ [ph] }
    if ph.p_align &&& (PAGE_SIZE - 1) ≠ 0 then (false, st1)
    else if T.CHERI_PURE_CAPABILITY && (ph.p_flags &&& PF_W == 0) then
      (true, { st1 with
        text_rodata_start := min ph.p_vaddr st1.text_rodata_start
        text_rodata_end := max (add64 ph.p_vaddr ph.p_memsz) st1.text_rodata_end })
    else (true, st1)
  else if ph.p_type = PT_PHDR then
    (true, { st with phdr_vaddr := ph.p_vaddr, phsize := ph.p_memsz })
  else if ph.p_type = PT_DYNAMIC then (true, { st with phdyn := some ph })
  else if ph.p_type = PT_TLS then (true, { st with phtls := some ph })
  else if ph.p_type = PT_GNU_STACK then (true, { st with stack_flags := ph.p_flags })
  else if ph.p_type = PT_GNU_RELRO then
    (true, { st with relro_page := ph.p_vaddr, relro_size := ph.p_memsz })
  else if ph.p_type = PT_NOTE then
    if ph.p_offset > PAGE_SIZE ∨ add64 ph.p_offset ph.p_filesz > PAGE_SIZE then
      let note_map_len := sub64 (round_page (add64 ph.p_offset ph.p_filesz)) (trunc_page ph.p_offset)
      let note_map := S.mmap_note k
      let st1 := { st with
        note_map_len := note_map_len
        note_map := note_map
        trace := st.trace ++ [Event.mmap Site.note 0 note_map_len PROT_READ MAP_PRIVATE fd
          (trunc_page ph.p_offset) note_map] }
      if note_map = MAP_FAILED then (false, st1)
      else
        let note_start := sub64 (add64 note_map ph.p_offset) (trunc_page ph.p_offset)
        (true, { st1 with note_start := note_start, note_end := add64 note_start ph.p_filesz })
    else
      let note_start := add64 hdr_addr ph.p_offset
      (true, { st with note_start := note_start, note_end := add64 note_start ph.p_filesz })
  else (true, st)

/-- The scan loop `while (phdr < phlimit)` over the entries from index `k` on. -/
def scan_loop (T : Target) (S : Sys) (fd : Int) (hdr_addr : Nat) :
    Nat → List Elf_Phdr → ScanState → Bool × ScanState
  | _, [], st => (true, st)
  | k, ph :: rest, st =>
    match scan_phdr T S fd hdr_addr k ph st with
    | (true, st1) => scan_loop T S fd hdr_addr (k + 1) rest st1
    | (false, st1) => (false, st1)

/-! ## The per-segment mapping loop -/

/-- The clearing of the BSS part of the last file-backed page of a segment (`if ((nclear =
data_vlimit - clear_vaddr) > 0)`): the calls issued, and `false` for `goto error1`. The result of
the restoring `mprotect` is not looked at. -/
def clear_tail (S : Sys) (mapbase base_vaddr : Nat) (i : Nat) (seg : Elf_Phdr) :
    Bool × List Event :=
  let data_vlimit := round_page (add64 seg.p_vaddr seg.p_filesz)
  let data_prot := convert_prot seg.p_flags
  let clear_vaddr := add64 seg.p_vaddr seg.p_filesz
  let clear_addr := add64 mapbase (sub64 clear_vaddr base_vaddr)
  let clear_page := add64 mapbase (sub64 (trunc_page clear_vaddr) base_vaddr)
  let nclear := sub64 data_vlimit clear_vaddr
  if nclear > 0 then
    if data_prot &&& PROT_WRITE = 0 then
      if S.mprotect_grant i = false then
        (false, [Event.mprotect false clear_page PAGE_SIZE (data_prot ||| PROT_WRITE) false])
      else
        (true, [Event.mprotect false clear_page PAGE_SIZE (data_prot ||| PROT_WRITE) true,
          Event.memset clear_addr 0 nclear,
          Event.mprotect true clear_page PAGE_SIZE data_prot (S.mprotect_restore i)])
    else (true, [Event.memset clear_addr 0 nclear])
  else (true, [])

/-- The anonymous overlay of the BSS pages beyond the last file-backed page
(`if (bss_vlimit > bss_vaddr)`): the calls issued, and `false` for `goto error1`. -/
def bss_overlay (S : Sys) (mapbase base_vaddr : Nat) (i : Nat) (seg : Elf_Phdr) :
    Bool × List Event :=
  let data_vlimit := round_page (add64 seg.p_vaddr seg.p_filesz)
  let data_prot := convert_prot seg.p_flags
  let data_flags := convert_flags seg.p_flags ||| MAP_FIXED
  let bss_vaddr := data_vlimit
  let bss_vlimit := round_page (add64 seg.p_vaddr seg.p_memsz)
  let bss_addr := add64 mapbase (sub64 bss_vaddr base_vaddr)
  if bss_vlimit > bss_vaddr then
    let res := if S.mmap_bss i = true then bss_addr else MAP_FAILED
    (decide (res ≠ MAP_FAILED), [Event.mmap Site.bss bss_addr (sub64 bss_vlimit bss_vaddr)
      data_prot (data_flags ||| MAP_ANON) (-1) 0 res])
  else (true, [])

/-- The BSS setup of one loadable segment (the body of `if (p_filesz != p_memsz)`): the calls
issued, and `false` for `goto error1`. -/
def bss_setup (S : Sys) (mapbase base_vaddr : Nat) (i : Nat) (seg : Elf_Phdr) :
    Bool × List Event :=
  match clear_tail S mapbase base_vaddr i seg with
  | (false, es) => (false, es)
  | (true, es) =>
    ((bss_overlay S mapbase base_vaddr i seg).1, es ++ (bss_overlay S mapbase base_vaddr i seg).2)

/-- The file-backed overlay of one loadable segment. -/
def data_mmap (S : Sys) (fd : Int) (mapbase base_vaddr : Nat) (i : Nat) (seg : Elf_Phdr) :
    Event :=
  let data_offset := trunc_page seg.p_offset
  let data_vaddr := trunc_page seg.p_vaddr
  let data_vlimit := round_page (add64 seg.p_vaddr seg.p_filesz)
  let data_addr := add64 mapbase (sub64 data_vaddr base_vaddr)
  let data_prot := convert_prot seg.p_flags
  let data_flags := convert_flags seg.p_flags ||| MAP_FIXED
  Event.mmap Site.data data_addr (sub64 data_vlimit data_vaddr) data_prot
    (data_flags ||| MAP_PREFAULT_READ) fd data_offset
    (if S.mmap_data i = true then data_addr else MAP_FAILED)

/-- The calls of one iteration of `for (i = 0; i <= nsegs; i++)` for the segment
`seg = segs[i]`, and `false` for `goto error1`. -/
def segment_calls (S : Sys) (fd : Int) (mapbase base_vaddr : Nat) (i : Nat) (seg : Elf_Phdr) :
    Bool × List Event :=
  let data_addr := add64 mapbase (sub64 (trunc_page seg.p_vaddr) base_vaddr)
  if (if S.mmap_data i = true then data_addr else MAP_FAILED) = MAP_FAILED then
    (false, [data_mmap S fd mapbase base_vaddr i seg])
  else if seg.p_filesz ≠ seg.p_memsz then
    ((bss_setup S mapbase base_vaddr i seg).1,
      data_mmap S fd mapbase base_vaddr i seg :: (bss_setup S mapbase base_vaddr i seg).2)
  else (true, [data_mmap S fd mapbase base_vaddr i seg])

/-- The update of `phdr_vaddr` at the end of an iteration: the first segment whose page-aligned
file window contains the program-header table gives the address of the table. -/
def phdr_vaddr_step (hdr : Elf_Ehdr) (seg : Elf_Phdr) (phdr_vaddr : Nat) : Nat :=
  let data_offset := trunc_page seg.p_offset
  let data_vaddr := trunc_page seg.p_vaddr
  let data_vlimit := round_page (add64 seg.p_vaddr seg.p_filesz)
  if phdr_vaddr = 0 ∧ data_offset ≤ hdr.e_phoff ∧
      add64 (sub64 data_vlimit data_vaddr) data_offset ≥
        add64 hdr.e_phoff (hdr.e_phnum * sizeof_Elf_Phdr) then
    sub64 (add64 data_vaddr hdr.e_phoff) data_offset
  else phdr_vaddr

/-- The variables the mapping loop carries from one segment to the next. -/
structure MapState where
  phdr_vaddr : Nat
  trace : List Event

/-- One iteration of `for (i = 0; i <= nsegs; i++)` for the segment `seg = segs[i]`;
`false` is `goto error1`. -/
def map_segment (S : Sys) (fd : Int) (hdr : Elf_Ehdr) (mapbase base_vaddr : Nat) (i : Nat)
    (seg : Elf_Phdr) (st : MapState) : Bool × MapState :=
  match segment_calls S fd mapbase base_vaddr i seg with
  | (false, es) => (false, { st with trace := st.trace ++ es })
  | (true, es) =>
    (true, { phdr_vaddr := phdr_vaddr_step hdr seg st.phdr_vaddr, trace := st.trace ++ es })

/-- The mapping loop over the segments from index `i` on. -/
def map_segments (S : Sys) (fd : Int) (hdr : Elf_Ehdr) (mapbase base_vaddr : Nat) :
    Nat → List Elf_Phdr → MapState → Bool × MapState
  | _, [], st => (true, st)
  | i, seg :: rest, st =>
    match map_segment S fd hdr mapbase base_vaddr i seg st with
    | (true, st1) => map_segments S fd hdr mapbase base_vaddr (i + 1) rest st1
    | (false, st1) => (false, st1)

/-! ## map_object -/

/-- What a call of `map_object` leaves behind: the returned descriptor (`none` for `NULL`), the
calls issued in order, and the two process-wide TLS counters. -/
structure Result where
  ret : Option Obj_Entry
  trace : List Event
  tls_dtv_generation : Nat
  tls_max_index : Nat

/-- A `return (NULL)`: no descriptor, the calls issued, and the TLS counters untouched. -/
def fail_result (S : Sys) (tr : List Event) : Result :=
  { ret := none, trace := tr,
    tls_dtv_generation := S.tls_dtv_generation, tls_max_index := S.tls_max_index }

/-- The code at the label `error`: release the note mapping, if one is recorded, and the header
page. -/
def error_exit (hdr_addr : Nat) (st : ScanState) (tr : List Event) : List Event :=
  (if st.note_map ≠ 0 ∧ st.note_map ≠ MAP_FAILED then
    tr ++ [Event.munmap Site.note st.note_map st.note_map_len] else tr) ++
  [Event.munmap Site.hdr hdr_addr PAGE_SIZE]

/-- The code at the label `error1`: release the reservation, then fall through to `error`. -/
def error1_exit (hdr_addr : Nat) (st : ScanState) (mapbase mapsize : Nat) (tr : List Event) :
    List Event :=
  error_exit hdr_addr st (tr ++ [Event.munmap Site.reserve mapbase mapsize])

/-- The flags of the reservation `mmap`. -/
def reserve_flags (S : Sys) (seg0 : Elf_Phdr) (base_vaddr : Nat) : Nat :=
  let base_flags := if S.osreldate ≥ P_OSREL_MAP_GUARD then MAP_GUARD
    else MAP_PRIVATE ||| MAP_ANON ||| MAP_NOCORE
  let base_flags := if S.npagesizes > 1 ∧ round_page seg0.p_filesz ≥ S.pagesizes1 then
    base_flags ||| MAP_ALIGNED_SUPER else base_flags
  if base_vaddr ≠ 0 then base_flags ||| MAP_FIXED ||| MAP_EXCL else base_flags

/-- The descriptor as `map_object` fills it, field by field, in the zeroed record that `obj_new`
returns; `phdr` and `phdr_alloc` are given by the caller, which decides between the table inside
the image and a private copy. Fields that the code assigns under a condition keep the zero of
`obj_new` otherwise. -/
def fill_obj (T : Target) (S : Sys) (sb : Option Stat) (hdr : Elf_Ehdr) (st : ScanState)
    (phdyn seg0 : Elf_Phdr) (mapbase mapsize base_vaddr : Nat) (phdr : Nat) (phdr_alloc : Bool) :
    Obj_Entry :=
  let relocbase := sub64 mapbase base_vaddr
  { dev := match sb with
      | some s => s.st_dev
      | none => 0
    ino := match sb with
      | some s => s.st_ino
      | none => 0
    mapbase := mapbase
    mapsize := mapsize
    textsize := sub64 (round_page (add64 seg0.p_vaddr seg0.p_memsz)) base_vaddr
    vaddrbase := base_vaddr
    relocbase := relocbase
    text_rodata_start := if T.CHERI_PURE_CAPABILITY = true then st.text_rodata_start else 0
    text_rodata_end := if T.CHERI_PURE_CAPABILITY = true then st.text_rodata_end else 0
    text_rodata_cap := if T.CHERI_PURE_CAPABILITY = true then relocbase else 0
    dynamic := add64 relocbase phdyn.p_vaddr
    entry := if hdr.e_entry ≠ 0 then add64 relocbase hdr.e_entry else 0
    phdr := phdr
    phdr_alloc := phdr_alloc
    phsize := st.phsize
    interp := match st.phinterp with
      | some phinterp => add64 relocbase phinterp.p_vaddr
      | none => 0
    tlsindex := match st.phtls with
      | some _ => S.tls_max_index + 1
      | none => 0
    tlssize := match st.phtls with
      | some phtls => phtls.p_memsz
      | none => 0
    tlsalign := match st.phtls with
      | some phtls => phtls.p_align
      | none => 0
    tlsinitsize := match st.phtls with
      | some phtls => phtls.p_filesz
      | none => 0
    tlsinit := match st.phtls with
      | some phtls => add64 mapbase phtls.p_vaddr
      | none => 0
    stack_flags := st.stack_flags
    relro_page := add64 relocbase (trunc_page st.relro_page)
    relro_size := round_page st.relro_size }

/-- The calls at the end of a successful `map_object`: the notes are digested when the note range
is not empty, and the note mapping, if one is recorded, and the header page are released. -/
def exit_calls (hdr_addr : Nat) (st : ScanState) : List Event :=
  (if st.note_start < st.note_end then [Event.digest_notes st.note_start st.note_end] else []) ++
  (if st.note_map ≠ 0 then [Event.munmap Site.note st.note_map st.note_map_len] else []) ++
  [Event.munmap Site.hdr hdr_addr PAGE_SIZE]

/-- A `return (obj)`: the descriptor, the calls issued, and the TLS counters, advanced when the
object has a TLS segment. -/
def ok_result (S : Sys) (st : ScanState) (obj : Obj_Entry) (tr : List Event) : Result :=
  { ret := some obj, trace := tr,
    tls_dtv_generation := if st.phtls.isSome then S.tls_dtv_generation + 1
      else S.tls_dtv_generation,
    tls_max_index := if st.phtls.isSome then S.tls_max_index + 1 else S.tls_max_index }

/-- The tail of `map_object` from `obj_new()` on: fill the descriptor, alias or copy the
program-header table, and release the transient mappings. -/
def build_obj (T : Target) (S : Sys) (sb : Option Stat) (hdr : Elf_Ehdr) (hdr_addr : Nat)
    (st : ScanState) (phdyn seg0 : Elf_Phdr) (mapbase mapsize base_vaddr phdr_vaddr : Nat)
    (tr : List Event) : Result :=
  if phdr_vaddr ≠ 0 then
    ok_result S st
      (fill_obj T S sb hdr st phdyn seg0 mapbase mapsize base_vaddr
        (add64 (sub64 mapbase base_vaddr) phdr_vaddr) false)
      (tr ++ [Event.obj_new] ++ exit_calls hdr_addr st)
  else if S.malloc_phdr = 0 then
    fail_result S (error1_exit hdr_addr st mapbase mapsize
      (tr ++ [Event.obj_new, Event.malloc st.phsize S.malloc_phdr, Event.obj_free]))
  else
    ok_result S st
      (fill_obj T S sb hdr st phdyn seg0 mapbase mapsize base_vaddr S.malloc_phdr true)
      (tr ++ [Event.obj_new, Event.malloc st.phsize S.malloc_phdr,
        Event.memcpy S.malloc_phdr (add64 hdr_addr hdr.e_phoff) st.phsize] ++
        exit_calls hdr_addr st)

/-- The part of `map_object` after a successful scan: the two presence checks, the reservation,
the mapping loop and the construction of the descriptor. -/
def map_after_scan (T : Target) (S : Sys) (fd : Int) (sb : Option Stat) (hdr : Elf_Ehdr)
    (hdr_addr : Nat) (st : ScanState) : Result :=
  let fail := fail_result S
  match st.phdyn, st.segs.head?, st.segs.getLast? with
  | some phdyn, some seg0, some segn =>
    let base_vaddr := trunc_page seg0.p_vaddr
    let base_vlimit := round_page (add64 segn.p_vaddr segn.p_memsz)
    let mapsize := sub64 base_vlimit base_vaddr
    let base_addr := base_vaddr
    let base_flags := reserve_flags S seg0 base_vaddr
    if base_vaddr ≠ 0 ∧ T.CHERI_PURE_CAPABILITY = true then fail (error_exit hdr_addr st st.trace)
    else
      let mapbase := S.mmap_reserve
      let tr := st.trace ++ [Event.mmap Site.reserve base_addr mapsize
        (PROT_NONE ||| PROT_MAX PROT_ALL) base_flags (-1) 0 mapbase]
      if mapbase = MAP_FAILED then fail (error_exit hdr_addr st tr)
      else if base_addr ≠ 0 ∧ mapbase ≠ base_addr then
        fail (error1_exit hdr_addr st mapbase mapsize tr)
      else
        match map_segments S fd hdr mapbase base_vaddr 0 st.segs
            { phdr_vaddr := st.phdr_vaddr, trace := tr } with
        | (false, ms) => fail (error1_exit hdr_addr st mapbase mapsize ms.trace)
        | (true, ms) =>
          build_obj T S sb hdr hdr_addr st phdyn seg0 mapbase mapsize base_vaddr ms.phdr_vaddr
            ms.trace
  | _, _, _ => fail (error_exit hdr_addr st st.trace)

/-- The initial values of the scan variables, set before the loop. -/
def scan_init (T : Target) (hdr : Elf_Ehdr) (tr : List Event) : ScanState :=
  { phsize := hdr.e_phnum * sizeof_Elf_Phdr
    stack_flags := T.RTLD_DEFAULT_STACK_PF_EXEC ||| PF_R ||| PF_W
    trace := tr }

/-- The function `map_object`. `hdr` is the ELF header in the first page of the file and `phdrs`
the `e_phnum` entries of the program-header table that the scan loop reads at `hdr + e_phoff`. -/
def map_object (T : Target) (S : Sys) (fd : Int) (sb : Option Stat) (hdr : Elf_Ehdr)
    (phdrs : List Elf_Phdr) : Result :=
  match get_elf_header T S fd sb hdr with
  | (none, tr) => fail_result S tr
  | (some hdr_addr, tr) =>
    match scan_loop T S fd hdr_addr 0 phdrs (scan_init T hdr tr) with
    | (false, st) => fail_result S (error_exit hdr_addr st st.trace)
    | (true, st) => map_after_scan T S fd sb hdr hdr_addr st

/-! ## The address space as left by a sequence of calls -/

/-- What one address of the address space holds, as far as the calls of `map_object` determine it:
nothing, a guard reservation without pages, or a byte. Protections are not part of the content. -/
inductive Page where
  | unmapped
  | guard
  | byte (v : Nat)
deriving DecidableEq

/-- Whether the 64-bit address `a` lies in the range of `len` bytes starting at `addr`. -/
def in_range (a addr len : Nat) : Bool := decide (sub64 a addr < len)

/-- The effect of one call on the content of the address space; `file` gives the bytes of the
object file by offset. A successful `mmap` replaces what its range held (a guard, zero bytes for
an anonymous mapping, the file bytes otherwise), `munmap` empties its range and `memset` writes
the bytes that are mapped. -/
def apply_event (file : Nat → Nat) (m : Nat → Page) (e : Event) (a : Nat) : Page :=
  match e with
  | Event.mmap _ _ len _ flags _ off res =>
    if res ≠ MAP_FAILED ∧ in_range a res len = true then
      if flags &&& MAP_GUARD ≠ 0 then Page.guard
      else if flags &&& MAP_ANON ≠ 0 then Page.byte 0
      else Page.byte (file (off + sub64 a res))
    else m a
  | Event.munmap _ addr len => if in_range a addr len = true then Page.unmapped else m a
  | Event.memset addr c len =>
    if in_range a addr len = true then
      match m a with
      | Page.byte _ => Page.byte (c % 256)
      | p => p
    else m a
  | _ => m a

/-- The content of the address space after the calls of `tr`, starting from `m`. -/
def run_events (file : Nat → Nat) (m : Nat → Page) (tr : List Event) : Nat → Page :=
  tr.foldl (apply_event file) m

/-- The content of the address space attributable to the calls of `tr` alone. -/
def memory_after (file : Nat → Nat) (tr : List Event) : Nat → Page :=
  run_events file (fun _ => Page.unmapped) tr


/-! ## Auxiliary definitions for the statements -/


/-- The conjunction of the checks that `get_elf_header` makes on the mapped header. -/
def hdr_checks (T : Target) (hdr : Elf_Ehdr) : Prop :=
  IS_ELF hdr = true ∧
  hdr.e_ident.getD EI_CLASS 0 = T.ELF_TARG_CLASS ∧
  hdr.e_ident.getD EI_DATA 0 = T.ELF_TARG_DATA ∧
  hdr.e_ident.getD EI_VERSION 0 = EV_CURRENT ∧ hdr.e_version = EV_CURRENT ∧
  (hdr.e_type = ET_EXEC ∨ hdr.e_type = ET_DYN) ∧
  hdr.e_machine = T.ELF_TARG_MACH ∧
  T.rtld_validate_target_eflags hdr = true ∧
  hdr.e_phentsize = sizeof_Elf_Phdr ∧
  add64 hdr.e_phoff (hdr.e_phnum * sizeof_Elf_Phdr) ≤ PAGE_SIZE

instance (T : Target) (hdr : Elf_Ehdr) : Decidable (hdr_checks T hdr) := by
  unfold hdr_checks; infer_instance

/-- The call that maps the header page. -/
def hdr_mmap_event (S : Sys) (fd : Int) : Event :=
  Event.mmap Site.hdr 0 PAGE_SIZE PROT_READ (MAP_PRIVATE ||| MAP_PREFAULT_READ) fd 0 S.mmap_hdr


/-- The loadable segments of a program-header table, in table order. -/
def loads (phdrs : List Elf_Phdr) : List Elf_Phdr :=
  phdrs.filter (fun p => decide (p.p_type = PT_LOAD))

/-- The last entry of type `ty` of a program-header table, if there is one. -/
def last_of (ty : Nat) (phdrs : List Elf_Phdr) : Option Elf_Phdr :=
  (phdrs.filter (fun p => decide (p.p_type = ty))).getLast?

/-- Whether a call is an `mmap` issued at the site `s`. -/
def is_mmap (s : Site) : Event → Bool
  | Event.mmap s1 _ _ _ _ _ _ _ => decide (s1 = s)
  | _ => false

/-- Whether a call is a `munmap` issued for the mapping of site `s`. -/
def is_munmap (s : Site) : Event → Bool
  | Event.munmap s1 _ _ => decide (s1 = s)
  | _ => false

/-- What the scan loop leaves in its variables after reading the entries `phs` from the state
`st`: the loadable segments appended in order, and for every other kind the last entry seen. -/
def scan_post (phs : List Elf_Phdr) (st st1 : ScanState) : Prop :=
  st1.segs = st.segs ++ loads phs ∧
  st1.phdyn = (last_of PT_DYNAMIC phs).or st.phdyn ∧
  st1.phinterp = (last_of PT_INTERP phs).or st.phinterp ∧
  st1.phtls = (last_of PT_TLS phs).or st.phtls ∧
  st1.phdr_vaddr = ((last_of PT_PHDR phs).map (fun p => p.p_vaddr)).getD st.phdr_vaddr ∧
  st1.phsize = ((last_of PT_PHDR phs).map (fun p => p.p_memsz)).getD st.phsize ∧
  st1.stack_flags = ((last_of PT_GNU_STACK phs).map (fun p => p.p_flags)).getD st.stack_flags ∧
  st1.relro_page = ((last_of PT_GNU_RELRO phs).map (fun p => p.p_vaddr)).getD st.relro_page ∧
  st1.relro_size = ((last_of PT_GNU_RELRO phs).map (fun p => p.p_memsz)).getD st.relro_size

/-- Whether a call maps part of the object's image: the reservation or a segment overlay. -/
def is_object_mmap (e : Event) : Bool :=
  is_mmap Site.reserve e || is_mmap Site.data e || is_mmap Site.bss e

/-- The reservation `mmap` of `map_object` for first loadable segment `seg0` and last loadable
segment `segn`: hint `trunc_page(seg0.p_vaddr)`, length up to the page-ceiling of the end of
`segn`, no access, not backed by a file. -/
def reserve_event (S : Sys) (seg0 segn : Elf_Phdr) : Event :=
  Event.mmap Site.reserve (trunc_page seg0.p_vaddr)
    (sub64 (round_page (add64 segn.p_vaddr segn.p_memsz)) (trunc_page seg0.p_vaddr))
    (PROT_NONE ||| PROT_MAX PROT_ALL) (reserve_flags S seg0 (trunc_page seg0.p_vaddr)) (-1) 0
    S.mmap_reserve

/-- Whether a call is one that the per-segment loop issues. -/
def is_segment_call : Event → Bool
  | Event.mmap s _ _ _ _ _ _ _ => decide (s = Site.data) || decide (s = Site.bss)
  | Event.mprotect _ _ _ _ _ => true
  | Event.memset _ _ _ => true
  | _ => false

/-- Whether a call establishes a mapping. -/
def is_any_mmap : Event → Bool
  | Event.mmap _ _ _ _ _ _ _ _ => true
  | _ => false

/-- The header is validated and the scan loop runs to its end: `ha` is the address of the header
page, `tr` the calls of `get_elf_header` and `st` the variables after the scan. -/
structure Scanned (T : Target) (S : Sys) (fd : Int) (sb : Option Stat) (hdr : Elf_Ehdr)
    (phdrs : List Elf_Phdr) (ha : Nat) (tr : List Event) (st : ScanState) : Prop where
  hdr_ok : get_elf_header T S fd sb hdr = (some ha, tr)
  scan_ok : scan_loop T S fd ha 0 phdrs (scan_init T hdr tr) = (true, st)

/-- The table has what the reservation needs: `phdyn` is its (last) `PT_DYNAMIC` entry, `s0`
its first and `sn` its last loadable segment. -/
structure Layout (phdrs : List Elf_Phdr) (phdyn s0 sn : Elf_Phdr) : Prop where
  dyn : last_of PT_DYNAMIC phdrs = some phdyn
  first : (loads phdrs).head? = some s0
  last : (loads phdrs).getLast? = some sn

/-- The length of the reservation for first loadable segment `s0` and last `sn`. -/
def reserve_size (s0 sn : Elf_Phdr) : Nat :=
  sub64 (round_page (add64 sn.p_vaddr sn.p_memsz)) (trunc_page s0.p_vaddr)

/-- The test of the mapping loop that the page-aligned file window of the segment `seg`,
`[trunc_page(p_offset), trunc_page(p_offset) + round_page(p_vaddr + p_filesz) -
trunc_page(p_vaddr))`, contains the program-header table
`[e_phoff, e_phoff + e_phnum * sizeof(Elf_Phdr))`, in the 64-bit arithmetic of the code. -/
def window_contains (hdr : Elf_Ehdr) (seg : Elf_Phdr) : Prop :=
  trunc_page seg.p_offset ≤ hdr.e_phoff ∧
  add64 hdr.e_phoff (hdr.e_phnum * sizeof_Elf_Phdr) ≤
    add64 (sub64 (round_page (add64 seg.p_vaddr seg.p_filesz)) (trunc_page seg.p_vaddr))
      (trunc_page seg.p_offset)

instance (hdr : Elf_Ehdr) (seg : Elf_Phdr) : Decidable (window_contains hdr seg) := by
  unfold window_contains; infer_instance

/-- The address of the program-header table inside the segment `seg`, as linked:
`trunc_page(p_vaddr) + e_phoff - trunc_page(p_offset)`. -/
def table_addr (hdr : Elf_Ehdr) (seg : Elf_Phdr) : Nat :=
  sub64 (add64 (trunc_page seg.p_vaddr) hdr.e_phoff) (trunc_page seg.p_offset)

/-- The first loadable segment whose file window contains the program-header table at a
non-zero address. -/
def table_segment (hdr : Elf_Ehdr) (segs : List Elf_Phdr) : Option Elf_Phdr :=
  segs.find? (fun seg => decide (window_contains hdr seg ∧ table_addr hdr seg ≠ 0))

/-- The `p_vaddr` of the last `PT_PHDR` entry of the table, zero when there is none. -/
def declared_phdr_vaddr (phdrs : List Elf_Phdr) : Nat :=
  ((last_of PT_PHDR phdrs).map (fun p => p.p_vaddr)).getD 0

/-- Whether a call made after the reservation signals a failure that `map_object` acts on: the
reservation granted elsewhere than at a required fixed address, a failed segment overlay, a
failed grant of write permission before the zeroing, a failed anonymous BSS overlay, or a failed
allocation of the program-header copy. -/
def signals_failure : Event → Bool
  | Event.mmap Site.reserve addr _ _ _ _ _ res => decide (addr ≠ 0 ∧ res ≠ addr)
  | Event.mmap Site.data _ _ _ _ _ _ res => decide (res = MAP_FAILED)
  | Event.mmap Site.bss _ _ _ _ _ _ res => decide (res = MAP_FAILED)
  | Event.mprotect false _ _ _ ok => !ok
  | Event.malloc _ res => decide (res = 0)
  | _ => false

/-- Whether a call is a fixed-position overlay of a segment: the file-backed `mmap` or the
anonymous zero-fill `mmap` of the mapping loop. -/
def is_overlay (e : Event) : Bool := is_mmap Site.data e || is_mmap Site.bss e

/-! ## Concrete inputs -/

/-- A plain (not capability-extended) 64-bit target whose e_flags hook accepts everything. -/
def plain_target : Target :=
  { ELF_TARG_CLASS := 2, ELF_TARG_DATA := 1, ELF_TARG_MACH := 8,
    rtld_validate_target_eflags := fun _ => true,
    CHERI_PURE_CAPABILITY := false, RTLD_DEFAULT_STACK_PF_EXEC := PF_X }

/-- The capability-extended variant of `plain_target`. -/
def cheri_target : Target := { plain_target with CHERI_PURE_CAPABILITY := true }

/-- An environment in which every call succeeds: the header page is granted at `0x10000`, the
note mapping of entry `k` at `0x20000 + k * 0x10000`, the reservation at `0x800000`. -/
def sys_ok : Sys :=
  { osreldate := 1300000, npagesizes := 1, pagesizes1 := 0,
    tls_dtv_generation := 1, tls_max_index := 1,
    mmap_hdr := 0x10000, mmap_note := fun k => 0x20000 + k * 0x10000, mmap_reserve := 0x800000,
    mmap_data := fun _ => true, mprotect_grant := fun _ => true, mprotect_restore := fun _ => true,
    mmap_bss := fun _ => true, malloc_phdr := 0x5000 }

/-- A header that `get_elf_header` accepts on `plain_target`, with `e_phnum` entries at offset
`e_phoff` and entry point `0x100`. -/
def good_hdr (e_phoff e_phnum : Nat) : Elf_Ehdr :=
  { e_ident := [0x7f, 0x45, 0x4c, 0x46, 2, 1, 1], e_type := ET_DYN, e_machine := 8,
    e_version := 1, e_entry := 0x100, e_phoff := e_phoff, e_flags := 0, e_phentsize := 56,
    e_phnum := e_phnum }


/-- A program-header entry of type `ty` with all other fields zero. -/
def phdr_of (ty : Nat) : Elf_Phdr :=
  { p_type := ty, p_flags := 0, p_offset := 0, p_vaddr := 0, p_filesz := 0, p_memsz := 0,
    p_align := 0 }

/-- A loadable segment with the given flags, file offset, address and sizes, page-aligned. -/
def load_seg (flags off vaddr filesz memsz : Nat) : Elf_Phdr :=
  { p_type := PT_LOAD, p_flags := flags, p_offset := off, p_vaddr := vaddr, p_filesz := filesz,
    p_memsz := memsz, p_align := 0x1000 }

/-- A `PT_DYNAMIC` entry at the given address. -/
def dyn_entry (vaddr : Nat) : Elf_Phdr :=
  { phdr_of PT_DYNAMIC with p_vaddr := vaddr, p_memsz := 0x100, p_filesz := 0x100 }

/-- A `PT_NOTE` entry at the given file offset and size. -/
def note_entry (off filesz : Nat) : Elf_Phdr :=
  { phdr_of PT_NOTE with p_offset := off, p_filesz := filesz }

/-- The environment `sys_ok` with the reservation granted at `addr`. -/
def sys_at (addr : Nat) : Sys := { sys_ok with mmap_reserve := addr }

/-- The table of the spec's two-segment scenario: a read+execute segment over `[0, 0x1000)`, a
read+write segment at `0x1000` with file size `0x800` and memory size `0x1000`, and the
`PT_DYNAMIC` entry. -/
def two_segments : List Elf_Phdr :=
  [load_seg 5 0 0 0x1000 0x1000, load_seg 6 0x1000 0x1000 0x800 0x1000, dyn_entry 0x1000]

/-- A table whose only loadable segment is linked at the fixed address `0x10000`. -/
def fixed_base : List Elf_Phdr :=
  [load_seg 5 0 0x10000 0x1000 0x1000, dyn_entry 0x10000]


/-- The descriptor that `map_object` returns for `two_segments` on `plain_target` in `sys_ok`. -/
def two_segments_obj : Obj_Entry :=
  { mapbase := 0x800000, mapsize := 0x2000, textsize := 0x1000, vaddrbase := 0,
    relocbase := 0x800000, dynamic := 0x801000, entry := 0x800100, phdr := 0x800040,
    phdr_alloc := false, phsize := 168, stack_flags := 7, relro_page := 0x800000 }

/-- A table with a `PT_PHDR` entry declaring the address `0x40`, whose only loadable segment
maps the file from offset `0x1000` on, so that its file window does not contain the table. -/
def phdr_outside : List Elf_Phdr :=
  [{ phdr_of PT_PHDR with p_offset := 64, p_vaddr := 0x40, p_filesz := 168, p_memsz := 168 },
   load_seg 5 0x1000 0 0x1000 0x1000, dyn_entry 0x100]

/-- A four-entry table at file offset `0`, where it overlays the ELF header `good_hdr 0 4`:
entry 0 is the first 56 bytes of the header read as an entry (its type is the ELF magic, which
the scan ignores), entry 1 starts at the bytes of `e_phnum = 4` and so reads as an empty
`PT_NOTE`, and entries 2 and 3 are a loadable segment mapping the file from offset `0` at
address `0` and the `PT_DYNAMIC` entry. The table is inside the file window of the segment, at
address `0`. -/
def table_at_zero : List Elf_Phdr :=
  [{ p_type := 0x464c457f, p_flags := 0x010102, p_offset := 0, p_vaddr := 0x100080003,
     p_filesz := 0, p_memsz := 0, p_align := 0x38004000000000 },
   note_entry 0 0, load_seg 5 0 0 0x1000 0x1000, dyn_entry 0x100]

/-- The environment `sys_ok` except that the file-backed overlay of segment 1 fails. -/
def sys_data_fails : Sys := { sys_ok with mmap_data := fun i => decide (i = 0) }

/-- A table with one loadable segment, the `PT_DYNAMIC` entry and two `PT_NOTE` entries whose
payloads lie beyond the first page of the file, at offsets `0x2000` and `0x3000`. -/
def two_notes : List Elf_Phdr :=
  [load_seg 5 0 0 0x4000 0x4000, dyn_entry 0x100, note_entry 0x2000 0x20, note_entry 0x3000 0x20]

/-- A loadable segment whose end wraps at 64 bits: `p_vaddr + p_memsz = 2^64 + 0x801`. -/
def overflow_seg : Elf_Phdr := load_seg 6 0x1000 0x1000 0x800 18446744073709549569

/-- A table with three loadable segments in increasing address order, the middle one being
`overflow_seg`, and the `PT_DYNAMIC` entry. -/
def overflow_table : List Elf_Phdr :=
  [load_seg 5 0 0 0x1000 0x1000, overflow_seg, load_seg 6 0x2000 0x2000 0x1000 0x1000,
   dyn_entry 0x2000]

/-- The state of the mapping loop of `map_object` on `overflow_table` in `sys_ok` when it
reaches the middle segment: the header page and the reservation are mapped and the first segment
is overlaid. -/
def overflow_pre : MapState :=
  (map_segment sys_ok 3 (good_hdr 64 4) 0x800000 0 0 (load_seg 5 0 0 0x1000 0x1000)
    { phdr_vaddr := 0,
      trace := [hdr_mmap_event sys_ok 3,
        reserve_event sys_ok (load_seg 5 0 0 0x1000 0x1000)
          (load_seg 6 0x2000 0x2000 0x1000 0x1000)] }).2

/-- The environment `sys_ok` except that every `mprotect` restoring the protection after the
zeroing fails. -/
def sys_restore_fails : Sys := { sys_ok with mprotect_restore := fun _ => false }

/-- A table whose only loadable segment is read+execute and has BSS in its last file-backed
page (file size `0x800`, memory size `0x1000`), and the `PT_DYNAMIC` entry. -/
def readonly_bss : List Elf_Phdr := [load_seg 5 0 0 0x800 0x1000, dyn_entry 0x100]

/-- A table with a `PT_PHDR` entry whose `p_vaddr` is `0` and whose `p_memsz` is `0x10000`, a
loadable segment that maps the file from offset `0x1000` on (its file window does not contain
the table), and the `PT_DYNAMIC` entry. -/
def phdr_zero_vaddr : List Elf_Phdr :=
  [{ phdr_of PT_PHDR with p_offset := 64, p_vaddr := 0, p_filesz := 168, p_memsz := 0x10000 },
   load_seg 5 0x1000 0 0x1000 0x1000, dyn_entry 0x100]

/-- A `PT_TLS` entry with its template at the given address, `0x10` initialized bytes out of
`0x20`. -/
def tls_entry (vaddr : Nat) : Elf_Phdr :=
  { phdr_of PT_TLS with p_vaddr := vaddr, p_filesz := 0x10, p_memsz := 0x20, p_align := 8 }

/-- A table whose only loadable segment is linked at the fixed address `0x10000`, with the
`PT_DYNAMIC` entry and a `PT_TLS` entry whose template is at `0x10800`. -/
def fixed_base_tls : List Elf_Phdr :=
  [load_seg 6 0 0x10000 0x1000 0x1000, dyn_entry 0x10000, tls_entry 0x10800]

/-- A `PT_GNU_RELRO` entry covering `memsz` bytes at the given address. -/
def relro_entry (vaddr memsz : Nat) : Elf_Phdr :=
  { phdr_of PT_GNU_RELRO with p_flags := 4, p_vaddr := vaddr, p_memsz := memsz }

/-- The table `two_segments` with a `PT_GNU_RELRO` entry for the first `0x800` bytes of the
read+write segment. -/
def relro_inside : List Elf_Phdr :=
  [load_seg 5 0 0 0x1000 0x1000, load_seg 6 0x1000 0x1000 0x800 0x1000, dyn_entry 0x1000,
   relro_entry 0x1000 0x800]

/-- The descriptor that `map_object` returns for `relro_inside` on `plain_target` in `sys_ok`. -/
def relro_inside_obj : Obj_Entry :=
  { mapbase := 0x800000, mapsize := 0x2000, textsize := 0x1000, vaddrbase := 0,
    relocbase := 0x800000, dynamic := 0x801000, entry := 0x800100, phdr := 0x800040,
    phdr_alloc := false, phsize := 224, stack_flags := 7, relro_page := 0x801000,
    relro_size := 0x1000 }

/-- The table `two_segments` with a `PT_GNU_RELRO` entry at `0x100000`, far beyond the end
`0x2000` of the last loadable segment. -/
def relro_outside : List Elf_Phdr :=
  [load_seg 5 0 0 0x1000 0x1000, load_seg 6 0x1000 0x1000 0x800 0x1000, dyn_entry 0x1000,
   relro_entry 0x100000 0x1000]

/-- A table whose loadable segments are in non-decreasing `p_vaddr` order but whose first
segment, `[0, 0x3000)`, extends beyond the end `0x2000` of the last one, and the `PT_DYNAMIC`
entry. -/
def long_first : List Elf_Phdr :=
  [load_seg 5 0 0 0x3000 0x3000, load_seg 6 0x1000 0x1000 0x800 0x1000, dyn_entry 0x1000]

/-- A table with a single loadable segment whose file size `0x3000` exceeds its memory size
`0x1000`, and the `PT_DYNAMIC` entry. -/
def long_file : List Elf_Phdr := [load_seg 5 0 0 0x3000 0x1000, dyn_entry 0x100]

theorem get_elf_header_eq (T : Target) (S : Sys) (fd : Int) (sbp : Option Stat) (hdr : Elf_Ehdr) :
    get_elf_header T S fd sbp hdr =
      if file_too_small sbp = true then (none, [])
      else if S.mmap_hdr = MAP_FAILED then (none, [hdr_mmap_event S fd])
      else if hdr_checks T hdr then (some S.mmap_hdr, [hdr_mmap_event S fd])
      else (none, [hdr_mmap_event S fd, Event.munmap Site.hdr S.mmap_hdr PAGE_SIZE]) := by
  unfold get_elf_header hdr_checks hdr_mmap_event
  by_cases h1 : file_too_small sbp = true
  · simp only [h1, if_true]
  by_cases h2 : S.mmap_hdr = MAP_FAILED
  · simp only [h1, h2, if_true, if_false]
  simp only [h1, h2, if_false, List.singleton_append]
  by_cases h3 : IS_ELF hdr = true
  swap
  · simp only [h3, false_and, if_false, Bool.not_false, if_true, Bool.not_eq_true] at h3 ⊢
    simp only [h3, false_and, if_false, Bool.not_false, if_true, Bool.false_eq_true]
  simp only [h3, Bool.not_true, Bool.false_eq_true, if_false, true_and]
  by_cases h4 : hdr.e_ident.getD EI_CLASS 0 = T.ELF_TARG_CLASS
  swap
  · simp only [h4, ne_eq, not_false_eq_true, true_or, if_true, false_and, if_false]
  by_cases h5 : hdr.e_ident.getD EI_DATA 0 = T.ELF_TARG_DATA
  swap
  · simp only [h5, ne_eq, not_false_eq_true, or_true, if_true, false_and, and_false, if_false]
  simp only [h4, h5, ne_eq, not_true_eq_false, or_self, if_false, true_and]
  by_cases h6 : hdr.e_ident.getD EI_VERSION 0 = EV_CURRENT
  swap
  · simp only [h6, not_false_eq_true, true_or, if_true, false_and, if_false]
  by_cases h7 : hdr.e_version = EV_CURRENT
  swap
  · simp only [h7, not_false_eq_true, or_true, if_true, false_and, and_false, if_false]
  simp only [h6, h7, not_true_eq_false, or_self, if_false, true_and]
  by_cases h8 : hdr.e_type = ET_EXEC
  · simp only [h8, not_true_eq_false, false_and, if_false, true_or, true_and]
    by_cases h9 : hdr.e_machine = T.ELF_TARG_MACH
    swap
    · simp only [h9, not_false_eq_true, if_true, false_and, if_false]
    simp only [h9, not_true_eq_false, if_false, true_and]
    by_cases h10 : T.rtld_validate_target_eflags hdr = true
    swap
    · simp only [Bool.not_eq_true] at h10
      simp only [h10, Bool.not_false, if_true, Bool.false_eq_true, false_and, if_false]
    simp only [h10, Bool.not_true, Bool.false_eq_true, if_false, true_and]
    by_cases h11 : hdr.e_phentsize = sizeof_Elf_Phdr
    swap
    · simp only [h11, not_false_eq_true, if_true, false_and, if_false]
    simp only [h11, not_true_eq_false, if_false, true_and, gt_iff_lt]
    by_cases h12 : PAGE_SIZE < add64 hdr.e_phoff (hdr.e_phnum * sizeof_Elf_Phdr)
    · simp only [h12, if_true, Nat.not_le.2 h12, if_false]
    · simp only [h12, if_false, Nat.not_lt.1 h12, if_true]
  by_cases h8' : hdr.e_type = ET_DYN
  swap
  · simp only [h8, h8', not_false_eq_true, and_self, if_true, or_self, false_and, if_false]
  simp only [h8', not_true_eq_false, and_false, if_false, or_true, true_and]
  by_cases h9 : hdr.e_machine = T.ELF_TARG_MACH
  swap
  · simp only [h9, not_false_eq_true, if_true, false_and, if_false]
  simp only [h9, not_true_eq_false, if_false, true_and]
  by_cases h10 : T.rtld_validate_target_eflags hdr = true
  swap
  · simp only [Bool.not_eq_true] at h10
    simp only [h10, Bool.not_false, if_true, Bool.false_eq_true, false_and, if_false]
  simp only [h10, Bool.not_true, Bool.false_eq_true, if_false, true_and]
  by_cases h11 : hdr.e_phentsize = sizeof_Elf_Phdr
  swap
  · simp only [h11, not_false_eq_true, if_true, false_and, if_false]
  simp only [h11, not_true_eq_false, if_false, true_and, gt_iff_lt]
  by_cases h12 : PAGE_SIZE < add64 hdr.e_phoff (hdr.e_phnum * sizeof_Elf_Phdr)
  · simp only [h12, if_true, Nat.not_le.2 h12, if_false]
  · simp only [h12, if_false, Nat.not_lt.1 h12, if_true]

theorem st_size_too_small_iff (z : Int) (h0 : 0 ≤ z) (h1 : z < 2 ^ 63) :
    st_size_too_small z = true ↔ z < 64 := by
  unfold st_size_too_small W64 sizeof_Elf_Ehdr
  simp only [decide_eq_true_eq]
  have : z % ((18446744073709551616 : Nat) : Int) = z := by
    apply Int.emod_eq_of_lt h0; norm_num at h1 ⊢; omega
  rw [this]
  omega

theorem IS_ELF_iff (hdr : Elf_Ehdr) : IS_ELF hdr = true ↔
    (hdr.e_ident.getD 0 0 = 0x7f ∧ hdr.e_ident.getD 1 0 = 0x45 ∧
      hdr.e_ident.getD 2 0 = 0x4c ∧ hdr.e_ident.getD 3 0 = 0x46) := by
  simp only [IS_ELF, EI_MAG0, EI_MAG1, EI_MAG2, EI_MAG3, ELFMAG0, ELFMAG1, ELFMAG2, ELFMAG3,
    Bool.and_eq_true, beq_iff_eq, and_assoc]

theorem file_too_small_iff (sbp : Option Stat)
    (hsb : ∀ sb, sbp = some sb → 0 ≤ sb.st_size ∧ sb.st_size < 2 ^ 63) :
    file_too_small sbp = true ↔ ∃ sb, sbp = some sb ∧ sb.st_size < (sizeof_Elf_Ehdr : Int) := by
  cases sbp with
  | none => simp [file_too_small]
  | some sb =>
    have h := hsb sb rfl
    simp [file_too_small, st_size_too_small_iff sb.st_size h.1 h.2, sizeof_Elf_Ehdr]

/-- Claim C5. Provided a supplied file status carries a file size (a non-negative `off_t`),
`get_elf_header` returns the mapped header exactly when the status is absent or its size is at
least `sizeof(Elf_Ehdr)`, the first-page `mmap` succeeds, the magic bytes are the ELF magic,
class and encoding are the target's, both version fields are `EV_CURRENT`, the type is `ET_EXEC`
or `ET_DYN`, the machine is the target's, the e_flags hook accepts, `e_phentsize` is
`sizeof(Elf_Phdr)` and `e_phoff + e_phnum * sizeof(Elf_Phdr)`, computed in 64-bit arithmetic as
the code does, does not exceed `PAGE_SIZE`. In every other case it returns `NULL`, and when the
known size is too small it does so without issuing any call. -/
theorem get_elf_header_accepts_iff (T : Target) (S : Sys) (fd : Int) (sbp : Option Stat)
    (hdr : Elf_Ehdr) (hsb : ∀ sb, sbp = some sb → 0 ≤ sb.st_size ∧ sb.st_size < 2 ^ 63) :
    ((get_elf_header T S fd sbp hdr).1 = some S.mmap_hdr ↔
      ((∀ sb, sbp = some sb → (sizeof_Elf_Ehdr : Int) ≤ sb.st_size) ∧
       S.mmap_hdr ≠ MAP_FAILED ∧
       (hdr.e_ident.getD 0 0 = 0x7f ∧ hdr.e_ident.getD 1 0 = 0x45 ∧
         hdr.e_ident.getD 2 0 = 0x4c ∧ hdr.e_ident.getD 3 0 = 0x46) ∧
       hdr.e_ident.getD EI_CLASS 0 = T.ELF_TARG_CLASS ∧
       hdr.e_ident.getD EI_DATA 0 = T.ELF_TARG_DATA ∧
       hdr.e_ident.getD EI_VERSION 0 = EV_CURRENT ∧ hdr.e_version = EV_CURRENT ∧
       (hdr.e_type = ET_EXEC ∨ hdr.e_type = ET_DYN) ∧
       hdr.e_machine = T.ELF_TARG_MACH ∧
       T.rtld_validate_target_eflags hdr = true ∧
       hdr.e_phentsize = sizeof_Elf_Phdr ∧
       (hdr.e_phoff + hdr.e_phnum * sizeof_Elf_Phdr) % 2 ^ 64 ≤ PAGE_SIZE)) ∧
    ((get_elf_header T S fd sbp hdr).1 ≠ some S.mmap_hdr →
      (get_elf_header T S fd sbp hdr).1 = none) ∧
    (∀ sb, sbp = some sb → sb.st_size < (sizeof_Elf_Ehdr : Int) →
      get_elf_header T S fd sbp hdr = (none, [])) := by
  have hsmall := file_too_small_iff sbp hsb
  have hw : (2 : Nat) ^ 64 = W64 := by norm_num [W64]
  have hchk : hdr_checks T hdr ↔
      ((hdr.e_ident.getD 0 0 = 0x7f ∧ hdr.e_ident.getD 1 0 = 0x45 ∧
         hdr.e_ident.getD 2 0 = 0x4c ∧ hdr.e_ident.getD 3 0 = 0x46) ∧
       hdr.e_ident.getD EI_CLASS 0 = T.ELF_TARG_CLASS ∧
       hdr.e_ident.getD EI_DATA 0 = T.ELF_TARG_DATA ∧
       hdr.e_ident.getD EI_VERSION 0 = EV_CURRENT ∧ hdr.e_version = EV_CURRENT ∧
       (hdr.e_type = ET_EXEC ∨ hdr.e_type = ET_DYN) ∧
       hdr.e_machine = T.ELF_TARG_MACH ∧
       T.rtld_validate_target_eflags hdr = true ∧
       hdr.e_phentsize = sizeof_Elf_Phdr ∧
       (hdr.e_phoff + hdr.e_phnum * sizeof_Elf_Phdr) % 2 ^ 64 ≤ PAGE_SIZE) := by
    unfold hdr_checks
    rw [IS_ELF_iff, hw]
    rfl
  rw [get_elf_header_eq]
  refine ⟨?_, ?_, ?_⟩
  · rw [← hchk]
    by_cases h1 : file_too_small sbp = true
    · rw [if_pos h1]
      obtain ⟨sb, hs, hlt⟩ := hsmall.1 h1
      constructor
      · intro h; cases h
      · rintro ⟨h, -⟩; have := h sb hs; omega
    rw [if_neg h1]
    have h1' : ∀ sb, sbp = some sb → (sizeof_Elf_Ehdr : Int) ≤ sb.st_size := by
      intro sb hs
      by_contra hc
      exact h1 (hsmall.2 ⟨sb, hs, by omega⟩)
    by_cases h2 : S.mmap_hdr = MAP_FAILED
    · rw [if_pos h2]
      constructor
      · intro h; cases h
      · rintro ⟨-, h, -⟩; exact absurd h2 h
    rw [if_neg h2]
    by_cases h3 : hdr_checks T hdr
    · rw [if_pos h3]; exact ⟨fun _ => ⟨h1', h2, h3⟩, fun _ => rfl⟩
    · rw [if_neg h3]
      constructor
      · intro h; cases h
      · rintro ⟨-, -, h⟩; exact absurd h h3
  · split_ifs <;> simp
  · intro sb hs hlt
    rw [if_pos (hsmall.2 ⟨sb, hs, hlt⟩)]

theorem get_elf_header_accepts_iff_witness :
    (get_elf_header plain_target sys_ok 3 (some ⟨100, 0, 0⟩) (good_hdr 64 3)).1
      = some sys_ok.mmap_hdr :=
  (get_elf_header_accepts_iff plain_target sys_ok 3 (some ⟨100, 0, 0⟩) (good_hdr 64 3)
    (by intro sb h; cases h; decide)).1.2
    (by refine ⟨?_, by decide⟩; intro sb h; cases h; decide)

/-- Claim C6, evaluated at the failing input `e_phoff = 2^64 - 56`, `e_phnum = 1`: the check
`e_phoff + e_phnum * sizeof(Elf_Phdr) > PAGE_SIZE` wraps to `0 > PAGE_SIZE`, so the header is
accepted although the table starts `2^64 - 56` bytes after the header and is not inside the
mapped first page. -/
theorem get_elf_header_accepts_wrapped_phoff :
    (get_elf_header plain_target sys_ok 3 none (good_hdr 18446744073709551560 1)).1
      = some sys_ok.mmap_hdr ∧
    (good_hdr 18446744073709551560 1).e_phoff < 2 ^ 64 ∧
    ¬ ((good_hdr 18446744073709551560 1).e_phoff
        + (good_hdr 18446744073709551560 1).e_phnum * sizeof_Elf_Phdr ≤ PAGE_SIZE) := by
  decide

/-! ## Facts about the scan loop -/

/-- Case analysis of one scan iteration: a property holds of the result of `scan_phdr` as soon as
it holds of the result of each branch of the `switch`. -/
theorem scan_phdr_cases (T : Target) (S : Sys) (fd : Int) (ha k : Nat) (ph : Elf_Phdr)
    (st : ScanState) (motive : Bool × ScanState → Prop)
    (h_interp : ph.p_type = PT_INTERP → motive (true, { st with phinterp := some ph }))
    (h_load_bad : ph.p_type = PT_LOAD → ph.p_align &&& (PAGE_SIZE - 1) ≠ 0 →
      motive (false, { st with segs := st.segs ++ [ph] }))
    (h_load_ro : ph.p_type = PT_LOAD → ph.p_align &&& (PAGE_SIZE - 1) = 0 →
      motive (true, { st with
        segs := st.segs ++ [ph]
        text_rodata_start := min ph.p_vaddr st.text_rodata_start
        text_rodata_end := max (add64 ph.p_vaddr ph.p_memsz) st.text_rodata_end }))
    (h_load : ph.p_type = PT_LOAD → ph.p_align &&& (PAGE_SIZE - 1) = 0 →
      motive (true, { st with segs := st.segs ++ [ph] }))
    (h_phdr : ph.p_type = PT_PHDR →
      motive (true, { st with phdr_vaddr := ph.p_vaddr, phsize := ph.p_memsz }))
    (h_dyn : ph.p_type = PT_DYNAMIC → motive (true, { st with phdyn := some ph }))
    (h_tls : ph.p_type = PT_TLS → motive (true, { st with phtls := some ph }))
    (h_stack : ph.p_type = PT_GNU_STACK → motive (true, { st with stack_flags := ph.p_flags }))
    (h_relro : ph.p_type = PT_GNU_RELRO →
      motive (true, { st with relro_page := ph.p_vaddr, relro_size := ph.p_memsz }))
    (h_note_fail : ph.p_type = PT_NOTE →
      (ph.p_offset > PAGE_SIZE ∨ add64 ph.p_offset ph.p_filesz > PAGE_SIZE) →
      S.mmap_note k = MAP_FAILED →
      motive (false, { st with
        note_map_len := sub64 (round_page (add64 ph.p_offset ph.p_filesz)) (trunc_page ph.p_offset)
        note_map := S.mmap_note k
        trace := st.trace ++ [Event.mmap Site.note 0
          (sub64 (round_page (add64 ph.p_offset ph.p_filesz)) (trunc_page ph.p_offset))
          PROT_READ MAP_PRIVATE fd (trunc_page ph.p_offset) (S.mmap_note k)] }))
    (h_note_map : ph.p_type = PT_NOTE →
      (ph.p_offset > PAGE_SIZE ∨ add64 ph.p_offset ph.p_filesz > PAGE_SIZE) →
      S.mmap_note k ≠ MAP_FAILED →
      motive (true, { st with
        note_map_len := sub64 (round_page (add64 ph.p_offset ph.p_filesz)) (trunc_page ph.p_offset)
        note_map := S.mmap_note k
        trace := st.trace ++ [Event.mmap Site.note 0
          (sub64 (round_page (add64 ph.p_offset ph.p_filesz)) (trunc_page ph.p_offset))
          PROT_READ MAP_PRIVATE fd (trunc_page ph.p_offset) (S.mmap_note k)]
        note_start := sub64 (add64 (S.mmap_note k) ph.p_offset) (trunc_page ph.p_offset)
        note_end := add64 (sub64 (add64 (S.mmap_note k) ph.p_offset) (trunc_page ph.p_offset))
          ph.p_filesz }))
    (h_note_page : ph.p_type = PT_NOTE →
      ¬ (ph.p_offset > PAGE_SIZE ∨ add64 ph.p_offset ph.p_filesz > PAGE_SIZE) →
      motive (true, { st with
        note_start := add64 ha ph.p_offset
        note_end := add64 (add64 ha ph.p_offset) ph.p_filesz }))
    (h_other : ph.p_type ≠ PT_INTERP → ph.p_type ≠ PT_LOAD → ph.p_type ≠ PT_PHDR →
      ph.p_type ≠ PT_DYNAMIC → ph.p_type ≠ PT_TLS → ph.p_type ≠ PT_GNU_STACK →
      ph.p_type ≠ PT_GNU_RELRO → ph.p_type ≠ PT_NOTE → motive (true, st)) :
    motive (scan_phdr T S fd ha k ph st) := by
  unfold scan_phdr
  by_cases h1 : ph.p_type = PT_INTERP
  · rw [if_pos h1]; exact h_interp h1
  rw [if_neg h1]
  by_cases h2 : ph.p_type = PT_LOAD
  · rw [if_pos h2]
    by_cases h2a : ph.p_align &&& (PAGE_SIZE - 1) ≠ 0
    · dsimp only []
      rw [if_pos h2a]; exact h_load_bad h2 h2a
    · dsimp only []
      rw [if_neg h2a]
      rw [not_not] at h2a
      split_ifs
      · exact h_load_ro h2 h2a
      · exact h_load h2 h2a
  rw [if_neg h2]
  by_cases h3 : ph.p_type = PT_PHDR
  · rw [if_pos h3]; exact h_phdr h3
  rw [if_neg h3]
  by_cases h4 : ph.p_type = PT_DYNAMIC
  · rw [if_pos h4]; exact h_dyn h4
  rw [if_neg h4]
  by_cases h5 : ph.p_type = PT_TLS
  · rw [if_pos h5]; exact h_tls h5
  rw [if_neg h5]
  by_cases h6 : ph.p_type = PT_GNU_STACK
  · rw [if_pos h6]; exact h_stack h6
  rw [if_neg h6]
  by_cases h7 : ph.p_type = PT_GNU_RELRO
  · rw [if_pos h7]; exact h_relro h7
  rw [if_neg h7]
  by_cases h8 : ph.p_type = PT_NOTE
  · rw [if_pos h8]
    by_cases h8a : ph.p_offset > PAGE_SIZE ∨ add64 ph.p_offset ph.p_filesz > PAGE_SIZE
    · rw [if_pos h8a]
      by_cases h8b : S.mmap_note k = MAP_FAILED
      · dsimp only []
        rw [if_pos h8b]
        exact h_note_fail h8 h8a h8b
      · dsimp only []
        rw [if_neg h8b]
        exact h_note_map h8 h8a h8b
    · rw [if_neg h8a]
      exact h_note_page h8 h8a
  rw [if_neg h8]
  exact h_other h1 h2 h3 h4 h5 h6 h7 h8

theorem last_of_single (ty : Nat) (ph : Elf_Phdr) :
    last_of ty [ph] = if ph.p_type = ty then some ph else none := by
  unfold last_of
  by_cases h : ph.p_type = ty <;> simp [h]

theorem last_of_cons (ty : Nat) (ph : Elf_Phdr) (rest : List Elf_Phdr) :
    last_of ty (ph :: rest) = (last_of ty rest).or (last_of ty [ph]) := by
  rw [last_of_single]
  unfold last_of
  by_cases h : ph.p_type = ty
  · simp only [h, decide_True, List.filter_cons_of_pos, if_true, List.getLast?_cons]
    cases (List.filter (fun p => decide (p.p_type = ty)) rest).getLast? <;> rfl
  · simp only [h, decide_False, if_false, Bool.false_eq_true, not_false_eq_true,
      List.filter_cons_of_neg]
    cases (List.filter (fun p => decide (p.p_type = ty)) rest).getLast? <;> rfl

theorem loads_cons (ph : Elf_Phdr) (rest : List Elf_Phdr) :
    loads (ph :: rest) = loads [ph] ++ loads rest := by
  unfold loads
  by_cases h : ph.p_type = PT_LOAD <;> simp [h]

theorem scan_post_nil (st : ScanState) : scan_post [] st st := by
  simp [scan_post, loads, last_of]

theorem scan_post_cons (ph : Elf_Phdr) (rest : List Elf_Phdr) (st st1 st2 : ScanState)
    (h1 : scan_post [ph] st st1) (h2 : scan_post rest st1 st2) :
    scan_post (ph :: rest) st st2 := by
  obtain ⟨a1, a2, a3, a4, a5, a6, a7, a8, a9⟩ := h1
  obtain ⟨b1, b2, b3, b4, b5, b6, b7, b8, b9⟩ := h2
  unfold scan_post
  simp only [last_of_cons _ ph rest, loads_cons ph rest]
  refine ⟨?_, ?_, ?_, ?_, ?_, ?_, ?_, ?_, ?_⟩
  · rw [b1, a1, List.append_assoc]
  · rw [b2, a2]; cases last_of PT_DYNAMIC rest <;> rfl
  · rw [b3, a3]; cases last_of PT_INTERP rest <;> rfl
  · rw [b4, a4]; cases last_of PT_TLS rest <;> rfl
  · rw [b5, a5]; cases last_of PT_PHDR rest <;> rfl
  · rw [b6, a6]; cases last_of PT_PHDR rest <;> rfl
  · rw [b7, a7]; cases last_of PT_GNU_STACK rest <;> rfl
  · rw [b8, a8]; cases last_of PT_GNU_RELRO rest <;> rfl
  · rw [b9, a9]; cases last_of PT_GNU_RELRO rest <;> rfl

theorem scan_phdr_post (T : Target) (S : Sys) (fd : Int) (ha k : Nat) (ph : Elf_Phdr)
    (st : ScanState) : scan_post [ph] st (scan_phdr T S fd ha k ph st).2 := by
  apply scan_phdr_cases T S fd ha k ph st (fun r => scan_post [ph] st r.2)
  all_goals intros
  all_goals simp only [scan_post, last_of_single, loads]
  all_goals simp_all [PT_LOAD, PT_INTERP, PT_PHDR, PT_DYNAMIC, PT_TLS, PT_GNU_STACK,
    PT_GNU_RELRO, PT_NOTE]

theorem scan_loop_post (T : Target) (S : Sys) (fd : Int) (ha : Nat) (phs : List Elf_Phdr) :
    ∀ (k : Nat) (st st1 : ScanState), scan_loop T S fd ha k phs st = (true, st1) →
      scan_post phs st st1 := by
  induction phs with
  | nil =>
    intro k st st1 h
    simp only [scan_loop, Prod.mk.injEq, true_and] at h
    subst h
    exact scan_post_nil st
  | cons ph rest ih =>
    intro k st st1 h
    have hp := scan_phdr_post T S fd ha k ph st
    unfold scan_loop at h
    rcases hr : scan_phdr T S fd ha k ph st with ⟨b, st2⟩
    rw [hr] at h hp
    cases b with
    | false => simp at h
    | true => exact scan_post_cons ph rest st st2 st1 hp (ih (k + 1) st2 st1 h)

theorem scan_phdr_filter (p : Event → Bool)
    (hp : ∀ a l pr f d o r, p (Event.mmap Site.note a l pr f d o r) = false)
    (T : Target) (S : Sys) (fd : Int) (ha k : Nat) (ph : Elf_Phdr) (st : ScanState) :
    (scan_phdr T S fd ha k ph st).2.trace.filter p = st.trace.filter p := by
  apply scan_phdr_cases T S fd ha k ph st (fun r => r.2.trace.filter p = st.trace.filter p)
  all_goals intros
  all_goals simp [List.filter_append, hp]

theorem scan_loop_filter (p : Event → Bool)
    (hp : ∀ a l pr f d o r, p (Event.mmap Site.note a l pr f d o r) = false)
    (T : Target) (S : Sys) (fd : Int) (ha : Nat) (phs : List Elf_Phdr) :
    ∀ (k : Nat) (st : ScanState),
      (scan_loop T S fd ha k phs st).2.trace.filter p = st.trace.filter p := by
  induction phs with
  | nil => intro k st; rfl
  | cons ph rest ih =>
    intro k st
    have hs := scan_phdr_filter p hp T S fd ha k ph st
    unfold scan_loop
    rcases hr : scan_phdr T S fd ha k ph st with ⟨b, st2⟩
    rw [hr] at hs
    cases b with
    | false => exact hs
    | true => exact (ih (k + 1) st2).trans hs

theorem scan_phdr_misaligned (T : Target) (S : Sys) (fd : Int) (ha k : Nat) (ph : Elf_Phdr)
    (st : ScanState) (h1 : ph.p_type = PT_LOAD) (h2 : ph.p_align &&& (PAGE_SIZE - 1) ≠ 0) :
    (scan_phdr T S fd ha k ph st).1 = false := by
  apply scan_phdr_cases T S fd ha k ph st (fun r => r.1 = false)
  all_goals intros
  all_goals simp_all [PT_LOAD, PT_INTERP, PT_PHDR, PT_DYNAMIC, PT_TLS, PT_GNU_STACK,
    PT_GNU_RELRO, PT_NOTE]

theorem scan_loop_misaligned (T : Target) (S : Sys) (fd : Int) (ha : Nat) (phs : List Elf_Phdr)
    (hbad : ∃ ph ∈ phs, ph.p_type = PT_LOAD ∧ ph.p_align &&& (PAGE_SIZE - 1) ≠ 0) :
    ∀ (k : Nat) (st : ScanState), (scan_loop T S fd ha k phs st).1 = false := by
  induction phs with
  | nil => obtain ⟨ph, hm, -⟩ := hbad; simp at hm
  | cons ph rest ih =>
    intro k st
    unfold scan_loop
    rcases hr : scan_phdr T S fd ha k ph st with ⟨b, st2⟩
    cases b with
    | false => rfl
    | true =>
      dsimp only []
      apply ih
      obtain ⟨q, hm, hq1, hq2⟩ := hbad
      rcases List.mem_cons.1 hm with h | h
      · subst h
        have := scan_phdr_misaligned T S fd ha k q st hq1 hq2
        rw [hr] at this
        simp at this
      · exact ⟨q, h, hq1, hq2⟩

/-! ## Facts about the exits and the calls before the reservation -/

@[simp] theorem fail_result_ret (S : Sys) (tr : List Event) : (fail_result S tr).ret = none := rfl

@[simp] theorem fail_result_trace (S : Sys) (tr : List Event) : (fail_result S tr).trace = tr := rfl

theorem get_elf_header_some (T : Target) (S : Sys) (fd : Int) (sbp : Option Stat) (hdr : Elf_Ehdr)
    (a : Nat) (tr : List Event) (h : get_elf_header T S fd sbp hdr = (some a, tr)) :
    a = S.mmap_hdr ∧ tr = [hdr_mmap_event S fd] ∧ hdr_checks T hdr ∧ S.mmap_hdr ≠ MAP_FAILED := by
  rw [get_elf_header_eq] at h
  split_ifs at h with h1 h2 h3
  · cases h
  · cases h
  · cases h; exact ⟨rfl, rfl, h3, h2⟩
  · cases h

theorem get_elf_header_filter (p : Event → Bool)
    (hp1 : ∀ a l pr f d o r, p (Event.mmap Site.hdr a l pr f d o r) = false)
    (hp2 : ∀ s a l, p (Event.munmap s a l) = false)
    (T : Target) (S : Sys) (fd : Int) (sbp : Option Stat) (hdr : Elf_Ehdr) :
    (get_elf_header T S fd sbp hdr).2.filter p = [] := by
  rw [get_elf_header_eq]
  split_ifs <;> simp [hdr_mmap_event, hp1, hp2]

theorem get_elf_header_none (T : Target) (S : Sys) (fd : Int) (sb : Option Stat) (hdr : Elf_Ehdr)
    (phdrs : List Elf_Phdr) (tr : List Event) (h : get_elf_header T S fd sb hdr = (none, tr)) :
    map_object T S fd sb hdr phdrs =
      fail_result S tr := by
  unfold map_object
  rw [h]

theorem map_object_of_scan (T : Target) (S : Sys) (fd : Int) (sb : Option Stat) (hdr : Elf_Ehdr)
    (phdrs : List Elf_Phdr) (ha : Nat) (tr : List Event) (st : ScanState)
    (h : get_elf_header T S fd sb hdr = (some ha, tr))
    (hs : scan_loop T S fd ha 0 phdrs (scan_init T hdr tr) = (true, st)) :
    map_object T S fd sb hdr phdrs = map_after_scan T S fd sb hdr ha st := by
  unfold map_object
  rw [h]
  dsimp only []
  rw [hs]

theorem map_object_of_scan_fail (T : Target) (S : Sys) (fd : Int) (sb : Option Stat)
    (hdr : Elf_Ehdr) (phdrs : List Elf_Phdr) (ha : Nat) (tr : List Event) (st : ScanState)
    (h : get_elf_header T S fd sb hdr = (some ha, tr))
    (hs : scan_loop T S fd ha 0 phdrs (scan_init T hdr tr) = (false, st)) :
    map_object T S fd sb hdr phdrs =
      fail_result S (error_exit ha st st.trace) := by
  unfold map_object
  rw [h]
  dsimp only []
  rw [hs]

theorem error_exit_filter (p : Event → Bool) (hp : ∀ s a l, p (Event.munmap s a l) = false)
    (ha : Nat) (st : ScanState) (tr : List Event) :
    (error_exit ha st tr).filter p = tr.filter p := by
  unfold error_exit
  split_ifs <;> simp [List.filter_append, hp]

theorem last_of_none (ty : Nat) (phdrs : List Elf_Phdr) (h : ∀ ph ∈ phdrs, ph.p_type ≠ ty) :
    last_of ty phdrs = none := by
  unfold last_of
  have : phdrs.filter (fun p => decide (p.p_type = ty)) = [] := by
    rw [List.filter_eq_nil_iff]
    intro a ha
    simpa using h a ha
  rw [this]
  rfl

theorem loads_nil (phdrs : List Elf_Phdr) (h : ∀ ph ∈ phdrs, ph.p_type ≠ PT_LOAD) :
    loads phdrs = [] := by
  unfold loads
  rw [List.filter_eq_nil_iff]
  intro a ha
  simpa using h a ha

theorem scan_init_post (T : Target) (hdr : Elf_Ehdr) (tr : List Event) (phdrs : List Elf_Phdr)
    (st : ScanState) (h : scan_post phdrs (scan_init T hdr tr) st) :
    st.segs = loads phdrs ∧ st.phdyn = last_of PT_DYNAMIC phdrs ∧
    st.phinterp = last_of PT_INTERP phdrs ∧ st.phtls = last_of PT_TLS phdrs := by
  obtain ⟨a1, a2, a3, a4, -⟩ := h
  refine ⟨?_, ?_, ?_, ?_⟩
  · rw [a1]; rfl
  · rw [a2]; cases last_of PT_DYNAMIC phdrs <;> rfl
  · rw [a3]; cases last_of PT_INTERP phdrs <;> rfl
  · rw [a4]; cases last_of PT_TLS phdrs <;> rfl

theorem map_after_scan_absent (T : Target) (S : Sys) (fd : Int) (sb : Option Stat)
    (hdr : Elf_Ehdr) (ha : Nat) (st : ScanState) (h : st.phdyn = none ∨ st.segs = []) :
    map_after_scan T S fd sb hdr ha st =
      fail_result S (error_exit ha st st.trace) := by
  unfold map_after_scan
  rcases h with h | h
  · simp only [h]
  · simp only [h, List.head?_nil, List.getLast?_nil]
    cases st.phdyn <;> rfl

theorem map_after_scan_eq (T : Target) (S : Sys) (fd : Int) (sb : Option Stat) (hdr : Elf_Ehdr)
    (ha : Nat) (st : ScanState) (phdyn seg0 segn : Elf_Phdr) (hd : st.phdyn = some phdyn)
    (h0 : st.segs.head? = some seg0) (hn : st.segs.getLast? = some segn) :
    map_after_scan T S fd sb hdr ha st =
      if trunc_page seg0.p_vaddr ≠ 0 ∧ T.CHERI_PURE_CAPABILITY = true then
        fail_result S (error_exit ha st st.trace)
      else if S.mmap_reserve = MAP_FAILED then
        fail_result S (error_exit ha st (st.trace ++ [reserve_event S seg0 segn]))
      else if trunc_page seg0.p_vaddr ≠ 0 ∧ S.mmap_reserve ≠ trunc_page seg0.p_vaddr then
        fail_result S (error1_exit ha st S.mmap_reserve
          (sub64 (round_page (add64 segn.p_vaddr segn.p_memsz)) (trunc_page seg0.p_vaddr))
          (st.trace ++ [reserve_event S seg0 segn]))
      else
        match map_segments S fd hdr S.mmap_reserve (trunc_page seg0.p_vaddr) 0 st.segs
            { phdr_vaddr := st.phdr_vaddr, trace := st.trace ++ [reserve_event S seg0 segn] } with
        | (false, ms) =>
          fail_result S (error1_exit ha st S.mmap_reserve
            (sub64 (round_page (add64 segn.p_vaddr segn.p_memsz)) (trunc_page seg0.p_vaddr))
            ms.trace)
        | (true, ms) =>
          build_obj T S sb hdr ha st phdyn seg0 S.mmap_reserve
            (sub64 (round_page (add64 segn.p_vaddr segn.p_memsz)) (trunc_page seg0.p_vaddr))
            (trunc_page seg0.p_vaddr) ms.phdr_vaddr ms.trace := by
  unfold map_after_scan
  simp only [hd, h0, hn]
  rfl

/-! ## Facts about the per-segment loop -/

theorem clear_tail_calls (S : Sys) (mapbase base_vaddr i : Nat) (seg : Elf_Phdr) :
    ∀ e ∈ (clear_tail S mapbase base_vaddr i seg).2, is_segment_call e = true := by
  unfold clear_tail
  dsimp only []
  split_ifs <;> simp [is_segment_call]

theorem bss_overlay_calls (S : Sys) (mapbase base_vaddr i : Nat) (seg : Elf_Phdr) :
    ∀ e ∈ (bss_overlay S mapbase base_vaddr i seg).2, is_segment_call e = true := by
  unfold bss_overlay
  dsimp only []
  split_ifs <;> simp [is_segment_call]

theorem bss_setup_calls (S : Sys) (mapbase base_vaddr i : Nat) (seg : Elf_Phdr) :
    ∀ e ∈ (bss_setup S mapbase base_vaddr i seg).2, is_segment_call e = true := by
  have h1 := clear_tail_calls S mapbase base_vaddr i seg
  have h2 := bss_overlay_calls S mapbase base_vaddr i seg
  unfold bss_setup
  rcases hc : clear_tail S mapbase base_vaddr i seg with ⟨b, es⟩
  rw [hc] at h1
  cases b with
  | false => exact h1
  | true =>
    intro e he
    rcases List.mem_append.1 he with h | h
    · exact h1 e h
    · exact h2 e h

theorem segment_calls_calls (S : Sys) (fd : Int) (mapbase base_vaddr i : Nat) (seg : Elf_Phdr) :
    ∀ e ∈ (segment_calls S fd mapbase base_vaddr i seg).2, is_segment_call e = true := by
  have h1 := bss_setup_calls S mapbase base_vaddr i seg
  have h0 : is_segment_call (data_mmap S fd mapbase base_vaddr i seg) = true := rfl
  unfold segment_calls
  dsimp only []
  split_ifs
  all_goals intro e he
  all_goals first
    | (rw [List.mem_singleton] at he; rw [he]; exact h0)
    | (rcases List.mem_cons.1 he with h | h
       · rw [h]; exact h0
       · exact h1 e h)

/-- The mapping loop only appends calls of the per-segment kind to the trace. -/
theorem map_segments_trace (S : Sys) (fd : Int) (hdr : Elf_Ehdr) (mapbase base_vaddr : Nat)
    (segs : List Elf_Phdr) :
    ∀ (i : Nat) (st : MapState), ∃ es,
      (map_segments S fd hdr mapbase base_vaddr i segs st).2.trace = st.trace ++ es ∧
      ∀ e ∈ es, is_segment_call e = true := by
  induction segs with
  | nil => intro i st; exact ⟨[], by simp [map_segments], by simp⟩
  | cons seg rest ih =>
    intro i st
    have hc := segment_calls_calls S fd mapbase base_vaddr i seg
    unfold map_segments map_segment
    rcases hr : segment_calls S fd mapbase base_vaddr i seg with ⟨b, es⟩
    rw [hr] at hc
    cases b with
    | false => exact ⟨es, rfl, hc⟩
    | true =>
      dsimp only []
      obtain ⟨es2, h2, h3⟩ := ih (i + 1)
        { phdr_vaddr := phdr_vaddr_step hdr seg st.phdr_vaddr, trace := st.trace ++ es }
      refine ⟨es ++ es2, ?_, ?_⟩
      · rw [h2, List.append_assoc]
      · intro e he
        rcases List.mem_append.1 he with h | h
        · exact hc e h
        · exact h3 e h

theorem map_segments_filter (p : Event → Bool) (hp : ∀ e, is_segment_call e = true → p e = false)
    (S : Sys) (fd : Int) (hdr : Elf_Ehdr) (mapbase base_vaddr : Nat) (segs : List Elf_Phdr)
    (i : Nat) (st : MapState) :
    (map_segments S fd hdr mapbase base_vaddr i segs st).2.trace.filter p = st.trace.filter p := by
  obtain ⟨es, h1, h2⟩ := map_segments_trace S fd hdr mapbase base_vaddr segs i st
  rw [h1, List.filter_append]
  have : es.filter p = [] := by
    rw [List.filter_eq_nil_iff]
    intro e he
    simp [hp e (h2 e he)]
  rw [this, List.append_nil]

/-- On success the mapping loop has applied the `phdr_vaddr` update of every segment in order. -/
theorem map_segments_phdr_vaddr (S : Sys) (fd : Int) (hdr : Elf_Ehdr) (mapbase base_vaddr : Nat)
    (segs : List Elf_Phdr) :
    ∀ (i : Nat) (st ms : MapState),
      map_segments S fd hdr mapbase base_vaddr i segs st = (true, ms) →
      ms.phdr_vaddr = segs.foldl (fun v seg => phdr_vaddr_step hdr seg v) st.phdr_vaddr := by
  induction segs with
  | nil =>
    intro i st ms h
    simp only [map_segments, Prod.mk.injEq, true_and] at h
    subst h
    rfl
  | cons seg rest ih =>
    intro i st ms h
    unfold map_segments map_segment at h
    rcases hr : segment_calls S fd mapbase base_vaddr i seg with ⟨b, es⟩
    rw [hr] at h
    cases b with
    | false => simp at h
    | true =>
      dsimp only [] at h
      rw [ih (i + 1) _ ms h]
      rfl

/-! ## Facts about the construction of the descriptor -/

@[simp] theorem ok_result_ret (S : Sys) (st : ScanState) (obj : Obj_Entry) (tr : List Event) :
    (ok_result S st obj tr).ret = some obj := rfl

@[simp] theorem ok_result_trace (S : Sys) (st : ScanState) (obj : Obj_Entry) (tr : List Event) :
    (ok_result S st obj tr).trace = tr := rfl

/-- The descriptor that `build_obj` returns and the calls it has issued: the filled record, with
the program-header table aliased inside the image when `phdr_vaddr` is set and copied from the
header page into allocated memory otherwise. -/
theorem build_obj_ret (T : Target) (S : Sys) (sb : Option Stat) (hdr : Elf_Ehdr) (ha : Nat)
    (st : ScanState) (phdyn seg0 : Elf_Phdr) (mapbase mapsize base_vaddr phdr_vaddr : Nat)
    (tr : List Event) (obj : Obj_Entry)
    (h : (build_obj T S sb hdr ha st phdyn seg0 mapbase mapsize base_vaddr phdr_vaddr tr).ret
      = some obj) :
    (phdr_vaddr ≠ 0 ∧ obj = fill_obj T S sb hdr st phdyn seg0 mapbase mapsize base_vaddr
      (add64 (sub64 mapbase base_vaddr) phdr_vaddr) false ∧
      (build_obj T S sb hdr ha st phdyn seg0 mapbase mapsize base_vaddr phdr_vaddr tr).trace
        = tr ++ [Event.obj_new] ++ exit_calls ha st) ∨
    (phdr_vaddr = 0 ∧ S.malloc_phdr ≠ 0 ∧
      obj = fill_obj T S sb hdr st phdyn seg0 mapbase mapsize base_vaddr S.malloc_phdr true ∧
      (build_obj T S sb hdr ha st phdyn seg0 mapbase mapsize base_vaddr phdr_vaddr tr).trace
        = tr ++ [Event.obj_new, Event.malloc st.phsize S.malloc_phdr,
            Event.memcpy S.malloc_phdr (add64 ha hdr.e_phoff) st.phsize] ++ exit_calls ha st) := by
  unfold build_obj at h ⊢
  split_ifs at h ⊢ with h1 h2
  · left; simp only [ok_result_ret, Option.some.injEq] at h; exact ⟨h1, h.symm, rfl⟩
  · simp at h
  · right; simp only [ok_result_ret, Option.some.injEq] at h
    exact ⟨not_not.1 h1, h2, h.symm, rfl⟩

theorem exit_calls_filter (p : Event → Bool) (hp1 : ∀ s a l, p (Event.munmap s a l) = false)
    (hp2 : ∀ a b, p (Event.digest_notes a b) = false) (ha : Nat) (st : ScanState) :
    (exit_calls ha st).filter p = [] := by
  unfold exit_calls
  split_ifs <;> simp [hp1, hp2]

theorem error1_exit_filter (p : Event → Bool) (hp : ∀ s a l, p (Event.munmap s a l) = false)
    (ha : Nat) (st : ScanState) (mapbase mapsize : Nat) (tr : List Event) :
    (error1_exit ha st mapbase mapsize tr).filter p = tr.filter p := by
  unfold error1_exit
  rw [error_exit_filter p hp, List.filter_append]
  simp [hp]

/-- The calls of `build_obj` are allocator calls, the note digest and `munmap`s. -/
theorem build_obj_filter (p : Event → Bool) (hp1 : ∀ s a l, p (Event.munmap s a l) = false)
    (hp2 : ∀ a b, p (Event.digest_notes a b) = false) (hp3 : p Event.obj_new = false)
    (hp4 : p Event.obj_free = false) (hp5 : ∀ a b, p (Event.malloc a b) = false)
    (hp6 : ∀ a b c, p (Event.memcpy a b c) = false)
    (T : Target) (S : Sys) (sb : Option Stat) (hdr : Elf_Ehdr) (ha : Nat)
    (st : ScanState) (phdyn seg0 : Elf_Phdr) (mapbase mapsize base_vaddr phdr_vaddr : Nat)
    (tr : List Event) :
    (build_obj T S sb hdr ha st phdyn seg0 mapbase mapsize base_vaddr phdr_vaddr tr).trace.filter p
      = tr.filter p := by
  unfold build_obj
  split_ifs
  · simp [List.filter_append, exit_calls_filter p hp1 hp2, hp3]
  · rw [fail_result_trace, error1_exit_filter p hp1]
    simp [List.filter_append, hp3, hp4, hp5]
  · simp [List.filter_append, exit_calls_filter p hp1 hp2, hp3, hp5, hp6]

/-! ## The paths through map_object -/

theorem scanned_facts {T : Target} {S : Sys} {fd : Int} {sb : Option Stat} {hdr : Elf_Ehdr}
    {phdrs : List Elf_Phdr} {ha : Nat} {tr : List Event} {st : ScanState}
    (h : Scanned T S fd sb hdr phdrs ha tr st) :
    ha = S.mmap_hdr ∧ tr = [hdr_mmap_event S fd] ∧ hdr_checks T hdr ∧ S.mmap_hdr ≠ MAP_FAILED ∧
    scan_post phdrs (scan_init T hdr tr) st ∧
    st.segs = loads phdrs ∧ st.phdyn = last_of PT_DYNAMIC phdrs ∧
    st.phinterp = last_of PT_INTERP phdrs ∧ st.phtls = last_of PT_TLS phdrs := by
  obtain ⟨h1, h2, h3, h4⟩ := get_elf_header_some T S fd sb hdr ha tr h.hdr_ok
  have hp := scan_loop_post T S fd ha phdrs 0 _ st h.scan_ok
  obtain ⟨h5, h6, h7, h8⟩ := scan_init_post T hdr tr phdrs st hp
  exact ⟨h1, h2, h3, h4, hp, h5, h6, h7, h8⟩

theorem layout_unique {phdrs : List Elf_Phdr} {phdyn s0 sn phdyn1 s1 sn1 : Elf_Phdr}
    (h : Layout phdrs phdyn s0 sn) (h1 : Layout phdrs phdyn1 s1 sn1) :
    phdyn1 = phdyn ∧ s1 = s0 ∧ sn1 = sn := by
  have e1 := h.dyn.symm.trans h1.dyn
  have e2 := h.first.symm.trans h1.first
  have e3 := h.last.symm.trans h1.last
  simp only [Option.some.injEq] at e1 e2 e3
  exact ⟨e1.symm, e2.symm, e3.symm⟩

/-- Case analysis of a call of `map_object` by the path it takes: a property holds of the result
as soon as it holds of the result of each path. -/
theorem map_object_cases (T : Target) (S : Sys) (fd : Int) (sb : Option Stat) (hdr : Elf_Ehdr)
    (phdrs : List Elf_Phdr) (motive : Result → Prop)
    (h_hdr : ∀ tr, get_elf_header T S fd sb hdr = (none, tr) → motive (fail_result S tr))
    (h_scan : ∀ ha tr st, get_elf_header T S fd sb hdr = (some ha, tr) →
      scan_loop T S fd ha 0 phdrs (scan_init T hdr tr) = (false, st) →
      motive (fail_result S (error_exit ha st st.trace)))
    (h_absent : ∀ ha tr st, Scanned T S fd sb hdr phdrs ha tr st →
      (last_of PT_DYNAMIC phdrs = none ∨ loads phdrs = []) →
      motive (fail_result S (error_exit ha st st.trace)))
    (h_cheri : ∀ ha tr st phdyn s0 sn, Scanned T S fd sb hdr phdrs ha tr st →
      Layout phdrs phdyn s0 sn →
      trunc_page s0.p_vaddr ≠ 0 → T.CHERI_PURE_CAPABILITY = true →
      motive (fail_result S (error_exit ha st st.trace)))
    (h_nomem : ∀ ha tr st phdyn s0 sn, Scanned T S fd sb hdr phdrs ha tr st →
      Layout phdrs phdyn s0 sn →
      (trunc_page s0.p_vaddr = 0 ∨ T.CHERI_PURE_CAPABILITY = false) →
      S.mmap_reserve = MAP_FAILED →
      motive (fail_result S (error_exit ha st (st.trace ++ [reserve_event S s0 sn]))))
    (h_moved : ∀ ha tr st phdyn s0 sn, Scanned T S fd sb hdr phdrs ha tr st →
      Layout phdrs phdyn s0 sn →
      T.CHERI_PURE_CAPABILITY = false → S.mmap_reserve ≠ MAP_FAILED →
      trunc_page s0.p_vaddr ≠ 0 → S.mmap_reserve ≠ trunc_page s0.p_vaddr →
      motive (fail_result S (error1_exit ha st S.mmap_reserve (reserve_size s0 sn)
        (st.trace ++ [reserve_event S s0 sn]))))
    (h_segment : ∀ ha tr st phdyn s0 sn ms, Scanned T S fd sb hdr phdrs ha tr st →
      Layout phdrs phdyn s0 sn →
      (trunc_page s0.p_vaddr = 0 ∨ T.CHERI_PURE_CAPABILITY = false) →
      S.mmap_reserve ≠ MAP_FAILED →
      (trunc_page s0.p_vaddr = 0 ∨ S.mmap_reserve = trunc_page s0.p_vaddr) →
      map_segments S fd hdr S.mmap_reserve (trunc_page s0.p_vaddr) 0 (loads phdrs)
        { phdr_vaddr := st.phdr_vaddr, trace := st.trace ++ [reserve_event S s0 sn] }
        = (false, ms) →
      motive (fail_result S (error1_exit ha st S.mmap_reserve (reserve_size s0 sn) ms.trace)))
    (h_build : ∀ ha tr st phdyn s0 sn ms, Scanned T S fd sb hdr phdrs ha tr st →
      Layout phdrs phdyn s0 sn →
      (trunc_page s0.p_vaddr = 0 ∨ T.CHERI_PURE_CAPABILITY = false) →
      S.mmap_reserve ≠ MAP_FAILED →
      (trunc_page s0.p_vaddr = 0 ∨ S.mmap_reserve = trunc_page s0.p_vaddr) →
      map_segments S fd hdr S.mmap_reserve (trunc_page s0.p_vaddr) 0 (loads phdrs)
        { phdr_vaddr := st.phdr_vaddr, trace := st.trace ++ [reserve_event S s0 sn] }
        = (true, ms) →
      motive (build_obj T S sb hdr ha st phdyn s0 S.mmap_reserve (reserve_size s0 sn)
        (trunc_page s0.p_vaddr) ms.phdr_vaddr ms.trace)) :
    motive (map_object T S fd sb hdr phdrs) := by
  rcases hg : get_elf_header T S fd sb hdr with ⟨r, tr⟩
  cases r with
  | none =>
    rw [get_elf_header_none T S fd sb hdr phdrs tr hg]
    exact h_hdr tr hg
  | some ha =>
    rcases hs : scan_loop T S fd ha 0 phdrs (scan_init T hdr tr) with ⟨b, st⟩
    cases b with
    | false =>
      rw [map_object_of_scan_fail T S fd sb hdr phdrs ha tr st hg hs]
      exact h_scan ha tr st hg hs
    | true =>
      rw [map_object_of_scan T S fd sb hdr phdrs ha tr st hg hs]
      have hsc : Scanned T S fd sb hdr phdrs ha tr st := ⟨hg, hs⟩
      obtain ⟨-, -, -, -, -, hsegs, hdyn, -, -⟩ := scanned_facts hsc
      rcases hd : last_of PT_DYNAMIC phdrs with _ | phdyn
      · rw [map_after_scan_absent T S fd sb hdr ha st (Or.inl (hdyn.trans hd))]
        exact h_absent ha tr st hsc (Or.inl hd)
      rcases hl : loads phdrs with _ | ⟨s0, rest⟩
      · rw [map_after_scan_absent T S fd sb hdr ha st (Or.inr (hsegs.trans hl))]
        exact h_absent ha tr st hsc (Or.inr hl)
      have hne : (s0 :: rest) ≠ [] := by simp
      have hlast : (s0 :: rest).getLast? = some ((s0 :: rest).getLast hne) :=
        List.getLast?_eq_getLast _ hne
      generalize (s0 :: rest).getLast hne = sn at hlast
      have hlay : Layout phdrs phdyn s0 sn := ⟨hd, by rw [hl]; rfl, by rw [hl]; exact hlast⟩
      rw [map_after_scan_eq T S fd sb hdr ha st phdyn s0 sn (hdyn.trans hd)
        (by rw [hsegs, hl]; rfl) (by rw [hsegs, hl]; exact hlast)]
      by_cases c1 : trunc_page s0.p_vaddr ≠ 0 ∧ T.CHERI_PURE_CAPABILITY = true
      · rw [if_pos c1]
        exact h_cheri ha tr st phdyn s0 sn hsc hlay c1.1 c1.2
      rw [if_neg c1]
      have c1' : trunc_page s0.p_vaddr = 0 ∨ T.CHERI_PURE_CAPABILITY = false := by
        by_cases hz : trunc_page s0.p_vaddr = 0
        · exact Or.inl hz
        · right
          cases hc : T.CHERI_PURE_CAPABILITY with
          | false => rfl
          | true => exact absurd ⟨hz, hc⟩ c1
      by_cases c2 : S.mmap_reserve = MAP_FAILED
      · rw [if_pos c2]
        exact h_nomem ha tr st phdyn s0 sn hsc hlay c1' c2
      rw [if_neg c2]
      by_cases c3 : trunc_page s0.p_vaddr ≠ 0 ∧ S.mmap_reserve ≠ trunc_page s0.p_vaddr
      · rw [if_pos c3]
        have hc : T.CHERI_PURE_CAPABILITY = false := by
          rcases c1' with h | h
          · exact absurd h c3.1
          · exact h
        exact h_moved ha tr st phdyn s0 sn hsc hlay hc c2 c3.1 c3.2
      rw [if_neg c3]
      have c3' : trunc_page s0.p_vaddr = 0 ∨ S.mmap_reserve = trunc_page s0.p_vaddr := by
        by_cases hz : trunc_page s0.p_vaddr = 0
        · exact Or.inl hz
        · right
          by_contra hne2
          exact c3 ⟨hz, hne2⟩
      rw [hsegs]
      rcases hm : map_segments S fd hdr S.mmap_reserve (trunc_page s0.p_vaddr) 0 (loads phdrs)
        { phdr_vaddr := st.phdr_vaddr, trace := st.trace ++ [reserve_event S s0 sn] }
        with ⟨b, ms⟩
      cases b with
      | false => exact h_segment ha tr st phdyn s0 sn ms hsc hlay c1' c2 c3' hm
      | true => exact h_build ha tr st phdyn s0 sn ms hsc hlay c1' c2 c3' hm

/-! ## The reservation call -/

theorem scanned_trace_filter {T : Target} {S : Sys} {fd : Int} {sb : Option Stat} {hdr : Elf_Ehdr}
    {phdrs : List Elf_Phdr} {ha : Nat} {tr : List Event} {st : ScanState}
    (h : Scanned T S fd sb hdr phdrs ha tr st) (p : Event → Bool)
    (hp1 : ∀ a l pr f d o r, p (Event.mmap Site.hdr a l pr f d o r) = false)
    (hp2 : ∀ a l pr f d o r, p (Event.mmap Site.note a l pr f d o r) = false) :
    st.trace.filter p = [] := by
  have h1 := scan_loop_filter p hp2 T S fd ha phdrs 0 (scan_init T hdr tr)
  rw [h.scan_ok] at h1
  obtain ⟨-, h2, -⟩ := scanned_facts h
  rw [h1, h2]
  simp [scan_init, hdr_mmap_event, hp1]

theorem scan_fail_trace_filter (T : Target) (S : Sys) (fd : Int) (sb : Option Stat)
    (hdr : Elf_Ehdr) (phdrs : List Elf_Phdr) (ha : Nat) (tr : List Event) (st : ScanState)
    (b : Bool) (hg : get_elf_header T S fd sb hdr = (some ha, tr))
    (hs : scan_loop T S fd ha 0 phdrs (scan_init T hdr tr) = (b, st)) (p : Event → Bool)
    (hp1 : ∀ a l pr f d o r, p (Event.mmap Site.hdr a l pr f d o r) = false)
    (hp2 : ∀ a l pr f d o r, p (Event.mmap Site.note a l pr f d o r) = false) :
    st.trace.filter p = [] := by
  have h1 := scan_loop_filter p hp2 T S fd ha phdrs 0 (scan_init T hdr tr)
  rw [hs] at h1
  obtain ⟨-, h2, -⟩ := get_elf_header_some T S fd sb hdr ha tr hg
  rw [h1, h2]
  simp [scan_init, hdr_mmap_event, hp1]

/-- The reservation is requested exactly when the header is validated, the scan succeeds, the
table has a `PT_DYNAMIC` entry and a loadable segment, and the target is not capability-extended
or the file-declared base is zero; it is then requested once. Otherwise the call fails without
mapping any part of the object. -/
theorem reserve_calls (T : Target) (S : Sys) (fd : Int) (sb : Option Stat) (hdr : Elf_Ehdr)
    (phdrs : List Elf_Phdr) :
    (∃ ha tr st phdyn s0 sn, Scanned T S fd sb hdr phdrs ha tr st ∧ Layout phdrs phdyn s0 sn ∧
      (trunc_page s0.p_vaddr = 0 ∨ T.CHERI_PURE_CAPABILITY = false) ∧
      (map_object T S fd sb hdr phdrs).trace.filter (is_mmap Site.reserve)
        = [reserve_event S s0 sn]) ∨
    ((¬ ∃ ha tr st phdyn s0 sn, Scanned T S fd sb hdr phdrs ha tr st ∧ Layout phdrs phdyn s0 sn ∧
      (trunc_page s0.p_vaddr = 0 ∨ T.CHERI_PURE_CAPABILITY = false)) ∧
      (map_object T S fd sb hdr phdrs).trace.filter is_object_mmap = [] ∧
      (map_object T S fd sb hdr phdrs).ret = none) := by
  have hp1 : ∀ a l pr f d o r, is_object_mmap (Event.mmap Site.hdr a l pr f d o r) = false := by
    intros; rfl
  have hp2 : ∀ s a l, is_object_mmap (Event.munmap s a l) = false := by intros; rfl
  have hp3 : ∀ a l pr f d o r, is_object_mmap (Event.mmap Site.note a l pr f d o r) = false := by
    intros; rfl
  have hq1 : ∀ a l pr f d o r, is_mmap Site.reserve (Event.mmap Site.hdr a l pr f d o r) = false := by
    intros; rfl
  have hq2 : ∀ s a l, is_mmap Site.reserve (Event.munmap s a l) = false := by intros; rfl
  have hq3 : ∀ a l pr f d o r,
      is_mmap Site.reserve (Event.mmap Site.note a l pr f d o r) = false := by
    intros; rfl
  have hq4 : ∀ e, is_segment_call e = true → is_mmap Site.reserve e = false := by
    intro e he
    cases e with
    | mmap s a l pr f d o r => cases s <;> simp_all [is_segment_call, is_mmap]
    | _ => rfl
  have hres : ∀ s0 sn, is_mmap Site.reserve (reserve_event S s0 sn) = true := by intros; rfl
  refine map_object_cases T S fd sb hdr phdrs (fun R =>
    (∃ ha tr st phdyn s0 sn, Scanned T S fd sb hdr phdrs ha tr st ∧ Layout phdrs phdyn s0 sn ∧
      (trunc_page s0.p_vaddr = 0 ∨ T.CHERI_PURE_CAPABILITY = false) ∧
      R.trace.filter (is_mmap Site.reserve) = [reserve_event S s0 sn]) ∨
    ((¬ ∃ ha tr st phdyn s0 sn, Scanned T S fd sb hdr phdrs ha tr st ∧ Layout phdrs phdyn s0 sn ∧
      (trunc_page s0.p_vaddr = 0 ∨ T.CHERI_PURE_CAPABILITY = false)) ∧
      R.trace.filter is_object_mmap = [] ∧ R.ret = none)) ?_ ?_ ?_ ?_ ?_ ?_ ?_ ?_
  · intro tr hg
    right
    refine ⟨?_, ?_, rfl⟩
    · rintro ⟨ha, tr1, st, _, _, _, hsc, -, -⟩
      have := hg.symm.trans hsc.hdr_ok
      simp at this
    · have := get_elf_header_filter is_object_mmap hp1 hp2 T S fd sb hdr
      rw [hg] at this
      exact this
  · intro ha tr st hg hs
    right
    refine ⟨?_, ?_, rfl⟩
    · rintro ⟨ha1, tr1, st1, _, _, _, hsc, -, -⟩
      have e := hg.symm.trans hsc.hdr_ok
      simp only [Prod.mk.injEq, Option.some.injEq] at e
      obtain ⟨e1, e2⟩ := e
      subst e1 e2
      have := hs.symm.trans hsc.scan_ok
      simp at this
    · rw [fail_result_trace, error_exit_filter _ hp2]
      exact scan_fail_trace_filter T S fd sb hdr phdrs ha tr st false hg hs _ hp1 hp3
  · intro ha tr st hsc habs
    right
    refine ⟨?_, ?_, rfl⟩
    · rintro ⟨_, _, _, phdyn, s0, sn, -, hlay, -⟩
      rcases habs with h | h
      · have := h.symm.trans hlay.dyn
        simp at this
      · have := hlay.first
        rw [h] at this
        simp at this
    · rw [fail_result_trace, error_exit_filter _ hp2]
      exact scanned_trace_filter hsc _ hp1 hp3
  · intro ha tr st phdyn s0 sn hsc hlay hb hc
    right
    refine ⟨?_, ?_, rfl⟩
    · rintro ⟨_, _, _, phdyn1, s1, sn1, -, hlay1, h⟩
      obtain ⟨-, e, -⟩ := layout_unique hlay hlay1
      subst e
      rcases h with h | h
      · exact hb h
      · rw [hc] at h; cases h
    · rw [fail_result_trace, error_exit_filter _ hp2]
      exact scanned_trace_filter hsc _ hp1 hp3
  · intro ha tr st phdyn s0 sn hsc hlay hb hf
    left
    refine ⟨ha, tr, st, phdyn, s0, sn, hsc, hlay, hb, ?_⟩
    rw [fail_result_trace, error_exit_filter _ hq2, List.filter_append,
      scanned_trace_filter hsc _ hq1 hq3]
    simp [hres]
  · intro ha tr st phdyn s0 sn hsc hlay hc hf hb hne
    left
    refine ⟨ha, tr, st, phdyn, s0, sn, hsc, hlay, Or.inr hc, ?_⟩
    rw [fail_result_trace, error1_exit_filter _ hq2, List.filter_append,
      scanned_trace_filter hsc _ hq1 hq3]
    simp [hres]
  · intro ha tr st phdyn s0 sn ms hsc hlay hb hf hat hm
    left
    refine ⟨ha, tr, st, phdyn, s0, sn, hsc, hlay, hb, ?_⟩
    have h1 := map_segments_filter (is_mmap Site.reserve) hq4 S fd hdr S.mmap_reserve
      (trunc_page s0.p_vaddr) (loads phdrs) 0
      { phdr_vaddr := st.phdr_vaddr, trace := st.trace ++ [reserve_event S s0 sn] }
    rw [hm] at h1
    rw [fail_result_trace, error1_exit_filter _ hq2, h1, List.filter_append,
      scanned_trace_filter hsc _ hq1 hq3]
    simp [hres]
  · intro ha tr st phdyn s0 sn ms hsc hlay hb hf hat hm
    left
    refine ⟨ha, tr, st, phdyn, s0, sn, hsc, hlay, hb, ?_⟩
    have h1 := map_segments_filter (is_mmap Site.reserve) hq4 S fd hdr S.mmap_reserve
      (trunc_page s0.p_vaddr) (loads phdrs) 0
      { phdr_vaddr := st.phdr_vaddr, trace := st.trace ++ [reserve_event S s0 sn] }
    rw [hm] at h1
    rw [build_obj_filter (is_mmap Site.reserve) hq2 (by intros; rfl) rfl rfl (by intros; rfl)
      (by intros; rfl), h1, List.filter_append, scanned_trace_filter hsc _ hq1 hq3]
    simp [hres]

/-! ## Successful calls -/

/-- A successful call has validated the header, completed the scan, found the `PT_DYNAMIC` entry
and the loadable segments, obtained the reservation where it has to be, mapped every segment, and
returns the filled descriptor, with the program-header table aliased or copied. -/
theorem map_object_some (T : Target) (S : Sys) (fd : Int) (sb : Option Stat) (hdr : Elf_Ehdr)
    (phdrs : List Elf_Phdr) (obj : Obj_Entry)
    (h : (map_object T S fd sb hdr phdrs).ret = some obj) :
    ∃ ha tr st phdyn s0 sn ms, Scanned T S fd sb hdr phdrs ha tr st ∧ Layout phdrs phdyn s0 sn ∧
      (trunc_page s0.p_vaddr = 0 ∨ T.CHERI_PURE_CAPABILITY = false) ∧
      S.mmap_reserve ≠ MAP_FAILED ∧
      (trunc_page s0.p_vaddr = 0 ∨ S.mmap_reserve = trunc_page s0.p_vaddr) ∧
      map_segments S fd hdr S.mmap_reserve (trunc_page s0.p_vaddr) 0 (loads phdrs)
        { phdr_vaddr := st.phdr_vaddr, trace := st.trace ++ [reserve_event S s0 sn] }
        = (true, ms) ∧
      ((ms.phdr_vaddr ≠ 0 ∧ obj = fill_obj T S sb hdr st phdyn s0 S.mmap_reserve
          (reserve_size s0 sn) (trunc_page s0.p_vaddr)
          (add64 (sub64 S.mmap_reserve (trunc_page s0.p_vaddr)) ms.phdr_vaddr) false ∧
          (map_object T S fd sb hdr phdrs).trace
            = ms.trace ++ [Event.obj_new] ++ exit_calls ha st) ∨
       (ms.phdr_vaddr = 0 ∧ S.malloc_phdr ≠ 0 ∧ obj = fill_obj T S sb hdr st phdyn s0
          S.mmap_reserve (reserve_size s0 sn) (trunc_page s0.p_vaddr) S.malloc_phdr true ∧
          (map_object T S fd sb hdr phdrs).trace
            = ms.trace ++ [Event.obj_new, Event.malloc st.phsize S.malloc_phdr,
                Event.memcpy S.malloc_phdr (add64 ha hdr.e_phoff) st.phsize] ++
              exit_calls ha st)) := by
  revert h
  refine map_object_cases T S fd sb hdr phdrs (fun R => R.ret = some obj →
    ∃ ha tr st phdyn s0 sn ms, Scanned T S fd sb hdr phdrs ha tr st ∧ Layout phdrs phdyn s0 sn ∧
      (trunc_page s0.p_vaddr = 0 ∨ T.CHERI_PURE_CAPABILITY = false) ∧
      S.mmap_reserve ≠ MAP_FAILED ∧
      (trunc_page s0.p_vaddr = 0 ∨ S.mmap_reserve = trunc_page s0.p_vaddr) ∧
      map_segments S fd hdr S.mmap_reserve (trunc_page s0.p_vaddr) 0 (loads phdrs)
        { phdr_vaddr := st.phdr_vaddr, trace := st.trace ++ [reserve_event S s0 sn] }
        = (true, ms) ∧
      ((ms.phdr_vaddr ≠ 0 ∧ obj = fill_obj T S sb hdr st phdyn s0 S.mmap_reserve
          (reserve_size s0 sn) (trunc_page s0.p_vaddr)
          (add64 (sub64 S.mmap_reserve (trunc_page s0.p_vaddr)) ms.phdr_vaddr) false ∧
          R.trace
            = ms.trace ++ [Event.obj_new] ++ exit_calls ha st) ∨
       (ms.phdr_vaddr = 0 ∧ S.malloc_phdr ≠ 0 ∧ obj = fill_obj T S sb hdr st phdyn s0
          S.mmap_reserve (reserve_size s0 sn) (trunc_page s0.p_vaddr) S.malloc_phdr true ∧
          R.trace
            = ms.trace ++ [Event.obj_new, Event.malloc st.phsize S.malloc_phdr,
                Event.memcpy S.malloc_phdr (add64 ha hdr.e_phoff) st.phsize] ++
              exit_calls ha st)))
    ?_ ?_ ?_ ?_ ?_ ?_ ?_ ?_
  · intro tr _ h; simp at h
  · intro ha tr st _ _ h; simp at h
  · intro ha tr st _ _ h; simp at h
  · intro ha tr st phdyn s0 sn _ _ _ _ h; simp at h
  · intro ha tr st phdyn s0 sn _ _ _ _ h; simp at h
  · intro ha tr st phdyn s0 sn _ _ _ _ _ _ h; simp at h
  · intro ha tr st phdyn s0 sn ms _ _ _ _ _ _ h; simp at h
  · intro ha tr st phdyn s0 sn ms hsc hlay hb hf hat hm h
    exact ⟨ha, tr, st, phdyn, s0, sn, ms, hsc, hlay, hb, hf, hat, hm,
      build_obj_ret T S sb hdr ha st phdyn s0 _ _ _ _ _ obj h⟩

/-! ## Failure signals of the per-segment loop and the content of the address space -/

theorem clear_tail_ok (S : Sys) (mapbase base_vaddr i : Nat) (seg : Elf_Phdr)
    (h : (clear_tail S mapbase base_vaddr i seg).1 = true) :
    ∀ e ∈ (clear_tail S mapbase base_vaddr i seg).2, signals_failure e = false := by
  unfold clear_tail at h ⊢
  dsimp only [] at h ⊢
  split_ifs at h ⊢ <;> simp_all [signals_failure]

theorem bss_overlay_ok (S : Sys) (mapbase base_vaddr i : Nat) (seg : Elf_Phdr)
    (h : (bss_overlay S mapbase base_vaddr i seg).1 = true) :
    ∀ e ∈ (bss_overlay S mapbase base_vaddr i seg).2, signals_failure e = false := by
  unfold bss_overlay at h ⊢
  dsimp only [] at h ⊢
  split_ifs at h ⊢ <;> simp_all [signals_failure]

theorem bss_setup_ok (S : Sys) (mapbase base_vaddr i : Nat) (seg : Elf_Phdr)
    (h : (bss_setup S mapbase base_vaddr i seg).1 = true) :
    ∀ e ∈ (bss_setup S mapbase base_vaddr i seg).2, signals_failure e = false := by
  have h1 := clear_tail_ok S mapbase base_vaddr i seg
  have h2 := bss_overlay_ok S mapbase base_vaddr i seg
  unfold bss_setup at h ⊢
  rcases hc : clear_tail S mapbase base_vaddr i seg with ⟨b, es⟩
  rw [hc] at h h1
  cases b with
  | false => simp at h
  | true =>
    dsimp only [] at h ⊢
    intro e he
    rcases List.mem_append.1 he with hm | hm
    · exact h1 rfl e hm
    · exact h2 h e hm

theorem segment_calls_ok (S : Sys) (fd : Int) (mapbase base_vaddr i : Nat) (seg : Elf_Phdr)
    (h : (segment_calls S fd mapbase base_vaddr i seg).1 = true) :
    ∀ e ∈ (segment_calls S fd mapbase base_vaddr i seg).2, signals_failure e = false := by
  have h1 := bss_setup_ok S mapbase base_vaddr i seg
  unfold segment_calls at h ⊢
  dsimp only [] at h ⊢
  by_cases hf : (if S.mmap_data i = true
      then add64 mapbase (sub64 (trunc_page seg.p_vaddr) base_vaddr) else MAP_FAILED) = MAP_FAILED
  · rw [if_pos hf] at h; simp at h
  have h0 : signals_failure (data_mmap S fd mapbase base_vaddr i seg) = false := by
    unfold data_mmap signals_failure
    simpa using hf
  rw [if_neg hf] at h ⊢
  by_cases hb : seg.p_filesz ≠ seg.p_memsz
  · rw [if_pos hb] at h ⊢
    intro e he
    rcases List.mem_cons.1 he with hm | hm
    · rw [hm]; exact h0
    · exact h1 h e hm
  · rw [if_neg hb]
    intro e he
    rw [List.mem_singleton] at he
    rw [he]; exact h0

/-- A mapping loop that completes has appended only per-segment calls that signal no failure. -/
theorem map_segments_ok (S : Sys) (fd : Int) (hdr : Elf_Ehdr) (mapbase base_vaddr : Nat)
    (segs : List Elf_Phdr) :
    ∀ (i : Nat) (st ms : MapState),
      map_segments S fd hdr mapbase base_vaddr i segs st = (true, ms) →
      ∃ es, ms.trace = st.trace ++ es ∧
        ∀ e ∈ es, is_segment_call e = true ∧ signals_failure e = false := by
  induction segs with
  | nil =>
    intro i st ms h
    simp only [map_segments, Prod.mk.injEq, true_and] at h
    subst h
    exact ⟨[], by simp, by simp⟩
  | cons seg rest ih =>
    intro i st ms h
    have hc := segment_calls_calls S fd mapbase base_vaddr i seg
    have hk := segment_calls_ok S fd mapbase base_vaddr i seg
    unfold map_segments map_segment at h
    rcases hr : segment_calls S fd mapbase base_vaddr i seg with ⟨b, es⟩
    rw [hr] at h hc hk
    cases b with
    | false => simp at h
    | true =>
      dsimp only [] at h
      obtain ⟨es2, h2, h3⟩ := ih (i + 1) _ ms h
      refine ⟨es ++ es2, ?_, ?_⟩
      · rw [h2, List.append_assoc]
      · intro e he
        rcases List.mem_append.1 he with hm | hm
        · exact ⟨hc e hm, hk rfl e hm⟩
        · exact h3 e hm

theorem run_events_append (file : Nat → Nat) (m : Nat → Page) (l1 l2 : List Event) :
    run_events file m (l1 ++ l2) = run_events file (run_events file m l1) l2 := by
  unfold run_events
  rw [List.foldl_append]

/-- Calls that are not `mmap`s leave an unmapped address unmapped. -/
theorem run_events_unmapped (file : Nat → Nat) (l : List Event) (a : Nat)
    (hl : ∀ e ∈ l, is_any_mmap e = false) :
    ∀ m : Nat → Page, m a = Page.unmapped → run_events file m l a = Page.unmapped := by
  induction l with
  | nil => intro m h; exact h
  | cons e rest ih =>
    intro m h
    have he := hl e (List.mem_cons_self _ _)
    have hr : ∀ x ∈ rest, is_any_mmap x = false := fun x hx => hl x (List.mem_cons_of_mem _ hx)
    show run_events file (apply_event file m e) rest a = Page.unmapped
    apply ih hr
    cases e with
    | mmap s ad l pr f d o r => simp [is_any_mmap] at he
    | munmap s ad l => unfold apply_event; dsimp only []; split_ifs <;> simp [h]
    | memset ad c l => unfold apply_event; dsimp only []; split_ifs <;> simp [h]
    | _ => exact h

/-- After `error1` nothing is mapped in the range that its `munmap` releases. -/
theorem error1_exit_memory (file : Nat → Nat) (ha : Nat) (st : ScanState) (mapbase mapsize : Nat)
    (tr : List Event) (a : Nat) (h : in_range a mapbase mapsize = true) :
    memory_after file (error1_exit ha st mapbase mapsize tr) a = Page.unmapped := by
  unfold memory_after error1_exit error_exit
  have key : ∀ l : List Event, (∀ e ∈ l, is_any_mmap e = false) →
      run_events file (fun _ => Page.unmapped)
        (tr ++ [Event.munmap Site.reserve mapbase mapsize] ++ l) a = Page.unmapped := by
    intro l hl
    rw [run_events_append, run_events_append]
    apply run_events_unmapped file l a hl
    simp [run_events, apply_event, h]
  split_ifs
  · have := key [Event.munmap Site.note st.note_map st.note_map_len,
      Event.munmap Site.hdr ha PAGE_SIZE] (by simp [is_any_mmap])
    simpa [List.append_assoc] using this
  · have := key [Event.munmap Site.hdr ha PAGE_SIZE] (by simp [is_any_mmap])
    simpa [List.append_assoc] using this

theorem error1_exit_munmap (ha : Nat) (st : ScanState) (mapbase mapsize : Nat)
    (tr : List Event) (h : tr.filter (is_munmap Site.reserve) = []) :
    (error1_exit ha st mapbase mapsize tr).filter (is_munmap Site.reserve)
      = [Event.munmap Site.reserve mapbase mapsize] := by
  unfold error1_exit error_exit
  split_ifs <;> simp [List.filter_append, h, is_munmap]

/-- The call once the reservation is granted: the address check, the mapping loop and the
construction of the descriptor. -/
theorem map_object_reserved {T : Target} {S : Sys} {fd : Int} {sb : Option Stat}
    {hdr : Elf_Ehdr} {phdrs : List Elf_Phdr} {ha : Nat} {tr : List Event} {st : ScanState}
    {phdyn s0 sn : Elf_Phdr}
    (hsc : Scanned T S fd sb hdr phdrs ha tr st) (hlay : Layout phdrs phdyn s0 sn)
    (hb : trunc_page s0.p_vaddr = 0 ∨ T.CHERI_PURE_CAPABILITY = false)
    (hf : S.mmap_reserve ≠ MAP_FAILED) :
    map_object T S fd sb hdr phdrs =
      if trunc_page s0.p_vaddr ≠ 0 ∧ S.mmap_reserve ≠ trunc_page s0.p_vaddr then
        fail_result S (error1_exit ha st S.mmap_reserve (reserve_size s0 sn)
          (st.trace ++ [reserve_event S s0 sn]))
      else
        match map_segments S fd hdr S.mmap_reserve (trunc_page s0.p_vaddr) 0 (loads phdrs)
            { phdr_vaddr := st.phdr_vaddr, trace := st.trace ++ [reserve_event S s0 sn] } with
        | (false, ms) =>
          fail_result S (error1_exit ha st S.mmap_reserve (reserve_size s0 sn) ms.trace)
        | (true, ms) =>
          build_obj T S sb hdr ha st phdyn s0 S.mmap_reserve (reserve_size s0 sn)
            (trunc_page s0.p_vaddr) ms.phdr_vaddr ms.trace := by
  obtain ⟨-, -, -, -, -, hsegs, hdyn, -, -⟩ := scanned_facts hsc
  rw [map_object_of_scan T S fd sb hdr phdrs ha tr st hsc.hdr_ok hsc.scan_ok,
    map_after_scan_eq T S fd sb hdr ha st phdyn s0 sn (hdyn.trans hlay.dyn)
      (by rw [hsegs]; exact hlay.first) (by rw [hsegs]; exact hlay.last)]
  have c1 : ¬ (trunc_page s0.p_vaddr ≠ 0 ∧ T.CHERI_PURE_CAPABILITY = true) := by
    rintro ⟨h1, h2⟩
    rcases hb with h | h
    · exact h1 h
    · rw [h2] at h; cases h
  rw [if_neg c1, if_neg hf, hsegs]
  rfl

/-! ## Rejection of ill-formed tables (C7) -/

theorem page_mask_eq_mod (x : Nat) : x &&& (PAGE_SIZE - 1) = x % PAGE_SIZE := by
  have := Nat.and_pow_two_sub_one_eq_mod x 12
  simpa [PAGE_SIZE] using this

/-- Claim C7. If the program-header table has no `PT_DYNAMIC` entry, or no `PT_LOAD` entry, or a
`PT_LOAD` entry whose `p_align` is not a multiple of `PAGE_SIZE`, then `map_object` returns
`NULL` and issues neither the reservation `mmap` nor any segment overlay. -/
theorem map_object_rejects_bad_table (T : Target) (S : Sys) (fd : Int) (sb : Option Stat)
    (hdr : Elf_Ehdr) (phdrs : List Elf_Phdr)
    (h : (∀ ph ∈ phdrs, ph.p_type ≠ PT_DYNAMIC) ∨ (∀ ph ∈ phdrs, ph.p_type ≠ PT_LOAD) ∨
      (∃ ph ∈ phdrs, ph.p_type = PT_LOAD ∧ ph.p_align % PAGE_SIZE ≠ 0)) :
    (map_object T S fd sb hdr phdrs).ret = none ∧
    (map_object T S fd sb hdr phdrs).trace.filter is_object_mmap = [] := by
  have hp1 : ∀ a l pr f d o r, is_object_mmap (Event.mmap Site.hdr a l pr f d o r) = false := by
    intros; rfl
  have hp2 : ∀ s a l, is_object_mmap (Event.munmap s a l) = false := by intros; rfl
  have hp3 : ∀ a l pr f d o r, is_object_mmap (Event.mmap Site.note a l pr f d o r) = false := by
    intros; rfl
  have hhf := get_elf_header_filter is_object_mmap hp1 hp2 T S fd sb hdr
  rcases hg : get_elf_header T S fd sb hdr with ⟨r, tr⟩
  rw [hg] at hhf
  cases r with
  | none =>
    rw [get_elf_header_none T S fd sb hdr phdrs tr hg]
    exact ⟨rfl, hhf⟩
  | some ha =>
    have hsf := scan_loop_filter is_object_mmap hp3 T S fd ha phdrs 0 (scan_init T hdr tr)
    rcases hs : scan_loop T S fd ha 0 phdrs (scan_init T hdr tr) with ⟨b, st⟩
    rw [hs] at hsf
    have hst : st.trace.filter is_object_mmap = [] := by
      rw [hsf]; exact hhf
    cases b with
    | false =>
      rw [map_object_of_scan_fail T S fd sb hdr phdrs ha tr st hg hs]
      exact ⟨rfl, by rw [fail_result_trace, error_exit_filter is_object_mmap hp2]; exact hst⟩
    | true =>
      rw [map_object_of_scan T S fd sb hdr phdrs ha tr st hg hs]
      have hpost := scan_init_post T hdr tr phdrs st (scan_loop_post T S fd ha phdrs 0 _ st hs)
      have habs : st.phdyn = none ∨ st.segs = [] := by
        rcases h with h | h | h
        · left; rw [hpost.2.1]; exact last_of_none _ _ h
        · right; rw [hpost.1]; exact loads_nil _ h
        · exfalso
          obtain ⟨ph, hm, h1, h2⟩ := h
          have := scan_loop_misaligned T S fd ha phdrs
            ⟨ph, hm, h1, by rw [page_mask_eq_mod]; exact h2⟩ 0 (scan_init T hdr tr)
          rw [hs] at this
          simp at this
      rw [map_after_scan_absent T S fd sb hdr ha st habs]
      exact ⟨rfl, by rw [fail_result_trace, error_exit_filter is_object_mmap hp2]; exact hst⟩

theorem map_object_rejects_bad_table_witness :
    (map_object plain_target sys_ok 3 none (good_hdr 64 1) [load_seg 5 0 0 0x1000 0x1000]).ret
      = none ∧
    (map_object plain_target sys_ok 3 none (good_hdr 64 1)
      [load_seg 5 0 0 0x1000 0x1000]).trace.filter is_object_mmap = [] :=
  map_object_rejects_bad_table plain_target sys_ok 3 none (good_hdr 64 1)
    [load_seg 5 0 0 0x1000 0x1000] (Or.inl (by decide))

/-! ## The reservation (C1) -/

/-- Claim C1, as amended. For every validated header whose scan succeeds with a `PT_DYNAMIC`
entry and loadable segments `s0..sn`, on the plain target or when `trunc_page(s0.p_vaddr)` is
zero, `map_object` requests exactly one reservation: its address hint is
`trunc_page(s0.p_vaddr)` and its length is
`round_page(sn.p_vaddr + sn.p_memsz) - trunc_page(s0.p_vaddr)`; on success the descriptor
records that length as `mapsize` and `trunc_page(s0.p_vaddr)` as `vaddrbase`. -/
theorem map_object_reserves_once (T : Target) (S : Sys) (fd : Int) (sb : Option Stat)
    (hdr : Elf_Ehdr) (phdrs : List Elf_Phdr) (ha : Nat) (tr : List Event) (st : ScanState)
    (phdyn s0 sn : Elf_Phdr)
    (hsc : Scanned T S fd sb hdr phdrs ha tr st) (hlay : Layout phdrs phdyn s0 sn)
    (hplain : T.CHERI_PURE_CAPABILITY = false ∨ trunc_page s0.p_vaddr = 0) :
    (map_object T S fd sb hdr phdrs).trace.filter (is_mmap Site.reserve) =
      [Event.mmap Site.reserve (trunc_page s0.p_vaddr)
        (sub64 (round_page (add64 sn.p_vaddr sn.p_memsz)) (trunc_page s0.p_vaddr))
        (PROT_NONE ||| PROT_MAX PROT_ALL) (reserve_flags S s0 (trunc_page s0.p_vaddr)) (-1) 0
        S.mmap_reserve] ∧
    ∀ obj, (map_object T S fd sb hdr phdrs).ret = some obj →
      obj.mapsize = sub64 (round_page (add64 sn.p_vaddr sn.p_memsz)) (trunc_page s0.p_vaddr) ∧
      obj.vaddrbase = trunc_page s0.p_vaddr := by
  constructor
  · rcases reserve_calls T S fd sb hdr phdrs with h | h
    · obtain ⟨ha1, tr1, st1, phdyn1, s1, sn1, -, hlay1, -, hf⟩ := h
      obtain ⟨-, e1, e2⟩ := layout_unique hlay hlay1
      subst e1 e2
      exact hf
    · exact absurd ⟨ha, tr, st, phdyn, s0, sn, hsc, hlay, hplain.symm⟩ h.1
  · intro obj hobj
    obtain ⟨ha1, tr1, st1, phdyn1, s1, sn1, ms, -, hlay1, -, -, -, -, hfill⟩ :=
      map_object_some T S fd sb hdr phdrs obj hobj
    obtain ⟨-, e1, e2⟩ := layout_unique hlay hlay1
    subst e1 e2
    rcases hfill with ⟨-, h, -⟩ | ⟨-, -, h, -⟩ <;> subst h <;> exact ⟨rfl, rfl⟩

theorem map_object_reserves_once_witness :
    (map_object plain_target sys_ok 3 none (good_hdr 64 3) two_segments).trace.filter
        (is_mmap Site.reserve) =
      [Event.mmap Site.reserve 0 0x2000 (PROT_NONE ||| PROT_MAX PROT_ALL) MAP_GUARD (-1) 0
        0x800000] ∧
    ∀ obj, (map_object plain_target sys_ok 3 none (good_hdr 64 3) two_segments).ret = some obj →
      obj.mapsize = 0x2000 ∧ obj.vaddrbase = 0 :=
  map_object_reserves_once plain_target sys_ok 3 none (good_hdr 64 3) two_segments
    0x10000 [hdr_mmap_event sys_ok 3]
    (scan_loop plain_target sys_ok 3 0x10000 0 two_segments
      (scan_init plain_target (good_hdr 64 3) [hdr_mmap_event sys_ok 3])).2
    (dyn_entry 0x1000) (load_seg 5 0 0 0x1000 0x1000) (load_seg 6 0x1000 0x1000 0x800 0x1000)
    ⟨by decide, by decide⟩ ⟨by decide, by decide, by decide⟩ (Or.inl rfl)

/-- Claim C1 fails as stated: on the capability-extended target, for a validated header whose
scan succeeds with a `PT_DYNAMIC` entry and one loadable segment linked at `0x10000`,
`map_object` requests no reservation at all. -/
theorem no_reservation_on_cheri_fixed_base :
    Scanned cheri_target sys_ok 3 none (good_hdr 64 2) fixed_base 0x10000
      [hdr_mmap_event sys_ok 3]
      (scan_loop cheri_target sys_ok 3 0x10000 0 fixed_base
        (scan_init cheri_target (good_hdr 64 2) [hdr_mmap_event sys_ok 3])).2 ∧
    Layout fixed_base (dyn_entry 0x10000) (load_seg 5 0 0x10000 0x1000 0x1000)
      (load_seg 5 0 0x10000 0x1000 0x1000) ∧
    (map_object cheri_target sys_ok 3 none (good_hdr 64 2) fixed_base).trace.filter
      (is_mmap Site.reserve) = [] :=
  ⟨⟨by decide, by decide⟩, ⟨by decide, by decide, by decide⟩, by decide⟩

/-! ## Objects linked at a fixed address (C10) -/

theorem reserve_flags_fixed (S : Sys) (seg0 : Elf_Phdr) (base_vaddr : Nat) (h : base_vaddr ≠ 0) :
    reserve_flags S seg0 base_vaddr &&& (MAP_FIXED ||| MAP_EXCL) = MAP_FIXED ||| MAP_EXCL := by
  unfold reserve_flags
  simp only [h, ne_eq, not_false_eq_true, if_true]
  split_ifs <;> decide

theorem sub64_self (a : Nat) : sub64 a a = 0 := by
  unfold sub64 W64
  omega

/-- Claim C10. For an object whose file-declared base `trunc_page(s0.p_vaddr)` is non-zero: on
the capability-extended target `map_object` fails without requesting the reservation or any
segment mapping; on the plain target every reservation request is made at that address with
`MAP_FIXED | MAP_EXCL`, it is made (once) when the header is validated, the scan succeeds and the
table has a `PT_DYNAMIC` entry, and a successful call was granted exactly the requested address
and records relocation bias 0. -/
theorem fixed_base_placement (T : Target) (S : Sys) (fd : Int) (sb : Option Stat)
    (hdr : Elf_Ehdr) (phdrs : List Elf_Phdr) (s0 : Elf_Phdr)
    (h0 : (loads phdrs).head? = some s0) (hb : trunc_page s0.p_vaddr ≠ 0) :
    (T.CHERI_PURE_CAPABILITY = true →
      (map_object T S fd sb hdr phdrs).ret = none ∧
      (map_object T S fd sb hdr phdrs).trace.filter is_object_mmap = []) ∧
    (T.CHERI_PURE_CAPABILITY = false →
      (∀ e ∈ (map_object T S fd sb hdr phdrs).trace, is_mmap Site.reserve e = true →
        ∃ len prot flags res,
          e = Event.mmap Site.reserve (trunc_page s0.p_vaddr) len prot flags (-1) 0 res ∧
          flags &&& (MAP_FIXED ||| MAP_EXCL) = MAP_FIXED ||| MAP_EXCL) ∧
      (∀ ha tr st phdyn sn, Scanned T S fd sb hdr phdrs ha tr st → Layout phdrs phdyn s0 sn →
        (map_object T S fd sb hdr phdrs).trace.filter (is_mmap Site.reserve)
          = [reserve_event S s0 sn]) ∧
      (∀ obj, (map_object T S fd sb hdr phdrs).ret = some obj →
        S.mmap_reserve = trunc_page s0.p_vaddr ∧ obj.mapbase = trunc_page s0.p_vaddr ∧
        obj.relocbase = 0)) := by
  have hcalls := reserve_calls T S fd sb hdr phdrs
  constructor
  · intro hc
    rcases hcalls with h | h
    · obtain ⟨_, _, _, _, s1, _, -, hlay1, hor, -⟩ := h
      have e := h0.symm.trans hlay1.first
      simp only [Option.some.injEq] at e
      subst e
      rcases hor with h | h
      · exact absurd h hb
      · rw [hc] at h; cases h
    · exact ⟨h.2.2, h.2.1⟩
  · intro hc
    refine ⟨?_, ?_, ?_⟩
    · intro e he hres
      have hmem : e ∈ (map_object T S fd sb hdr phdrs).trace.filter (is_mmap Site.reserve) :=
        List.mem_filter.2 ⟨he, hres⟩
      rcases hcalls with h | h
      · obtain ⟨_, _, _, _, s1, sn, -, hlay1, -, hf⟩ := h
        have e1 := h0.symm.trans hlay1.first
        simp only [Option.some.injEq] at e1
        subst e1
        rw [hf, List.mem_singleton] at hmem
        exact ⟨_, _, _, _, hmem, reserve_flags_fixed S s0 _ hb⟩
      · have hnil : (map_object T S fd sb hdr phdrs).trace.filter (is_mmap Site.reserve) = [] := by
          rw [List.filter_eq_nil_iff]
          intro x hx hxr
          have : x ∈ (map_object T S fd sb hdr phdrs).trace.filter is_object_mmap :=
            List.mem_filter.2 ⟨hx, by simp [is_object_mmap, hxr]⟩
          rw [h.2.1] at this
          simp at this
        rw [hnil] at hmem
        simp at hmem
    · intro ha tr st phdyn sn hsc hlay
      rcases hcalls with h | h
      · obtain ⟨_, _, _, _, s1, sn1, -, hlay1, -, hf⟩ := h
        obtain ⟨-, e1, e2⟩ := layout_unique hlay hlay1
        subst e1 e2
        exact hf
      · exact absurd ⟨ha, tr, st, phdyn, s0, sn, hsc, hlay, Or.inr hc⟩ h.1
    · intro obj hobj
      obtain ⟨_, _, _, _, s1, _, _, -, hlay1, -, -, hat, -, hfill⟩ :=
        map_object_some T S fd sb hdr phdrs obj hobj
      have e1 := h0.symm.trans hlay1.first
      simp only [Option.some.injEq] at e1
      subst e1
      have hgr : S.mmap_reserve = trunc_page s0.p_vaddr := by
        rcases hat with h | h
        · exact absurd h hb
        · exact h
      rcases hfill with ⟨-, h, -⟩ | ⟨-, -, h, -⟩ <;> subst h <;>
        exact ⟨hgr, hgr, by show sub64 _ _ = 0; rw [hgr]; exact sub64_self _⟩

theorem fixed_base_placement_witness :
    (map_object plain_target (sys_at 0x10000) 3 none (good_hdr 64 2) fixed_base).trace.filter
        (is_mmap Site.reserve)
      = [reserve_event (sys_at 0x10000) (load_seg 5 0 0x10000 0x1000 0x1000)
          (load_seg 5 0 0x10000 0x1000 0x1000)] :=
  ((fixed_base_placement plain_target (sys_at 0x10000) 3 none (good_hdr 64 2) fixed_base
    (load_seg 5 0 0x10000 0x1000 0x1000) (by decide) (by decide)).2 rfl).2.1
    0x10000 [hdr_mmap_event (sys_at 0x10000) 3]
    (scan_loop plain_target (sys_at 0x10000) 3 0x10000 0 fixed_base
      (scan_init plain_target (good_hdr 64 2) [hdr_mmap_event (sys_at 0x10000) 3])).2
    (dyn_entry 0x10000) (load_seg 5 0 0x10000 0x1000 0x1000)
    ⟨by decide, by decide⟩ ⟨by decide, by decide, by decide⟩

/-! ## The addresses recorded in the descriptor (C8) -/

/-- Claim C8. On every successful call, with `s0` the first loadable segment and `phdyn` the
`PT_DYNAMIC` entry: `relocbase = mapbase - trunc_page(s0.p_vaddr)`,
`dynamic = relocbase + phdyn.p_vaddr`, `entry = relocbase + e_entry` when `e_entry` is non-zero
and zero otherwise, `interp = relocbase + p_vaddr` of the `PT_INTERP` entry when there is one and
zero otherwise, and `textsize = round_page(s0.p_vaddr + s0.p_memsz) - trunc_page(s0.p_vaddr)`
(all in 64-bit arithmetic). -/
theorem descriptor_addresses (T : Target) (S : Sys) (fd : Int) (sb : Option Stat)
    (hdr : Elf_Ehdr) (phdrs : List Elf_Phdr) (obj : Obj_Entry)
    (h : (map_object T S fd sb hdr phdrs).ret = some obj) :
    ∃ s0 phdyn, (loads phdrs).head? = some s0 ∧ last_of PT_DYNAMIC phdrs = some phdyn ∧
      obj.relocbase = sub64 obj.mapbase (trunc_page s0.p_vaddr) ∧
      obj.dynamic = add64 obj.relocbase phdyn.p_vaddr ∧
      obj.entry = (if hdr.e_entry ≠ 0 then add64 obj.relocbase hdr.e_entry else 0) ∧
      obj.interp = (match last_of PT_INTERP phdrs with
        | some phinterp => add64 obj.relocbase phinterp.p_vaddr
        | none => 0) ∧
      obj.textsize = sub64 (round_page (add64 s0.p_vaddr s0.p_memsz)) (trunc_page s0.p_vaddr) := by
  obtain ⟨ha, tr, st, phdyn, s0, sn, ms, hsc, hlay, -, -, -, -, hfill⟩ :=
    map_object_some T S fd sb hdr phdrs obj h
  obtain ⟨-, -, -, -, -, -, -, hint, -⟩ := scanned_facts hsc
  refine ⟨s0, phdyn, hlay.first, hlay.dyn, ?_⟩
  rw [← hint]
  rcases hfill with ⟨-, h, -⟩ | ⟨-, -, h, -⟩ <;> subst h <;> exact ⟨rfl, rfl, rfl, rfl, rfl⟩

theorem descriptor_addresses_witness :
    ∃ s0 phdyn, (loads two_segments).head? = some s0 ∧
      last_of PT_DYNAMIC two_segments = some phdyn ∧
      two_segments_obj.relocbase = sub64 two_segments_obj.mapbase (trunc_page s0.p_vaddr) ∧
      two_segments_obj.dynamic = add64 two_segments_obj.relocbase phdyn.p_vaddr ∧
      two_segments_obj.entry = (if (good_hdr 64 3).e_entry ≠ 0
        then add64 two_segments_obj.relocbase (good_hdr 64 3).e_entry else 0) ∧
      two_segments_obj.interp = (match last_of PT_INTERP two_segments with
        | some phinterp => add64 two_segments_obj.relocbase phinterp.p_vaddr
        | none => 0) ∧
      two_segments_obj.textsize
        = sub64 (round_page (add64 s0.p_vaddr s0.p_memsz)) (trunc_page s0.p_vaddr) :=
  descriptor_addresses plain_target sys_ok 3 none (good_hdr 64 3) two_segments two_segments_obj
    (by decide)

/-! ## Aliasing or copying the program-header table (C9) -/

theorem phdr_vaddr_step_eq (hdr : Elf_Ehdr) (seg : Elf_Phdr) (v : Nat) :
    phdr_vaddr_step hdr seg v =
      if v = 0 ∧ window_contains hdr seg then table_addr hdr seg else v := by
  unfold phdr_vaddr_step window_contains table_addr
  rfl

theorem foldl_phdr_vaddr_step (hdr : Elf_Ehdr) (segs : List Elf_Phdr) :
    ∀ v, segs.foldl (fun v seg => phdr_vaddr_step hdr seg v) v =
      if v ≠ 0 then v
      else match table_segment hdr segs with
        | some seg => table_addr hdr seg
        | none => 0 := by
  induction segs with
  | nil => intro v; by_cases h : v = 0 <;> simp [h, table_segment]
  | cons seg rest ih =>
    intro v
    rw [List.foldl_cons, ih, phdr_vaddr_step_eq]
    unfold table_segment at *
    by_cases hv : v = 0
    · by_cases hw : window_contains hdr seg
      · by_cases ht : table_addr hdr seg = 0
        · simp [hv, hw, ht]
        · simp [hv, hw, ht]
      · simp [hv, hw]
    · simp [hv]

/-- Claim C9, as amended. On every successful call, let `v` be the `p_vaddr` of the `PT_PHDR`
entry (zero when the table has none). If `v` is non-zero the descriptor aliases the image at
`relocbase + v`. Otherwise, if some loadable segment has a page-aligned file window that contains
the table at a non-zero address `trunc_page(p_vaddr) + e_phoff - trunc_page(p_offset)`, the
descriptor aliases the image at `relocbase +` that address of the first such segment. In both
cases `phdr_alloc` is false. Otherwise, and only otherwise, the descriptor holds a separately
allocated copy of `phsize` bytes taken from the header page at `e_phoff`, and `phdr_alloc` is
true. -/
theorem phdr_alias_or_copy (T : Target) (S : Sys) (fd : Int) (sb : Option Stat)
    (hdr : Elf_Ehdr) (phdrs : List Elf_Phdr) (obj : Obj_Entry)
    (h : (map_object T S fd sb hdr phdrs).ret = some obj) :
    (declared_phdr_vaddr phdrs ≠ 0 →
      obj.phdr_alloc = false ∧ obj.phdr = add64 obj.relocbase (declared_phdr_vaddr phdrs)) ∧
    (declared_phdr_vaddr phdrs = 0 → ∀ seg, table_segment hdr (loads phdrs) = some seg →
      obj.phdr_alloc = false ∧ obj.phdr = add64 obj.relocbase (table_addr hdr seg)) ∧
    (declared_phdr_vaddr phdrs = 0 → table_segment hdr (loads phdrs) = none →
      obj.phdr_alloc = true ∧ obj.phdr = S.malloc_phdr ∧ S.malloc_phdr ≠ 0 ∧
      Event.memcpy S.malloc_phdr (add64 S.mmap_hdr hdr.e_phoff) obj.phsize
        ∈ (map_object T S fd sb hdr phdrs).trace) := by
  obtain ⟨ha, tr, st, phdyn, s0, sn, ms, hsc, hlay, -, -, -, hm, hfill⟩ :=
    map_object_some T S fd sb hdr phdrs obj h
  obtain ⟨hha, -, -, -, hpost, -⟩ := scanned_facts hsc
  have hv0 : st.phdr_vaddr = declared_phdr_vaddr phdrs := hpost.2.2.2.2.1
  have hv := map_segments_phdr_vaddr S fd hdr _ _ (loads phdrs) 0 _ ms hm
  rw [foldl_phdr_vaddr_step] at hv
  dsimp only [] at hv
  rw [hv0] at hv
  subst hha
  refine ⟨?_, ?_, ?_⟩
  · intro hd
    rw [if_pos hd] at hv
    rcases hfill with ⟨-, e, -⟩ | ⟨hz, -⟩
    · subst e; rw [hv]; exact ⟨rfl, rfl⟩
    · rw [hv] at hz; exact absurd hz hd
  · intro hd seg hseg
    rw [if_neg (not_not.2 hd), hseg] at hv
    dsimp only [] at hv
    have hne : table_addr hdr seg ≠ 0 := by
      have := List.find?_some hseg
      simp only [decide_eq_true_eq] at this
      exact this.2
    rcases hfill with ⟨-, e, -⟩ | ⟨hz, -⟩
    · subst e; rw [hv]; exact ⟨rfl, rfl⟩
    · rw [hv] at hz; exact absurd hz hne
  · intro hd hnone
    rw [if_neg (not_not.2 hd), hnone] at hv
    dsimp only [] at hv
    rcases hfill with ⟨hnz, -⟩ | ⟨-, hmal, e, htr⟩
    · exact absurd hv hnz
    · subst e
      refine ⟨rfl, rfl, hmal, ?_⟩
      rw [htr]
      simp [fill_obj]

theorem phdr_alias_or_copy_witness :
    two_segments_obj.phdr_alloc = false ∧
    two_segments_obj.phdr = add64 two_segments_obj.relocbase
      (table_addr (good_hdr 64 3) (load_seg 5 0 0 0x1000 0x1000)) :=
  (phdr_alias_or_copy plain_target sys_ok 3 none (good_hdr 64 3) two_segments two_segments_obj
    (by decide)).2.1 (by decide) (load_seg 5 0 0 0x1000 0x1000) (by decide)

/-- Claim C9 fails as stated, in both directions. With a `PT_PHDR` entry that declares a
non-zero address, the descriptor aliases the image although the file window `[0x1000, 0x2000)`
of the only loadable segment does not contain the table `[64, 232)`. And with the table
`[0, 224)` at file offset `0` inside the window `[0, 0x1000)` of a segment linked at address `0`,
the computed address is `0` and the descriptor holds an allocated copy although a window
contains the table. -/
theorem phdr_alias_not_by_window_alone :
    ((map_object plain_target sys_ok 3 none (good_hdr 64 3) phdr_outside).ret.map
        (fun obj => (obj.phdr_alloc, obj.phdr)) = some (false, 0x800040) ∧
      loads phdr_outside = [load_seg 5 0x1000 0 0x1000 0x1000] ∧
      ¬ (trunc_page 0x1000 ≤ (good_hdr 64 3).e_phoff)) ∧
    ((map_object plain_target sys_ok 3 none (good_hdr 0 4) table_at_zero).ret.map
        (fun obj => (obj.phdr_alloc, obj.phdr)) = some (true, sys_ok.malloc_phdr) ∧
      loads table_at_zero = [load_seg 5 0 0 0x1000 0x1000] ∧
      trunc_page 0 ≤ (good_hdr 0 4).e_phoff ∧
      (good_hdr 0 4).e_phoff + (good_hdr 0 4).e_phnum * sizeof_Elf_Phdr
        ≤ trunc_page 0 + (round_page (0 + 0x1000) - trunc_page 0)) := by
  decide

/-! ## Release of the reservation on failure (C3) -/

theorem mem_filter_nil {p : Event → Bool} {l : List Event} (h : l.filter p = []) (e : Event)
    (he : e ∈ l) : p e = false := by
  rw [List.filter_eq_nil_iff] at h
  simpa using h e he

/-- Claim C3. In every call whose reservation `mmap` succeeded, with granted address `res` and
length `len`, and in which a later step signals failure (the granted address differs from the
required fixed address, a segment overlay fails, the grant of write permission fails, the
anonymous BSS overlay fails, or the program-header copy cannot be allocated), `map_object`
returns `NULL`, issues exactly one `munmap` of the reservation, of `[res, res + len)`, and leaves
none of the addresses of that range mapped. -/
theorem reservation_released_on_failure (T : Target) (S : Sys) (fd : Int) (sb : Option Stat)
    (hdr : Elf_Ehdr) (phdrs : List Elf_Phdr) (addr len prot flags : Nat) (d : Int)
    (off res : Nat)
    (hres : Event.mmap Site.reserve addr len prot flags d off res
      ∈ (map_object T S fd sb hdr phdrs).trace)
    (hok : res ≠ MAP_FAILED)
    (hfail : ∃ e ∈ (map_object T S fd sb hdr phdrs).trace, signals_failure e = true) :
    (map_object T S fd sb hdr phdrs).ret = none ∧
    (map_object T S fd sb hdr phdrs).trace.filter (is_munmap Site.reserve)
      = [Event.munmap Site.reserve res len] ∧
    ∀ (file : Nat → Nat) (a : Nat), in_range a res len = true →
      memory_after file (map_object T S fd sb hdr phdrs).trace a = Page.unmapped := by
  have hq1 : ∀ a l pr f d o r,
      is_munmap Site.reserve (Event.mmap Site.hdr a l pr f d o r) = false := by intros; rfl
  have hq3 : ∀ a l pr f d o r,
      is_munmap Site.reserve (Event.mmap Site.note a l pr f d o r) = false := by intros; rfl
  have hq4 : ∀ e, is_segment_call e = true → is_munmap Site.reserve e = false := by
    intro e he
    cases e <;> first | rfl | simp [is_segment_call] at he
  have hs1 : ∀ a l pr f d o r,
      signals_failure (Event.mmap Site.hdr a l pr f d o r) = false := by intros; rfl
  have hs3 : ∀ a l pr f d o r,
      signals_failure (Event.mmap Site.note a l pr f d o r) = false := by intros; rfl
  rcases reserve_calls T S fd sb hdr phdrs with h | h
  swap
  · exfalso
    have := mem_filter_nil h.2.1 _ hres
    simp [is_object_mmap, is_mmap] at this
  obtain ⟨ha, tr, st, phdyn, s0, sn, hsc, hlay, hb, hfilt⟩ := h
  have hmem : Event.mmap Site.reserve addr len prot flags d off res
      ∈ (map_object T S fd sb hdr phdrs).trace.filter (is_mmap Site.reserve) :=
    List.mem_filter.2 ⟨hres, rfl⟩
  rw [hfilt, List.mem_singleton] at hmem
  unfold reserve_event at hmem
  simp only [Event.mmap.injEq, true_and] at hmem
  obtain ⟨e1, e2, -, -, -, -, e3⟩ := hmem
  subst e1 e2 e3
  have hpre : (st.trace ++ [reserve_event S s0 sn]).filter (is_munmap Site.reserve) = [] := by
    rw [List.filter_append, scanned_trace_filter hsc _ hq1 hq3]
    rfl
  rw [map_object_reserved hsc hlay hb hok] at hfail ⊢
  by_cases c3 : trunc_page s0.p_vaddr ≠ 0 ∧ S.mmap_reserve ≠ trunc_page s0.p_vaddr
  · rw [if_pos c3]
    exact ⟨rfl, error1_exit_munmap _ _ _ _ _ hpre,
      fun file a h => error1_exit_memory file _ _ _ _ _ a h⟩
  rw [if_neg c3] at hfail ⊢
  rcases hm : map_segments S fd hdr S.mmap_reserve (trunc_page s0.p_vaddr) 0 (loads phdrs)
    { phdr_vaddr := st.phdr_vaddr, trace := st.trace ++ [reserve_event S s0 sn] } with ⟨b, ms⟩
  have hmf := map_segments_filter (is_munmap Site.reserve) hq4 S fd hdr S.mmap_reserve
    (trunc_page s0.p_vaddr) (loads phdrs) 0
    { phdr_vaddr := st.phdr_vaddr, trace := st.trace ++ [reserve_event S s0 sn] }
  rw [hm] at hmf hfail
  dsimp only [] at hmf hfail ⊢
  rw [hpre] at hmf
  cases b with
  | false =>
    exact ⟨rfl, error1_exit_munmap _ _ _ _ _ hmf,
      fun file a h => error1_exit_memory file _ _ _ _ _ a h⟩
  | true =>
    dsimp only [] at hfail ⊢
    obtain ⟨es, hes, hall⟩ := map_segments_ok S fd hdr _ _ (loads phdrs) 0 _ ms hm
    have hsig : ms.trace.filter signals_failure = [] := by
      rw [hes]
      dsimp only []
      rw [List.filter_append, List.filter_append, scanned_trace_filter hsc _ hs1 hs3]
      have h1 : es.filter signals_failure = [] := by
        rw [List.filter_eq_nil_iff]
        intro e he
        simp [(hall e he).2]
      have h2 : signals_failure (reserve_event S s0 sn) = false := by
        unfold reserve_event signals_failure
        simpa using fun h => not_not.1 (fun hne => c3 ⟨h, hne⟩)
      simp [h1, h2]
    unfold build_obj at hfail ⊢
    by_cases c4 : ms.phdr_vaddr ≠ 0
    · exfalso
      rw [if_pos c4] at hfail
      obtain ⟨e, he, hse⟩ := hfail
      have : (ms.trace ++ [Event.obj_new] ++ exit_calls ha st).filter signals_failure = [] := by
        rw [List.filter_append, List.filter_append, hsig,
          exit_calls_filter signals_failure (by intros; rfl) (by intros; rfl)]
        rfl
      rw [mem_filter_nil this e he] at hse
      cases hse
    rw [if_neg c4] at hfail ⊢
    by_cases c5 : S.malloc_phdr = 0
    · rw [if_pos c5]
      refine ⟨rfl, error1_exit_munmap _ _ _ _ _ ?_,
        fun file a h => error1_exit_memory file _ _ _ _ _ a h⟩
      rw [List.filter_append, hmf]
      rfl
    · exfalso
      rw [if_neg c5] at hfail
      obtain ⟨e, he, hse⟩ := hfail
      have : (ms.trace ++ [Event.obj_new, Event.malloc st.phsize S.malloc_phdr,
          Event.memcpy S.malloc_phdr (add64 ha hdr.e_phoff) st.phsize] ++
          exit_calls ha st).filter signals_failure = [] := by
        rw [List.filter_append, List.filter_append, hsig,
          exit_calls_filter signals_failure (by intros; rfl) (by intros; rfl)]
        simp [signals_failure, c5]
      rw [mem_filter_nil this e he] at hse
      cases hse

theorem reservation_released_on_failure_witness :
    (map_object plain_target sys_data_fails 3 none (good_hdr 64 3) two_segments).ret = none ∧
    (map_object plain_target sys_data_fails 3 none (good_hdr 64 3) two_segments).trace.filter
        (is_munmap Site.reserve) = [Event.munmap Site.reserve 0x800000 0x2000] ∧
    ∀ (file : Nat → Nat) (a : Nat), in_range a 0x800000 0x2000 = true →
      memory_after file
        (map_object plain_target sys_data_fails 3 none (good_hdr 64 3) two_segments).trace a
        = Page.unmapped :=
  reservation_released_on_failure plain_target sys_data_fails 3 none (good_hdr 64 3)
    two_segments 0 0x2000 (PROT_NONE ||| PROT_MAX PROT_ALL) MAP_GUARD (-1) 0 0x800000
    (by decide) (by decide)
    ⟨Event.mmap Site.data 0x801000 0x1000 3 (MAP_PRIVATE ||| MAP_FIXED ||| MAP_PREFAULT_READ) 3
      0x1000 MAP_FAILED, by decide, by decide⟩

/-! ## Release of the transient mappings (C4) -/

/-- Claim C4, evaluated at a failing input: a table with two `PT_NOTE` entries beyond the first
page. The call succeeds and has created an auxiliary mapping for each entry, at `0x40000` and at
`0x50000`, but `note_map` only remembers the second: the single `munmap` of a note mapping
releases `0x50000`, and the mapping at `0x40000` is still in place when the call returns. -/
theorem first_note_mapping_leaks :
    (map_object plain_target sys_ok 3 none (good_hdr 64 4) two_notes).ret.isSome = true ∧
    (map_object plain_target sys_ok 3 none (good_hdr 64 4) two_notes).trace.filter
        (is_mmap Site.note) =
      [Event.mmap Site.note 0 0x1000 PROT_READ MAP_PRIVATE 3 0x2000 0x40000,
       Event.mmap Site.note 0 0x1000 PROT_READ MAP_PRIVATE 3 0x3000 0x50000] ∧
    (map_object plain_target sys_ok 3 none (good_hdr 64 4) two_notes).trace.filter
        (is_munmap Site.note) = [Event.munmap Site.note 0x50000 0x1000] ∧
    memory_after (fun _ => 0)
      (map_object plain_target sys_ok 3 none (good_hdr 64 4) two_notes).trace 0x40000
      = Page.byte 0 ∧
    memory_after (fun _ => 0)
      (map_object plain_target sys_ok 3 none (good_hdr 64 4) two_notes).trace 0x50000
      = Page.unmapped := by
  decide

/-! ## Zero-filled BSS (C2) -/

theorem addr_diff (mb B V c k : Nat) (hV : V + k < 18446744073709551616) (hc : c ≤ V + k) :
    sub64 (add64 (add64 mb (sub64 V B)) k) (add64 mb (sub64 c B)) = V + k - c := by
  unfold add64 sub64 W64
  omega

theorem sub64_eq (a b : Nat) (h : b ≤ a) (ha : a < 18446744073709551616) :
    sub64 a b = a - b := by
  unfold sub64 W64
  omega

theorem add64_eq (a b : Nat) (h : a + b < 18446744073709551616) : add64 a b = a + b := by
  unfold add64 W64
  omega

theorem round_page_eq (x : Nat) (h : x ≤ 18446744073709547520) :
    round_page x = x + 4095 - (x + 4095) % 4096 := by
  unfold round_page trunc_page add64 W64 PAGE_SIZE
  omega

theorem trunc_page_eq (x : Nat) (h : x < 18446744073709551616) :
    trunc_page x = x - x % 4096 := by
  unfold trunc_page W64 PAGE_SIZE
  omega

theorem bss_arith (mb B V F M k : Nat) (h1 : F ≤ k) (h2 : k < M)
    (h3 : V + M ≤ W64 - PAGE_SIZE)
    (hn : ¬ (round_page (add64 V M) > round_page (add64 V F) ∧
      sub64 (add64 (add64 mb (sub64 V B)) k) (add64 mb (sub64 (round_page (add64 V F)) B))
        < sub64 (round_page (add64 V M)) (round_page (add64 V F)))) :
    sub64 (round_page (add64 V F)) (add64 V F) > 0 ∧
    sub64 (add64 (add64 mb (sub64 V B)) k) (add64 mb (sub64 (add64 V F) B))
      < sub64 (round_page (add64 V F)) (add64 V F) ∧
    sub64 (add64 (add64 mb (sub64 V B)) k) (add64 mb (sub64 (trunc_page V) B))
      < sub64 (round_page (add64 V F)) (trunc_page V) := by
  have h3' : V + M ≤ 18446744073709547520 := h3
  clear h3
  have hVF : add64 V F = V + F := add64_eq V F (by omega)
  have hVM : add64 V M = V + M := add64_eq V M (by omega)
  have hVk : V + k < 18446744073709551616 := by omega
  have hRF := round_page_eq (V + F) (by omega)
  have hRM := round_page_eq (V + M) h3'
  have hTV := trunc_page_eq V (by omega)
  rw [hVF, hVM] at hn
  rw [hVF]
  generalize round_page (V + F) = RF at *
  generalize round_page (V + M) = RM at *
  generalize trunc_page V = TV at *
  rw [addr_diff mb B V (V + F) k hVk (by omega), addr_diff mb B V TV k hVk (by omega),
    sub64_eq RF (V + F) (by omega) (by omega), sub64_eq RF TV (by omega) (by omega)]
  by_cases hc : RF ≤ V + k
  · exfalso
    rw [addr_diff mb B V RF k hVk hc, sub64_eq RM RF (by omega) (by omega)] at hn
    omega
  · omega

theorem data_flags_bits (f : Nat) :
    (convert_flags f ||| MAP_FIXED ||| MAP_PREFAULT_READ) &&& MAP_GUARD = 0 ∧
    (convert_flags f ||| MAP_FIXED ||| MAP_PREFAULT_READ) &&& MAP_ANON = 0 := by
  unfold convert_flags
  dsimp only []
  split_ifs <;> decide

theorem bss_flags_bits (f : Nat) :
    (convert_flags f ||| MAP_FIXED ||| MAP_ANON) &&& MAP_GUARD = 0 ∧
    (convert_flags f ||| MAP_FIXED ||| MAP_ANON) &&& MAP_ANON ≠ 0 := by
  unfold convert_flags
  dsimp only []
  split_ifs <;> decide

/-- The content of an address after the clearing of the BSS tail: a mapped byte inside the
cleared range is zero, everything else is unchanged. -/
theorem clear_tail_memory (file : Nat → Nat) (m : Nat → Page) (S : Sys)
    (mapbase base_vaddr i : Nat) (seg : Elf_Phdr) (x : Nat)
    (h : (clear_tail S mapbase base_vaddr i seg).1 = true) :
    run_events file m (clear_tail S mapbase base_vaddr i seg).2 x =
      if sub64 (round_page (add64 seg.p_vaddr seg.p_filesz)) (add64 seg.p_vaddr seg.p_filesz) > 0 ∧
          in_range x (add64 mapbase (sub64 (add64 seg.p_vaddr seg.p_filesz) base_vaddr))
            (sub64 (round_page (add64 seg.p_vaddr seg.p_filesz))
              (add64 seg.p_vaddr seg.p_filesz)) = true then
        match m x with
        | Page.byte _ => Page.byte 0
        | p => p
      else m x := by
  unfold clear_tail at h ⊢
  dsimp only [] at h ⊢
  by_cases h1 : sub64 (round_page (add64 seg.p_vaddr seg.p_filesz))
      (add64 seg.p_vaddr seg.p_filesz) > 0
  · rw [if_pos h1] at h ⊢
    by_cases h2 : convert_prot seg.p_flags &&& PROT_WRITE = 0
    · rw [if_pos h2] at h ⊢
      by_cases h3 : S.mprotect_grant i = false
      · rw [if_pos h3] at h; simp at h
      · rw [if_neg h3]
        by_cases h4 : in_range x
            (add64 mapbase (sub64 (add64 seg.p_vaddr seg.p_filesz) base_vaddr))
            (sub64 (round_page (add64 seg.p_vaddr seg.p_filesz))
              (add64 seg.p_vaddr seg.p_filesz)) = true
        · simp [run_events, apply_event, h4, h1]
        · simp [run_events, apply_event, h4, h1]
    · rw [if_neg h2]
      by_cases h4 : in_range x
          (add64 mapbase (sub64 (add64 seg.p_vaddr seg.p_filesz) base_vaddr))
          (sub64 (round_page (add64 seg.p_vaddr seg.p_filesz))
            (add64 seg.p_vaddr seg.p_filesz)) = true
      · simp [run_events, apply_event, h4, h1]
      · simp [run_events, apply_event, h4, h1]
  · rw [if_neg h1]
    simp [run_events, h1]

/-- The content of an address after the anonymous BSS overlay: zero inside the overlay,
unchanged outside. -/
theorem bss_overlay_memory (file : Nat → Nat) (m : Nat → Page) (S : Sys)
    (mapbase base_vaddr i : Nat) (seg : Elf_Phdr) (x : Nat)
    (h : (bss_overlay S mapbase base_vaddr i seg).1 = true) :
    run_events file m (bss_overlay S mapbase base_vaddr i seg).2 x =
      if round_page (add64 seg.p_vaddr seg.p_memsz) > round_page (add64 seg.p_vaddr seg.p_filesz) ∧
          in_range x (add64 mapbase (sub64 (round_page (add64 seg.p_vaddr seg.p_filesz))
            base_vaddr))
            (sub64 (round_page (add64 seg.p_vaddr seg.p_memsz))
              (round_page (add64 seg.p_vaddr seg.p_filesz))) = true then Page.byte 0
      else m x := by
  unfold bss_overlay at h ⊢
  dsimp only [] at h ⊢
  by_cases h1 : round_page (add64 seg.p_vaddr seg.p_memsz)
      > round_page (add64 seg.p_vaddr seg.p_filesz)
  · rw [if_pos h1] at h ⊢
    simp only [decide_eq_true_eq] at h
    have hb := bss_flags_bits seg.p_flags
    by_cases h5 : S.mmap_bss i = true
    swap
    · rw [if_neg h5] at h; exact absurd rfl h
    rw [if_pos h5] at h
    by_cases h4 : in_range x
        (add64 mapbase (sub64 (round_page (add64 seg.p_vaddr seg.p_filesz)) base_vaddr))
        (sub64 (round_page (add64 seg.p_vaddr seg.p_memsz))
          (round_page (add64 seg.p_vaddr seg.p_filesz))) = true
    · simp only [run_events, List.foldl, apply_event, h5, if_true, h4, h1, and_self, h,
        ne_eq, not_false_eq_true, hb.1, hb.2, not_true_eq_false, if_false]
    · simp only [run_events, List.foldl, apply_event, h5, if_true, h4, and_false, if_false]
      simp
  · rw [if_neg h1]
    simp [run_events, h1]

/-- The calls of a segment step that completes for a segment with `p_filesz != p_memsz`. -/
theorem map_segment_bss_trace (S : Sys) (fd : Int) (hdr : Elf_Ehdr) (mapbase base_vaddr i : Nat)
    (seg : Elf_Phdr) (st st1 : MapState)
    (h : map_segment S fd hdr mapbase base_vaddr i seg st = (true, st1))
    (hne : seg.p_filesz ≠ seg.p_memsz) :
    st1.trace = st.trace ++ [data_mmap S fd mapbase base_vaddr i seg] ++
      (clear_tail S mapbase base_vaddr i seg).2 ++ (bss_overlay S mapbase base_vaddr i seg).2 ∧
    (if S.mmap_data i = true then add64 mapbase (sub64 (trunc_page seg.p_vaddr) base_vaddr)
      else MAP_FAILED) ≠ MAP_FAILED ∧
    (clear_tail S mapbase base_vaddr i seg).1 = true ∧
    (bss_overlay S mapbase base_vaddr i seg).1 = true := by
  unfold map_segment at h
  rcases hc : segment_calls S fd mapbase base_vaddr i seg with ⟨b, es⟩
  rw [hc] at h
  cases b with
  | false => simp at h
  | true =>
    simp only [Prod.mk.injEq, true_and] at h
    subst h
    dsimp only []
    unfold segment_calls at hc
    dsimp only [] at hc
    by_cases hf : (if S.mmap_data i = true
        then add64 mapbase (sub64 (trunc_page seg.p_vaddr) base_vaddr) else MAP_FAILED) = MAP_FAILED
    · rw [if_pos hf] at hc; simp at hc
    rw [if_neg hf, if_pos hne] at hc
    simp only [Prod.mk.injEq] at hc
    obtain ⟨hb, hes⟩ := hc
    unfold bss_setup at hb hes
    rcases hct : clear_tail S mapbase base_vaddr i seg with ⟨b2, ces⟩
    rw [hct] at hb hes
    cases b2 with
    | false => simp at hb
    | true =>
      dsimp only [] at hb hes
      refine ⟨?_, hf, rfl, hb⟩
      rw [← hes]
      simp

/-- Claim C2, as amended. For every loadable segment with `p_memsz > p_filesz` whose end
`p_vaddr + p_memsz` does not exceed `2^64 - PAGE_SIZE` (so that its page-ceiling does not wrap),
immediately after `map_object` has finished that segment's mapping step without failure, every
byte at `mapbase + (p_vaddr - base_vaddr) + k` for `k` in `[p_filesz, p_memsz)` holds zero. -/
theorem bss_reads_zero (file : Nat → Nat) (S : Sys) (fd : Int) (hdr : Elf_Ehdr)
    (mapbase base_vaddr i : Nat) (seg : Elf_Phdr) (st st1 : MapState) (k : Nat)
    (hstep : map_segment S fd hdr mapbase base_vaddr i seg st = (true, st1))
    (hbss : seg.p_filesz < seg.p_memsz)
    (hnowrap : seg.p_vaddr + seg.p_memsz ≤ W64 - PAGE_SIZE)
    (hk1 : seg.p_filesz ≤ k) (hk2 : k < seg.p_memsz) :
    memory_after file st1.trace (add64 (add64 mapbase (sub64 seg.p_vaddr base_vaddr)) k)
      = Page.byte 0 := by
  obtain ⟨htr, hf, hct, hbo⟩ :=
    map_segment_bss_trace S fd hdr mapbase base_vaddr i seg st st1 hstep (Nat.ne_of_lt hbss)
  rw [htr]
  unfold memory_after
  rw [run_events_append, run_events_append, run_events_append, bss_overlay_memory _ _ _ _ _ _ _ _ hbo]
  by_cases hin : round_page (add64 seg.p_vaddr seg.p_memsz)
      > round_page (add64 seg.p_vaddr seg.p_filesz) ∧
      in_range (add64 (add64 mapbase (sub64 seg.p_vaddr base_vaddr)) k)
        (add64 mapbase (sub64 (round_page (add64 seg.p_vaddr seg.p_filesz)) base_vaddr))
        (sub64 (round_page (add64 seg.p_vaddr seg.p_memsz))
          (round_page (add64 seg.p_vaddr seg.p_filesz))) = true
  · rw [if_pos hin]
  · rw [if_neg hin, clear_tail_memory _ _ _ _ _ _ _ _ hct]
    obtain ⟨a1, a2, a3⟩ := bss_arith mapbase base_vaddr seg.p_vaddr seg.p_filesz seg.p_memsz k
      hk1 hk2 hnowrap (by simpa [in_range] using hin)
    rw [if_pos ⟨a1, by simpa [in_range] using a2⟩]
    have hd : S.mmap_data i = true := by
      by_contra hc
      rw [if_neg hc] at hf
      exact hf rfl
    have hfl := data_flags_bits seg.p_flags
    rw [if_pos hd] at hf
    simp [run_events, data_mmap, apply_event, hd, hf, in_range, a3, hfl.1, hfl.2]

theorem bss_reads_zero_witness :
    memory_after (fun _ => 0xAA)
      (map_segment sys_ok 3 (good_hdr 64 3) 0x800000 0 1 (load_seg 6 0x1000 0x1000 0x800 0x1000)
        { phdr_vaddr := 0, trace := [] }).2.trace
      (add64 (add64 0x800000 (sub64 0x1000 0)) 0x800) = Page.byte 0 :=
  bss_reads_zero (fun _ => 0xAA) sys_ok 3 (good_hdr 64 3) 0x800000 0 1
    (load_seg 6 0x1000 0x1000 0x800 0x1000) { phdr_vaddr := 0, trace := [] } _ 0x800
    rfl (by decide) (by decide) (by decide) (by decide)

/-- Claim C2 fails as stated when the end of the segment wraps: for the middle segment of
`overflow_table`, with `p_vaddr = 0x1000`, `p_filesz = 0x800` and `p_memsz = 2^64 - 0x7ff`, the
sum `p_vaddr + p_memsz` wraps to `0x801`, so no anonymous overlay is made; the step completes,
and the byte at `mapbase + (p_vaddr - base_vaddr) + k` for `k = 0x2000`, inside
`[p_filesz, p_memsz)`, is not mapped at all. The step is the one `map_object` performs on that
table in a call that succeeds. -/
theorem bss_not_zero_when_end_wraps :
    (map_segment sys_ok 3 (good_hdr 64 4) 0x800000 0 1 overflow_seg overflow_pre).1 = true ∧
    overflow_seg.p_filesz < overflow_seg.p_memsz ∧
    overflow_seg.p_filesz ≤ 0x2000 ∧ 0x2000 < overflow_seg.p_memsz ∧
    memory_after (fun _ => 0)
      (map_segment sys_ok 3 (good_hdr 64 4) 0x800000 0 1 overflow_seg overflow_pre).2.trace
      (0x800000 + (overflow_seg.p_vaddr - 0) + 0x2000) = Page.unmapped ∧
    (map_object plain_target sys_ok 3 none (good_hdr 64 4) overflow_table).ret.isSome = true ∧
    List.isPrefixOf
      (map_segment sys_ok 3 (good_hdr 64 4) 0x800000 0 1 overflow_seg overflow_pre).2.trace
      (map_object plain_target sys_ok 3 none (good_hdr 64 4) overflow_table).trace = true := by
  decide

/-! ## Protection and flag conversion (C11) -/

/-- Claim C11. For every segment flag word `f`, `convert_prot f` has `PROT_READ` exactly when
`f` has `PF_R`, `PROT_WRITE` exactly when `f` has `PF_W`, `PROT_EXEC` exactly when `f` has
`PF_X`, and no other bit, so that it is `0` when `f` has none of the three; `convert_flags f`
is `MAP_PRIVATE | MAP_NOCORE` when `f` lacks `PF_W` and `MAP_PRIVATE` otherwise. A `PF_R | PF_X`
segment is therefore overlaid read+execute with the no-core hint and a `PF_R | PF_W` segment
read+write without it. -/
theorem convert_prot_flags_spec :
    (∀ f : Nat,
      (convert_prot f &&& PROT_READ ≠ 0 ↔ f &&& PF_R ≠ 0) ∧
      (convert_prot f &&& PROT_WRITE ≠ 0 ↔ f &&& PF_W ≠ 0) ∧
      (convert_prot f &&& PROT_EXEC ≠ 0 ↔ f &&& PF_X ≠ 0) ∧
      convert_prot f &&& (PROT_READ ||| PROT_WRITE ||| PROT_EXEC) = convert_prot f ∧
      (f &&& PF_R = 0 → f &&& PF_W = 0 → f &&& PF_X = 0 → convert_prot f = 0) ∧
      (f &&& PF_W = 0 → convert_flags f = MAP_PRIVATE ||| MAP_NOCORE) ∧
      (f &&& PF_W ≠ 0 → convert_flags f = MAP_PRIVATE)) ∧
    (∀ (S : Sys) (fd : Int) (mapbase base_vaddr i : Nat) (seg : Elf_Phdr),
      ∃ addr len off res,
        data_mmap S fd mapbase base_vaddr i seg =
          Event.mmap Site.data addr len (convert_prot seg.p_flags)
            (convert_flags seg.p_flags ||| MAP_FIXED ||| MAP_PREFAULT_READ) fd off res) ∧
    convert_prot (PF_R ||| PF_X) = PROT_READ ||| PROT_EXEC ∧
    convert_flags (PF_R ||| PF_X) = MAP_PRIVATE ||| MAP_NOCORE ∧
    convert_prot (PF_R ||| PF_W) = PROT_READ ||| PROT_WRITE ∧
    convert_flags (PF_R ||| PF_W) = MAP_PRIVATE := by
  refine ⟨?_, ?_, by decide, by decide, by decide, by decide⟩
  · intro f
    unfold convert_prot convert_flags
    dsimp only []
    by_cases h1 : f &&& PF_R = 0 <;> by_cases h2 : f &&& PF_W = 0 <;>
      by_cases h3 : f &&& PF_X = 0 <;>
      simp only [h1, h2, h3, ne_eq, not_true_eq_false, not_false_eq_true, if_true, if_false] <;>
      decide
  · intro S fd mapbase base_vaddr i seg
    exact ⟨_, _, _, _, rfl⟩

/-! ## Failure of the restoring mprotect (C15) -/

/-- Claim C15, evaluated at a failing input: a read+execute segment with BSS in its last
file-backed page, in an environment where the `mprotect` that restores the protection after the
zeroing fails. The failed call is issued inside the per-segment loop, its result is not looked
at, and `map_object` returns a descriptor. -/
theorem restore_failure_is_ignored :
    Event.mprotect true 0x800000 PAGE_SIZE (PROT_READ ||| PROT_EXEC) false
      ∈ (map_object plain_target sys_restore_fails 3 none (good_hdr 64 2) readonly_bss).trace ∧
    (map_object plain_target sys_restore_fails 3 none (good_hdr 64 2) readonly_bss).ret.isSome
      = true := by
  decide

/-! ## The size of the program-header copy (C17) -/

/-- Claim C17, evaluated at a failing input: a table of three entries at `e_phoff = 64` with a
`PT_PHDR` entry whose `p_vaddr` is `0` and whose `p_memsz` is `0x10000`. The entry overwrites
`phsize`, no table address is found, and `map_object` allocates and copies `0x10000` bytes from
`hdr + 64`: `phsize` is not `e_phnum * sizeof(Elf_Phdr) = 168`, and `e_phoff + phsize` exceeds
`PAGE_SIZE`, so the copy reads beyond the mapped header page. -/
theorem phdr_copy_size_from_pt_phdr :
    (map_object plain_target sys_ok 3 none (good_hdr 64 3) phdr_zero_vaddr).ret.map
        (fun obj => (obj.phdr_alloc, obj.phsize)) = some (true, 0x10000) ∧
    Event.memcpy sys_ok.malloc_phdr (sys_ok.mmap_hdr + 64) 0x10000
      ∈ (map_object plain_target sys_ok 3 none (good_hdr 64 3) phdr_zero_vaddr).trace ∧
    (good_hdr 64 3).e_phnum * sizeof_Elf_Phdr = 168 ∧
    ¬ ((good_hdr 64 3).e_phoff + 0x10000 ≤ PAGE_SIZE) := by
  decide

/-! ## The TLS initializer pointer (C18) -/

/-- Claim C18, evaluated at a failing input: an object linked at the fixed address `0x10000`
with its TLS template at `0x10800`, loaded on the plain target at its address. The relocation
bias is `0`, so the template is mapped at `relocbase + p_vaddr = 0x10800`, but the descriptor
records `tlsinit = mapbase + p_vaddr = 0x20800`, outside the image `[0x10000, 0x11000)`, while
`dynamic` is resolved with `relocbase`. -/
theorem tlsinit_uses_mapbase :
    (map_object plain_target (sys_at 0x10000) 3 none (good_hdr 64 3) fixed_base_tls).ret.map
        (fun obj => (obj.mapbase, obj.mapsize, obj.relocbase, obj.dynamic, obj.tlsinit))
      = some (0x10000, 0x1000, 0, 0x10000, 0x20800) ∧
    last_of PT_TLS fixed_base_tls = some (tls_entry 0x10800) ∧
    (tls_entry 0x10800).p_vaddr = 0x10800 ∧
    add64 0 (tls_entry 0x10800).p_vaddr ≠ 0x20800 := by
  decide

/-! ## The zeroing of the partial page (C16) -/

/-- The calls of the clearing step, issued only when `nclear > 0`: the `memset` of `nclear`
bytes at `clear_addr`, and `mprotect`s of the page `clear_page`. -/
theorem clear_tail_events (S : Sys) (mapbase base_vaddr i : Nat) (seg : Elf_Phdr) :
    ∀ e ∈ (clear_tail S mapbase base_vaddr i seg).2,
      0 < sub64 (round_page (add64 seg.p_vaddr seg.p_filesz)) (add64 seg.p_vaddr seg.p_filesz) ∧
      (e = Event.memset (add64 mapbase (sub64 (add64 seg.p_vaddr seg.p_filesz) base_vaddr)) 0
          (sub64 (round_page (add64 seg.p_vaddr seg.p_filesz)) (add64 seg.p_vaddr seg.p_filesz)) ∨
       ∃ r p ok, e = Event.mprotect r
        (add64 mapbase (sub64 (trunc_page (add64 seg.p_vaddr seg.p_filesz)) base_vaddr))
        PAGE_SIZE p ok) := by
  unfold clear_tail
  dsimp only []
  split_ifs with h1 h2 h3
  · intro e he
    rw [List.mem_singleton] at he
    exact ⟨h1, Or.inr ⟨_, _, _, he⟩⟩
  · intro e he
    simp only [List.mem_cons, List.mem_singleton, List.not_mem_nil, or_false] at he
    rcases he with he | he | he
    · exact ⟨h1, Or.inr ⟨_, _, _, he⟩⟩
    · exact ⟨h1, Or.inl he⟩
    · exact ⟨h1, Or.inr ⟨_, _, _, he⟩⟩
  · intro e he
    rw [List.mem_singleton] at he
    exact ⟨h1, Or.inl he⟩
  · intro e he
    simp at he

/-- The calls of the anonymous overlay: at most one `mmap`, present when the page-ceiling of the
memory end lies beyond the file-backed pages. -/
theorem bss_overlay_events (S : Sys) (mapbase base_vaddr i : Nat) (seg : Elf_Phdr) :
    ∀ e ∈ (bss_overlay S mapbase base_vaddr i seg).2,
      round_page (add64 seg.p_vaddr seg.p_memsz) > round_page (add64 seg.p_vaddr seg.p_filesz) ∧
      ∃ res, e = Event.mmap Site.bss
        (add64 mapbase (sub64 (round_page (add64 seg.p_vaddr seg.p_filesz)) base_vaddr))
        (sub64 (round_page (add64 seg.p_vaddr seg.p_memsz))
          (round_page (add64 seg.p_vaddr seg.p_filesz)))
        (convert_prot seg.p_flags) (convert_flags seg.p_flags ||| MAP_FIXED ||| MAP_ANON)
        (-1) 0 res := by
  unfold bss_overlay
  dsimp only []
  by_cases h1 : round_page (add64 seg.p_vaddr seg.p_memsz)
      > round_page (add64 seg.p_vaddr seg.p_filesz)
  · rw [if_pos h1]
    intro e he
    rw [List.mem_singleton] at he
    exact ⟨h1, _, he⟩
  · rw [if_neg h1]
    intro e he
    simp at he

/-- Every call of a segment step is the file-backed overlay, a call of the clearing step or the
anonymous overlay; the last two kinds occur only when `p_filesz != p_memsz`. -/
theorem segment_calls_mem (S : Sys) (fd : Int) (mapbase base_vaddr i : Nat) (seg : Elf_Phdr) :
    ∀ e ∈ (segment_calls S fd mapbase base_vaddr i seg).2,
      e = data_mmap S fd mapbase base_vaddr i seg ∨
      (seg.p_filesz ≠ seg.p_memsz ∧
        (e ∈ (clear_tail S mapbase base_vaddr i seg).2 ∨
         e ∈ (bss_overlay S mapbase base_vaddr i seg).2)) := by
  unfold segment_calls
  dsimp only []
  by_cases hf : (if S.mmap_data i = true
      then add64 mapbase (sub64 (trunc_page seg.p_vaddr) base_vaddr) else MAP_FAILED) = MAP_FAILED
  · rw [if_pos hf]
    intro e he
    rw [List.mem_singleton] at he
    exact Or.inl he
  rw [if_neg hf]
  by_cases hb : seg.p_filesz ≠ seg.p_memsz
  · rw [if_pos hb]
    intro e he
    rcases List.mem_cons.1 he with hm | hm
    · exact Or.inl hm
    · right
      refine ⟨hb, ?_⟩
      unfold bss_setup at hm
      rcases hc : clear_tail S mapbase base_vaddr i seg with ⟨b, es⟩
      rw [hc] at hm
      cases b with
      | false => exact Or.inl hm
      | true =>
        dsimp only [] at hm
        rcases List.mem_append.1 hm with h | h
        · exact Or.inl h
        · exact Or.inr h
  · rw [if_neg hb]
    intro e he
    rw [List.mem_singleton] at he
    exact Or.inl he

theorem reloc_offset (mb B t : Nat) (hB : B ≤ t) (ht : t < 18446744073709551616) :
    sub64 (add64 (sub64 mb B) t) mb = t - B := by
  unfold add64 sub64 W64
  omega

theorem reloc_addr (mb B t : Nat) (hB : B ≤ t) (ht : mb + (t - B) < 18446744073709551616) :
    add64 (sub64 mb B) t = mb + (t - B) := by
  unfold add64 sub64 W64
  omega

theorem trunc_page_aligned (x : Nat) :
    trunc_page x % 4096 = 0 ∧ trunc_page x < 18446744073709551616 := by
  unfold trunc_page W64 PAGE_SIZE
  omega

theorem relro_arith (mb B rv rm E : Nat) (hB : B % 4096 = 0) (hlo : B ≤ rv) (hhi : rv + rm ≤ E)
    (hno : E ≤ 18446744073709547520) :
    sub64 (add64 (sub64 mb B) (trunc_page rv)) mb + round_page rm ≤ sub64 (round_page E) B ∧
    (mb + sub64 (round_page E) B < 18446744073709551616 →
      mb ≤ add64 (sub64 mb B) (trunc_page rv) ∧
      add64 (sub64 mb B) (trunc_page rv) + round_page rm ≤ mb + sub64 (round_page E) B) := by
  have h1 : round_page E = E + 4095 - (E + 4095) % 4096 := round_page_eq E hno
  have h2 : round_page rm = rm + 4095 - (rm + 4095) % 4096 := round_page_eq rm (by omega)
  have h3 : trunc_page rv = rv - rv % 4096 := trunc_page_eq rv (by omega)
  have h4 : B ≤ trunc_page rv := by rw [h3]; omega
  have h5 : sub64 (round_page E) B = round_page E - B := sub64_eq _ _ (by rw [h1]; omega)
    (by rw [h1]; omega)
  have h6 := reloc_offset mb B (trunc_page rv) h4 (by rw [h3]; omega)
  rw [h6, h5]
  have h7 : trunc_page rv - B + round_page rm ≤ round_page E - B := by
    rw [h1, h2, h3]; omega
  refine ⟨h7, fun hw => ?_⟩
  have h8 := reloc_addr mb B (trunc_page rv) h4 (by omega)
  rw [h8]
  omega

theorem fill_obj_ranges (T : Target) (S : Sys) (sb : Option Stat) (hdr : Elf_Ehdr)
    (st : ScanState) (phdyn s0 : Elf_Phdr) (mapbase mapsize base pv : Nat) (b : Bool) :
    (fill_obj T S sb hdr st phdyn s0 mapbase mapsize base pv b).mapbase = mapbase ∧
    (fill_obj T S sb hdr st phdyn s0 mapbase mapsize base pv b).mapsize = mapsize ∧
    (fill_obj T S sb hdr st phdyn s0 mapbase mapsize base pv b).relocbase = sub64 mapbase base ∧
    (fill_obj T S sb hdr st phdyn s0 mapbase mapsize base pv b).relro_page
      = add64 (sub64 mapbase base) (trunc_page st.relro_page) ∧
    (fill_obj T S sb hdr st phdyn s0 mapbase mapsize base pv b).relro_size
      = round_page st.relro_size :=
  ⟨rfl, rfl, rfl, rfl, rfl⟩

theorem round_page_zero : round_page 0 = 0 := by decide

/-- Claim C13, as amended. On every successful call the recorded range is computed from the last
`PT_GNU_RELRO` entry `r` alone: `relro_page = relocbase + trunc_page(r.p_vaddr)` and
`relro_size = round_page(r.p_memsz)`, with no comparison against the reservation. When `r` lies
within the extent of the loadable segments (`trunc_page(p_vaddr of the first) <= r.p_vaddr`,
`r.p_vaddr + r.p_memsz <= p_vaddr + p_memsz of the last`, and that end is not within a page of
`2^64`), the recorded range is a subrange of the reserved range: its offset from `mapbase` plus
its size is at most `mapsize`, and when the reservation does not reach the end of the address
space `mapbase <= relro_page` and `relro_page + relro_size <= mapbase + mapsize`. When there is
no `PT_GNU_RELRO` entry the recorded `relro_size` is 0. -/
theorem relro_range_within_reservation (T : Target) (S : Sys) (fd : Int) (sb : Option Stat)
    (hdr : Elf_Ehdr) (phdrs : List Elf_Phdr) (obj : Obj_Entry)
    (h : (map_object T S fd sb hdr phdrs).ret = some obj) :
    (∀ r, last_of PT_GNU_RELRO phdrs = some r →
      obj.relro_page = add64 obj.relocbase (trunc_page r.p_vaddr) ∧
      obj.relro_size = round_page r.p_memsz ∧
      ∀ s0 sn, (loads phdrs).head? = some s0 → (loads phdrs).getLast? = some sn →
        trunc_page s0.p_vaddr ≤ r.p_vaddr →
        r.p_vaddr + r.p_memsz ≤ sn.p_vaddr + sn.p_memsz →
        sn.p_vaddr + sn.p_memsz ≤ W64 - PAGE_SIZE →
        sub64 obj.relro_page obj.mapbase + obj.relro_size ≤ obj.mapsize ∧
        (obj.mapbase + obj.mapsize < W64 →
          obj.mapbase ≤ obj.relro_page ∧
          obj.relro_page + obj.relro_size ≤ obj.mapbase + obj.mapsize)) ∧
    (last_of PT_GNU_RELRO phdrs = none → obj.relro_size = 0) := by
  obtain ⟨ha, tr, st, phdyn, s0, sn, ms, hsc, hlay, -, -, -, -, hfill⟩ :=
    map_object_some T S fd sb hdr phdrs obj h
  obtain ⟨-, -, -, -, hp, -, -, -, -⟩ := scanned_facts hsc
  obtain ⟨-, -, -, -, -, -, -, hrp, hrs⟩ := hp
  have hobj : ∃ pv b, obj = fill_obj T S sb hdr st phdyn s0 S.mmap_reserve (reserve_size s0 sn)
      (trunc_page s0.p_vaddr) pv b := by
    rcases hfill with ⟨-, q, -⟩ | ⟨-, -, q, -⟩
    · exact ⟨_, _, q⟩
    · exact ⟨_, _, q⟩
  obtain ⟨pv, b, q⟩ := hobj
  obtain ⟨f1, f2, f3, f4, f5⟩ := fill_obj_ranges T S sb hdr st phdyn s0 S.mmap_reserve
    (reserve_size s0 sn) (trunc_page s0.p_vaddr) pv b
  rw [← q] at f1 f2 f3 f4 f5
  refine ⟨fun r hr => ?_, fun hr => ?_⟩
  · rw [hr] at hrp hrs
    have hrp1 : st.relro_page = r.p_vaddr := hrp
    have hrs1 : st.relro_size = r.p_memsz := hrs
    rw [hrp1] at f4
    rw [hrs1] at f5
    refine ⟨by rw [f4, f3], f5, ?_⟩
    intro s0a sna h0 hn hlo hhi hno
    have e0 : s0a = s0 := Option.some.inj (h0.symm.trans hlay.first)
    have en : sna = sn := Option.some.inj (hn.symm.trans hlay.last)
    subst e0 en
    have hno1 : sna.p_vaddr + sna.p_memsz ≤ 18446744073709547520 := by
      have := hno
      unfold W64 PAGE_SIZE at this
      omega
    have hE : add64 sna.p_vaddr sna.p_memsz = sna.p_vaddr + sna.p_memsz :=
      add64_eq _ _ (by omega)
    have hA := relro_arith S.mmap_reserve (trunc_page s0a.p_vaddr) r.p_vaddr r.p_memsz
      (sna.p_vaddr + sna.p_memsz) (trunc_page_aligned _).1 hlo hhi (by omega)
    rw [f1, f2, f4, f5]
    unfold reserve_size
    rw [hE]
    unfold W64
    exact hA
  · rw [hr] at hrs
    have hrs1 : st.relro_size = 0 := hrs
    rw [f5, hrs1]
    exact round_page_zero

theorem relro_range_within_reservation_witness :
    (map_object plain_target sys_ok 3 none (good_hdr 64 4) relro_inside).ret
      = some relro_inside_obj ∧
    last_of PT_GNU_RELRO relro_inside = some (relro_entry 0x1000 0x800) ∧
    sub64 relro_inside_obj.relro_page relro_inside_obj.mapbase + relro_inside_obj.relro_size
      ≤ relro_inside_obj.mapsize ∧
    relro_inside_obj.mapbase ≤ relro_inside_obj.relro_page ∧
    relro_inside_obj.relro_page + relro_inside_obj.relro_size
      ≤ relro_inside_obj.mapbase + relro_inside_obj.mapsize :=
  have h := ((relro_range_within_reservation plain_target sys_ok 3 none (good_hdr 64 4)
    relro_inside relro_inside_obj (by decide)).1 (relro_entry 0x1000 0x800) (by decide)).2.2
    (load_seg 5 0 0 0x1000 0x1000) (load_seg 6 0x1000 0x1000 0x800 0x1000) (by decide)
    (by decide) (by decide) (by decide) (by decide)
  ⟨by decide, by decide, h.1, (h.2 (by decide)).1, (h.2 (by decide)).2⟩

/-- Claim C13, counterexample. The table `relro_outside` has loadable segments over
`[0, 0x2000)` and a `PT_GNU_RELRO` entry at `0x100000` of size `0x1000`. The call succeeds with
the reservation `[0x800000, 0x802000)` and records the range `[0x900000, 0x901000)`, which is
not inside it. -/
theorem relro_range_outside_reservation :
    last_of PT_GNU_RELRO relro_outside = some (relro_entry 0x100000 0x1000) ∧
    (map_object plain_target sys_ok 3 none (good_hdr 64 4) relro_outside).ret.map
      (fun o => (o.mapbase, o.mapsize, o.relro_page, o.relro_size,
        decide (o.relro_page + o.relro_size ≤ o.mapbase + o.mapsize),
        decide (sub64 o.relro_page o.mapbase + o.relro_size ≤ o.mapsize)))
      = some (0x800000, 0x2000, 0x900000, 0x1000, false, false) := by
  decide

/-! ## Overlays and the reservation (C14) -/

/-- Every call the mapping loop appends is a call of `segment_calls` for one of the segments. -/
theorem map_segments_events (S : Sys) (fd : Int) (hdr : Elf_Ehdr) (mapbase base_vaddr : Nat)
    (segs : List Elf_Phdr) :
    ∀ (i : Nat) (st : MapState), ∃ es,
      (map_segments S fd hdr mapbase base_vaddr i segs st).2.trace = st.trace ++ es ∧
      ∀ e ∈ es, ∃ j seg, seg ∈ segs ∧ e ∈ (segment_calls S fd mapbase base_vaddr j seg).2 := by
  induction segs with
  | nil => intro i st; exact ⟨[], by simp [map_segments], by simp⟩
  | cons seg rest ih =>
    intro i st
    unfold map_segments map_segment
    rcases hr : segment_calls S fd mapbase base_vaddr i seg with ⟨b, es⟩
    have hes : ∀ e ∈ es, ∃ j s, s ∈ seg :: rest ∧
        e ∈ (segment_calls S fd mapbase base_vaddr j s).2 := by
      intro e he
      exact ⟨i, seg, List.mem_cons_self _ _, by rw [hr]; exact he⟩
    cases b with
    | false => exact ⟨es, rfl, hes⟩
    | true =>
      dsimp only []
      obtain ⟨es2, h2, h3⟩ := ih (i + 1)
        { phdr_vaddr := phdr_vaddr_step hdr seg st.phdr_vaddr, trace := st.trace ++ es }
      refine ⟨es ++ es2, ?_, ?_⟩
      · rw [h2, List.append_assoc]
      · intro e he
        rcases List.mem_append.1 he with h | h
        · exact hes e h
        · obtain ⟨j, s, hs, hm⟩ := h3 e h
          exact ⟨j, s, List.mem_cons_of_mem _ hs, hm⟩

/-- Every overlay in the trace of `map_object` is a call of `segment_calls` for a loadable
segment, at the granted address and the base of the first loadable segment. -/
theorem overlay_provenance (T : Target) (S : Sys) (fd : Int) (sb : Option Stat) (hdr : Elf_Ehdr)
    (phdrs : List Elf_Phdr) :
    ∀ e ∈ (map_object T S fd sb hdr phdrs).trace, is_overlay e = true →
      ∃ phdyn s0 sn j seg, Layout phdrs phdyn s0 sn ∧ seg ∈ loads phdrs ∧
        e ∈ (segment_calls S fd S.mmap_reserve (trunc_page s0.p_vaddr) j seg).2 := by
  have hp1 : ∀ a l pr f d o r, is_overlay (Event.mmap Site.hdr a l pr f d o r) = false := by
    intros; rfl
  have hp2 : ∀ s a l, is_overlay (Event.munmap s a l) = false := by intros; rfl
  have hp3 : ∀ a l pr f d o r, is_overlay (Event.mmap Site.note a l pr f d o r) = false := by
    intros; rfl
  have hres : ∀ s0 sn, is_overlay (reserve_event S s0 sn) = false := by intros; rfl
  have hnil : ∀ (l : List Event) (e : Event), l.filter is_overlay = [] → e ∈ l →
      is_overlay e = true → False := by
    intro l e hl he ho
    have : e ∈ l.filter is_overlay := List.mem_filter.2 ⟨he, ho⟩
    rw [hl] at this
    exact List.not_mem_nil _ this
  have hseg : ∀ (ha : Nat) (tr : List Event) (st : ScanState) (phdyn s0 sn : Elf_Phdr)
      (b : Bool) (ms : MapState), Scanned T S fd sb hdr phdrs ha tr st →
      Layout phdrs phdyn s0 sn →
      map_segments S fd hdr S.mmap_reserve (trunc_page s0.p_vaddr) 0 (loads phdrs)
        { phdr_vaddr := st.phdr_vaddr, trace := st.trace ++ [reserve_event S s0 sn] }
        = (b, ms) →
      ∀ e ∈ ms.trace.filter is_overlay,
        ∃ phdyn s0 sn j seg, Layout phdrs phdyn s0 sn ∧ seg ∈ loads phdrs ∧
          e ∈ (segment_calls S fd S.mmap_reserve (trunc_page s0.p_vaddr) j seg).2 := by
    intro ha tr st phdyn s0 sn b ms hsc hlay hm e he
    obtain ⟨he1, he2⟩ := List.mem_filter.1 he
    obtain ⟨es, h1, h2⟩ := map_segments_events S fd hdr S.mmap_reserve (trunc_page s0.p_vaddr)
      (loads phdrs) 0
      { phdr_vaddr := st.phdr_vaddr, trace := st.trace ++ [reserve_event S s0 sn] }
    rw [hm] at h1
    dsimp only [] at h1
    rw [h1] at he1
    rcases List.mem_append.1 he1 with h | h
    · rcases List.mem_append.1 h with h | h
      · exact (hnil _ e (scanned_trace_filter hsc _ hp1 hp3) h he2).elim
      · rw [List.mem_singleton] at h
        rw [h, hres] at he2
        cases he2
    · obtain ⟨j, seg, hs, hmem⟩ := h2 e h
      exact ⟨phdyn, s0, sn, j, seg, hlay, hs, hmem⟩
  refine map_object_cases T S fd sb hdr phdrs (fun R =>
    ∀ e ∈ R.trace, is_overlay e = true →
      ∃ phdyn s0 sn j seg, Layout phdrs phdyn s0 sn ∧ seg ∈ loads phdrs ∧
        e ∈ (segment_calls S fd S.mmap_reserve (trunc_page s0.p_vaddr) j seg).2)
    ?_ ?_ ?_ ?_ ?_ ?_ ?_ ?_
  · intro tr hg e he ho
    have := get_elf_header_filter is_overlay hp1 hp2 T S fd sb hdr
    rw [hg] at this
    exact (hnil _ e this he ho).elim
  · intro ha tr st hg hs e he ho
    refine (hnil _ e ?_ he ho).elim
    rw [fail_result_trace, error_exit_filter _ hp2]
    exact scan_fail_trace_filter T S fd sb hdr phdrs ha tr st false hg hs _ hp1 hp3
  · intro ha tr st hsc habs e he ho
    refine (hnil _ e ?_ he ho).elim
    rw [fail_result_trace, error_exit_filter _ hp2]
    exact scanned_trace_filter hsc _ hp1 hp3
  · intro ha tr st phdyn s0 sn hsc hlay hb hc e he ho
    refine (hnil _ e ?_ he ho).elim
    rw [fail_result_trace, error_exit_filter _ hp2]
    exact scanned_trace_filter hsc _ hp1 hp3
  · intro ha tr st phdyn s0 sn hsc hlay hb hf e he ho
    refine (hnil _ e ?_ he ho).elim
    rw [fail_result_trace, error_exit_filter _ hp2, List.filter_append,
      scanned_trace_filter hsc _ hp1 hp3]
    simp [hres]
  · intro ha tr st phdyn s0 sn hsc hlay hc hf hb hne e he ho
    refine (hnil _ e ?_ he ho).elim
    rw [fail_result_trace, error1_exit_filter _ hp2, List.filter_append,
      scanned_trace_filter hsc _ hp1 hp3]
    simp [hres]
  · intro ha tr st phdyn s0 sn ms hsc hlay hb hf hat hm e he ho
    apply hseg ha tr st phdyn s0 sn false ms hsc hlay hm
    have h1 : e ∈ (fail_result S (error1_exit ha st S.mmap_reserve (reserve_size s0 sn)
        ms.trace)).trace.filter is_overlay := List.mem_filter.2 ⟨he, ho⟩
    rw [fail_result_trace, error1_exit_filter _ hp2] at h1
    exact h1
  · intro ha tr st phdyn s0 sn ms hsc hlay hb hf hat hm e he ho
    apply hseg ha tr st phdyn s0 sn true ms hsc hlay hm
    have h1 : e ∈ (build_obj T S sb hdr ha st phdyn s0 S.mmap_reserve (reserve_size s0 sn)
        (trunc_page s0.p_vaddr) ms.phdr_vaddr ms.trace).trace.filter is_overlay :=
      List.mem_filter.2 ⟨he, ho⟩
    rw [build_obj_filter is_overlay hp2 (by intros; rfl) rfl rfl (by intros; rfl)
      (by intros; rfl)] at h1
    exact h1

theorem offset_eq (mb t B : Nat) (hB : B ≤ t) (ht : t < 18446744073709551616) :
    sub64 (add64 mb (sub64 t B)) mb = t - B := by
  unfold add64 sub64 W64
  omega

theorem addr_eq (mb t B : Nat) (hB : B ≤ t) (h : mb + (t - B) < 18446744073709551616) :
    add64 mb (sub64 t B) = mb + (t - B) := by
  unfold add64 sub64 W64
  omega

/-- An overlay `[t, u)` of link-time addresses with `B <= t <= u <= L`, placed at
`mapbase + (t - B)`, lies inside the reservation of `L - B` bytes at `mapbase`. -/
theorem overlay_arith (mb B t u L : Nat) (hB : B ≤ t) (htu : t ≤ u) (huL : u ≤ L)
    (hL : L < 18446744073709551616) :
    sub64 (add64 mb (sub64 t B)) mb + sub64 u t ≤ sub64 L B ∧
    (mb + sub64 L B < 18446744073709551616 →
      mb ≤ add64 mb (sub64 t B) ∧ add64 mb (sub64 t B) + sub64 u t ≤ mb + sub64 L B) := by
  have h1 := offset_eq mb t B hB (by omega)
  have h2 : sub64 u t = u - t := sub64_eq u t htu (by omega)
  have h3 : sub64 L B = L - B := sub64_eq L B (by omega) hL
  rw [h1, h2, h3]
  refine ⟨by omega, fun hw => ?_⟩
  rw [addr_eq mb t B hB (by omega)]
  omega

theorem trunc_page_mono (a b : Nat) (h : a ≤ b) (hb : b < 18446744073709551616) :
    trunc_page a ≤ trunc_page b := by
  unfold trunc_page W64 PAGE_SIZE
  omega

theorem round_page_mono (a b : Nat) (h : a ≤ b) (hb : b ≤ 18446744073709547520) :
    round_page a ≤ round_page b ∧ round_page b < 18446744073709551616 := by
  rw [round_page_eq a (by omega), round_page_eq b hb]
  omega

theorem trunc_le_round (v f : Nat) (h : v + f ≤ 18446744073709547520) :
    trunc_page v ≤ round_page (v + f) := by
  rw [round_page_eq _ h, trunc_page_eq v (by omega)]
  omega

theorem head_le_of_pairwise (l : List Elf_Phdr) (s0 seg : Elf_Phdr) (h0 : l.head? = some s0)
    (hp : l.Pairwise (fun a b => a.p_vaddr ≤ b.p_vaddr)) (hs : seg ∈ l) :
    s0.p_vaddr ≤ seg.p_vaddr := by
  cases l with
  | nil => cases hs
  | cons a rest =>
    have e : a = s0 := Option.some.inj h0
    subst e
    rcases List.mem_cons.1 hs with h | h
    · rw [h]
    · exact (List.pairwise_cons.1 hp).1 seg h

/-- Claim C14, as amended. Suppose the loadable segments appear in non-decreasing `p_vaddr`
order, no loadable segment extends beyond the end of the last one in the file or in memory
(`p_vaddr + p_filesz` and `p_vaddr + p_memsz` are at most `p_vaddr + p_memsz` of the last), and
that end is not within a page of `2^64`. Then every fixed-position overlay `map_object` issues
is, for some loadable segment, the file-backed overlay at
`mapbase + (trunc_page(p_vaddr) - base_vaddr)` of length
`round_page(p_vaddr + p_filesz) - trunc_page(p_vaddr)` or the anonymous overlay at
`mapbase + (round_page(p_vaddr + p_filesz) - base_vaddr)` of length
`round_page(p_vaddr + p_memsz) - round_page(p_vaddr + p_filesz)`, and it lies inside the
reserved range: its offset from `mapbase` plus its length is at most `mapsize`, and when the
reservation does not reach the end of the address space `mapbase <= addr` and
`addr + len <= mapbase + mapsize`. Here `mapbase` is the granted address `S.mmap_reserve` and
`mapsize` is `reserve_size s0 sn`, the result and the length of the reservation call
`reserve_event S s0 sn`, which the trace contains. -/
theorem overlays_within_reservation (T : Target) (S : Sys) (fd : Int) (sb : Option Stat)
    (hdr : Elf_Ehdr) (phdrs : List Elf_Phdr) (s0 sn : Elf_Phdr)
    (h0 : (loads phdrs).head? = some s0) (hn : (loads phdrs).getLast? = some sn)
    (hord : (loads phdrs).Pairwise (fun a b => a.p_vaddr ≤ b.p_vaddr))
    (hin : ∀ seg ∈ loads phdrs, seg.p_vaddr + seg.p_filesz ≤ sn.p_vaddr + sn.p_memsz ∧
      seg.p_vaddr + seg.p_memsz ≤ sn.p_vaddr + sn.p_memsz)
    (hno : sn.p_vaddr + sn.p_memsz ≤ W64 - PAGE_SIZE) :
    ∀ e ∈ (map_object T S fd sb hdr phdrs).trace, is_overlay e = true →
      reserve_event S s0 sn ∈ (map_object T S fd sb hdr phdrs).trace ∧
      ∃ seg ∈ loads phdrs, ∃ site addr len prot flags f off res,
        e = Event.mmap site addr len prot flags f off res ∧
        ((site = Site.data ∧
          addr = add64 S.mmap_reserve
            (sub64 (trunc_page seg.p_vaddr) (trunc_page s0.p_vaddr)) ∧
          len = sub64 (round_page (add64 seg.p_vaddr seg.p_filesz)) (trunc_page seg.p_vaddr)) ∨
         (site = Site.bss ∧
          addr = add64 S.mmap_reserve
            (sub64 (round_page (add64 seg.p_vaddr seg.p_filesz)) (trunc_page s0.p_vaddr)) ∧
          len = sub64 (round_page (add64 seg.p_vaddr seg.p_memsz))
            (round_page (add64 seg.p_vaddr seg.p_filesz)))) ∧
        sub64 addr S.mmap_reserve + len ≤ reserve_size s0 sn ∧
        (S.mmap_reserve + reserve_size s0 sn < W64 →
          S.mmap_reserve ≤ addr ∧ addr + len ≤ S.mmap_reserve + reserve_size s0 sn) := by
  intro e he ho
  obtain ⟨phdyn, s0a, sna, j, seg, hlay, hs, hmem⟩ :=
    overlay_provenance T S fd sb hdr phdrs e he ho
  have e0 : s0a = s0 := Option.some.inj (hlay.first.symm.trans h0)
  subst e0
  have hrsv : reserve_event S s0a sn ∈ (map_object T S fd sb hdr phdrs).trace := by
    rcases reserve_calls T S fd sb hdr phdrs with
      ⟨_, _, _, phdyn1, s1, sn1, -, hlay1, -, hfil⟩ | ⟨-, hfil, -⟩
    · have e1 : s1 = s0a := Option.some.inj (hlay1.first.symm.trans h0)
      have e2 : sn1 = sn := Option.some.inj (hlay1.last.symm.trans hn)
      subst e1 e2
      have : reserve_event S s1 sn1 ∈
          (map_object T S fd sb hdr phdrs).trace.filter (is_mmap Site.reserve) := by
        rw [hfil]; exact List.mem_singleton.2 rfl
      exact (List.mem_filter.1 this).1
    · have ho1 : is_object_mmap e = true := by
        unfold is_object_mmap
        unfold is_overlay at ho
        rw [Bool.or_assoc, ho, Bool.or_true]
      have : e ∈ (map_object T S fd sb hdr phdrs).trace.filter is_object_mmap :=
        List.mem_filter.2 ⟨he, ho1⟩
      rw [hfil] at this
      exact absurd this (List.not_mem_nil _)
  have hE : sn.p_vaddr + sn.p_memsz ≤ 18446744073709547520 := by
    have := hno
    unfold W64 PAGE_SIZE at this
    omega
  obtain ⟨hf, hm⟩ := hin seg hs
  have hlo : s0a.p_vaddr ≤ seg.p_vaddr := head_le_of_pairwise _ s0a seg h0 hord hs
  have hB : trunc_page s0a.p_vaddr ≤ trunc_page seg.p_vaddr :=
    trunc_page_mono _ _ hlo (by omega)
  have hvf : add64 seg.p_vaddr seg.p_filesz = seg.p_vaddr + seg.p_filesz :=
    add64_eq _ _ (by omega)
  have hvm : add64 seg.p_vaddr seg.p_memsz = seg.p_vaddr + seg.p_memsz :=
    add64_eq _ _ (by omega)
  have hvE : add64 sn.p_vaddr sn.p_memsz = sn.p_vaddr + sn.p_memsz := add64_eq _ _ (by omega)
  have hrf := round_page_mono _ _ hf hE
  have hrm := round_page_mono _ _ hm hE
  have htr : trunc_page seg.p_vaddr ≤ round_page (seg.p_vaddr + seg.p_filesz) :=
    trunc_le_round _ _ (by omega)
  refine ⟨hrsv, seg, hs, ?_⟩
  rcases segment_calls_mem S fd S.mmap_reserve (trunc_page s0a.p_vaddr) j seg e hmem with
    h | ⟨-, h | h⟩
  · refine ⟨Site.data, _, _, _, _, _, _, _, h, Or.inl ⟨rfl, rfl, rfl⟩, ?_⟩
    unfold reserve_size
    rw [hvf, hvE]
    unfold W64
    exact overlay_arith S.mmap_reserve (trunc_page s0a.p_vaddr) (trunc_page seg.p_vaddr)
      (round_page (seg.p_vaddr + seg.p_filesz)) (round_page (sn.p_vaddr + sn.p_memsz))
      hB htr hrf.1 hrf.2
  · obtain ⟨-, h1 | ⟨r, p, ok, h1⟩⟩ := clear_tail_events S S.mmap_reserve
      (trunc_page s0a.p_vaddr) j seg e h
    · rw [h1] at ho; cases ho
    · rw [h1] at ho; cases ho
  · obtain ⟨hgt, res, h1⟩ := bss_overlay_events S S.mmap_reserve (trunc_page s0a.p_vaddr) j seg
      e h
    refine ⟨Site.bss, _, _, _, _, _, _, _, h1, Or.inr ⟨rfl, rfl, rfl⟩, ?_⟩
    rw [hvf, hvm] at hgt
    unfold reserve_size
    rw [hvf, hvm, hvE]
    unfold W64
    exact overlay_arith S.mmap_reserve (trunc_page s0a.p_vaddr)
      (round_page (seg.p_vaddr + seg.p_filesz)) (round_page (seg.p_vaddr + seg.p_memsz))
      (round_page (sn.p_vaddr + sn.p_memsz)) (le_trans hB htr) (le_of_lt hgt) hrm.1 hrm.2

theorem overlays_within_reservation_witness :
    data_mmap sys_ok 3 0x800000 0 1 (load_seg 6 0x1000 0x1000 0x800 0x1000)
      ∈ (map_object plain_target sys_ok 3 none (good_hdr 64 3) two_segments).trace ∧
    (reserve_event sys_ok (load_seg 5 0 0 0x1000 0x1000) (load_seg 6 0x1000 0x1000 0x800 0x1000)
      ∈ (map_object plain_target sys_ok 3 none (good_hdr 64 3) two_segments).trace ∧
    ∃ seg ∈ loads two_segments, ∃ site addr len prot flags f off res,
      data_mmap sys_ok 3 0x800000 0 1 (load_seg 6 0x1000 0x1000 0x800 0x1000)
        = Event.mmap site addr len prot flags f off res ∧
      ((site = Site.data ∧
        addr = add64 sys_ok.mmap_reserve
          (sub64 (trunc_page seg.p_vaddr) (trunc_page (load_seg 5 0 0 0x1000 0x1000).p_vaddr)) ∧
        len = sub64 (round_page (add64 seg.p_vaddr seg.p_filesz)) (trunc_page seg.p_vaddr)) ∨
       (site = Site.bss ∧
        addr = add64 sys_ok.mmap_reserve
          (sub64 (round_page (add64 seg.p_vaddr seg.p_filesz))
            (trunc_page (load_seg 5 0 0 0x1000 0x1000).p_vaddr)) ∧
        len = sub64 (round_page (add64 seg.p_vaddr seg.p_memsz))
          (round_page (add64 seg.p_vaddr seg.p_filesz)))) ∧
      sub64 addr sys_ok.mmap_reserve + len
        ≤ reserve_size (load_seg 5 0 0 0x1000 0x1000) (load_seg 6 0x1000 0x1000 0x800 0x1000) ∧
      (sys_ok.mmap_reserve
          + reserve_size (load_seg 5 0 0 0x1000 0x1000) (load_seg 6 0x1000 0x1000 0x800 0x1000)
          < W64 →
        sys_ok.mmap_reserve ≤ addr ∧
        addr + len ≤ sys_ok.mmap_reserve
          + reserve_size (load_seg 5 0 0 0x1000 0x1000)
              (load_seg 6 0x1000 0x1000 0x800 0x1000))) :=
  ⟨by decide,
   overlays_within_reservation plain_target sys_ok 3 none (good_hdr 64 3) two_segments
     (load_seg 5 0 0 0x1000 0x1000) (load_seg 6 0x1000 0x1000 0x800 0x1000) (by decide)
     (by decide) (by decide) (by decide) (by decide) _ (by decide) (by decide)⟩

/-- Claim C14, counterexample. The loadable segments of `long_first` are in non-decreasing
`p_vaddr` order (`0`, `0x1000`), but the first one is `0x3000` bytes long and the last one ends
at `0x2000`. The call succeeds; the reservation is `[0x800000, 0x802000)` and the file-backed
overlay of the first segment is the fixed-position mapping `[0x800000, 0x803000)`, whose last
page is outside the reserved range. The same happens without any overlap for `long_file`, a
single loadable segment whose file size `0x3000` exceeds its memory size `0x1000`: the
reservation is `[0x800000, 0x801000)` and the overlay `[0x800000, 0x803000)`. -/
theorem overlay_beyond_reservation :
    (loads long_first).Pairwise (fun a b => a.p_vaddr ≤ b.p_vaddr) ∧
    (map_object plain_target sys_ok 3 none (good_hdr 64 3) long_first).ret.isSome = true ∧
    (map_object plain_target sys_ok 3 none (good_hdr 64 3) long_first).trace.filter
        (is_mmap Site.reserve) =
      [Event.mmap Site.reserve 0 0x2000 (PROT_NONE ||| PROT_MAX PROT_ALL) MAP_GUARD (-1) 0
        0x800000] ∧
    (map_object plain_target sys_ok 3 none (good_hdr 64 3) long_first).trace.filter is_overlay =
      [Event.mmap Site.data 0x800000 0x3000 (convert_prot 5)
        (convert_flags 5 ||| MAP_FIXED ||| MAP_PREFAULT_READ) 3 0 0x800000,
       Event.mmap Site.data 0x801000 0x1000 (convert_prot 6)
        (convert_flags 6 ||| MAP_FIXED ||| MAP_PREFAULT_READ) 3 0x1000 0x801000] ∧
    ¬ (sub64 0x800000 0x800000 + 0x3000 ≤ 0x2000) ∧
    (map_object plain_target sys_ok 3 none (good_hdr 64 3) long_first).ret.map
      (fun o => (o.mapbase, o.mapsize)) = some (0x800000, 0x2000) ∧
    (map_object plain_target sys_ok 3 none (good_hdr 64 2) long_file).ret.map
      (fun o => (o.mapbase, o.mapsize)) = some (0x800000, 0x1000) ∧
    (map_object plain_target sys_ok 3 none (good_hdr 64 2) long_file).trace.filter is_overlay =
      [Event.mmap Site.data 0x800000 0x3000 (convert_prot 5)
        (convert_flags 5 ||| MAP_FIXED ||| MAP_PREFAULT_READ) 3 0 0x800000] := by
  decide

end MapObject
